import Mathlib

/-!
# Storefront page scripts: price parsing, filtering, sorting and the order hand-off

A shallow embedding of the page scripts under `js/`:

* `Agbada.js` (the men's Agbada page),
* `casualWears.js` (the casual-wear page, with phone normalisation),
* `wrapperSets.js` (the generalised collection controller, `traditional-collection.js`:
  filter, sort, load-more, lazy images, preview overlay, initialisation),
* `Geleset.js` (the gowns page: filter, sort and load-more on the card nodes),
* `iro-and-buba.js` (its load-more handler),
* `reviews-1.js` (the reviews page: summary, filter and sort, helpful control, review
  form, load-more, escaping),
* `script-1.js` (its newsletter handler; the one of `Agbada.js` is modelled next to it),
* `gifts-1.js` (the order modal of the gifts page: its handlers as written, and whether
  the script is evaluated at all).

Conventions of the embedding:

* Strings are Lean strings.  The method `toLowerCase` is a parameter `lower` of the
  functions that call it, so the theorems hold for the engine's own lower-casing;
  concrete runs use `asciiLower`.
* A script number is modelled by `JsNumber`: the value of a non-negative integer-valued
  IEEE-754 double, or `+Infinity`; these are the only numbers the price code can
  produce.  `roundDouble` is the rounding that `parseInt` and `Number` apply.
* `Array.prototype.sort` is modelled by `jsSort`, a stable sort that reads the sign of
  the comparator.
* The document is modelled by records holding exactly the attributes and properties
  that the handlers read and write.  A grid is the list of the children of its row, in
  document order; column wrappers are children of the row, and appending a node that is
  already in the row moves it to the end.
* A handler is a function from the state before the event to the state after it,
  together with the effects it leaves (addresses opened, warnings, timers).  A handler
  that defers work with `setTimeout` is two functions: the click, and the delayed action
  on the state it then finds.
* A node that only its identity matters for (a control a handler is attached to, a
  function object) is a number; a pattern of the scripts is the list of its pieces,
  matched by `matchAtoms`.
* The text of an element into which a script writes a number is a `NumText`: reading a
  number back from the text the engine wrote for it gives that number.  The engine's
  `toFixed(1)` is a parameter `fmt` of the functions that call it; concrete runs use
  `Reviews.fixed1`.
* The reviews script reads numbers from texts with `Number(v) || 0`.  Since `JsNumber`
  holds whole numbers, `Reviews.toNumber` is the script's function on the texts that
  `Reviews.readable` marks: whole-number numerals and texts that are no numbers.  The
  theorems about ratings and counters assume it of the texts they read.
* A script is evaluated only if its text parses.  For `gifts-1.js` this is decided on the
  text of its line 225 (`Gifts.scriptParses`), and a page is a `Gifts.Site`: the state of
  the handlers together with whether the script gave it a modal and wired its buttons.
-/

namespace Newpage

/-! ## Engine primitives -/

/-- The regular-expression class `\d` (without the unicode flag): the ASCII digits. -/
def isDigit (c : Char) : Bool :=
  decide (48 ≤ c.toNat) && decide (c.toNat ≤ 57)

/-- The regular-expression class `\s`, which is also the set removed by `trim()`:
white space and line terminators of the language. -/
def isSpace (c : Char) : Bool :=
  let n := c.toNat
  decide (9 ≤ n ∧ n ≤ 13) || n == 32 || n == 160 || n == 5760 ||
  decide (8192 ≤ n ∧ n ≤ 8202) || n == 8232 || n == 8233 || n == 8239 ||
  n == 8287 || n == 12288 || n == 65279

/-- A number of the scripting language, as far as price code can produce one:
`fin n` is the double whose value is the integer `n`, `inf` is `+Infinity`. -/
inductive JsNumber where
  | fin (n : Nat)
  | inf
  deriving DecidableEq, Repr

/-- The number of low-order bits of `n` that do not fit a 53-bit significand: how many
times `n` is halved until it is below `2^53` (the first argument bounds the count). -/
def dropBits : Nat → Nat → Nat
  | 0, _ => 0
  | fuel + 1, n => if n < 2 ^ 53 then 0 else dropBits fuel (n / 2) + 1

/-- Conversion of a mathematical non-negative integer to a double: round to nearest,
ties to even, on a 53-bit significand; values that round to `2^1024 = (2^256)^4` or
more become `+Infinity`. -/
def roundDouble (n : Nat) : JsNumber :=
  if n < 2 ^ 53 then JsNumber.fin n
  else
    let e := dropBits n n
    let q := n / 2 ^ e
    let r := n % 2 ^ e
    let half := 2 ^ (e - 1)
    let q1 := if half < r ∨ (r = half ∧ q % 2 = 1) then q + 1 else q
    let v := q1 * 2 ^ e
    if (2 ^ 256) ^ 4 ≤ v then JsNumber.inf else JsNumber.fin v

/-- The value of one ASCII digit character. -/
def digitVal (c : Char) : Nat := c.toNat - 48

/-- The mathematical integer denoted by a string of decimal digits, read left to
right (the empty string denotes 0). -/
def mathInt (ds : List Char) : Nat :=
  ds.foldl (fun acc c => 10 * acc + digitVal c) 0

/-- The call `text.replace(/[^\d]/g, '')`: every character that is not an ASCII digit
is removed. -/
def stripNonDigits (text : String) : List Char :=
  text.data.filter isDigit

/-- The call `parseInt(z, 10)` on a non-empty string `z` of decimal digits. -/
def parseInt10 (z : List Char) : JsNumber := roundDouble (mathInt z)

/-- The call `Number(z)` on a string `z` of decimal digits (the empty string gives 0). -/
def toNumber (z : List Char) : JsNumber := roundDouble (mathInt z)

/-- The expression `x || 0` on a non-negative number: `0` is falsy and is replaced
by `0`, every other value is kept. -/
def orZero (x : JsNumber) : JsNumber :=
  match x with
  | JsNumber.fin 0 => JsNumber.fin 0
  | v => v

namespace Agbada

/-- `parsePrice` of `Agbada.js` (the same body is in `casualWears.js`):
`if (!text) return 0; digits = text.replace(/[^\d]/g, ''); return parseInt(digits || '0', 10)`. -/
def parsePrice (text : String) : JsNumber :=
  if text = "" then JsNumber.fin 0
  else
    let digits := stripNonDigits text
    parseInt10 (if digits = [] then ['0'] else digits)

end Agbada

namespace Collection

/-- `parsePrice` of `wrapperSets.js`:
`if (!text) return 0; return Number(String(text).replace(/[^\d]/g, '')) || 0`. -/
def parsePrice (text : String) : JsNumber :=
  if text = "" then JsNumber.fin 0
  else orZero (toNumber (stripNonDigits text))

end Collection

/-! ## String primitives -/

/-- The method `trim()`: white space and line terminators are removed from both ends. -/
def trim (s : String) : String :=
  String.mk ((s.data.dropWhile isSpace).reverse.dropWhile isSpace).reverse

/-- Worker of `splitWs`: `cur` holds the current piece reversed, `inSep` tells that the
previous character was white space (so that a run of white space separates once). -/
def splitWsAux : List Char → List Char → Bool → List String
  | [], cur, _ => [String.mk cur.reverse]
  | c :: cs, cur, inSep =>
    if isSpace c then
      if inSep then splitWsAux cs cur true
      else String.mk cur.reverse :: splitWsAux cs [] true
    else splitWsAux cs (c :: cur) false

/-- The call `s.split(/\s+/)`: the pieces between maximal runs of white space; white
space at either end gives an empty piece there, and the empty string gives `['']`. -/
def splitWs (s : String) : List String :=
  splitWsAux s.data [] false

/-- The method `join(sep)` of an array of strings. -/
def join (sep : String) : List String → String
  | [] => ""
  | [a] => a
  | a :: b :: rest => a ++ sep ++ join sep (b :: rest)

/-- The characters that `encodeURIComponent` leaves as they are:
`A-Z a-z 0-9 - _ . ! ~ * ' ( )`. -/
def isUnreserved (c : Char) : Bool :=
  let n := c.toNat
  decide (65 ≤ n ∧ n ≤ 90) || decide (97 ≤ n ∧ n ≤ 122) || decide (48 ≤ n ∧ n ≤ 57) ||
  n == 45 || n == 95 || n == 46 || n == 33 || n == 126 || n == 42 || n == 39 ||
  n == 40 || n == 41

/-- The UTF-8 octets of a code point. -/
def utf8Bytes (n : Nat) : List Nat :=
  if n < 128 then [n]
  else if n < 2048 then [192 + n / 64, 128 + n % 64]
  else if n < 65536 then [224 + n / 4096, 128 + n / 64 % 64, 128 + n % 64]
  else [240 + n / 262144, 128 + n / 4096 % 64, 128 + n / 64 % 64, 128 + n % 64]

/-- One upper-case hexadecimal digit. -/
def hexDigit (d : Nat) : Char :=
  if d < 10 then Char.ofNat (48 + d) else Char.ofNat (55 + d)

/-- The escape `%XX` of one octet. -/
def percentByte (b : Nat) : List Char :=
  ['%', hexDigit (b / 16), hexDigit (b % 16)]

/-- The encoding of one character by `encodeURIComponent`. -/
def encodeChar (c : Char) : List Char :=
  if isUnreserved c then [c] else (utf8Bytes c.toNat).flatMap percentByte

/-- The function `encodeURIComponent` (a Lean string holds no lone surrogate, so the
call does not throw). -/
def encodeURIComponent (s : String) : String :=
  String.mk (s.data.flatMap encodeChar)

/-- The fixed default contact used by every page script. -/
def defaultPhone : String := "2348136754060"

/-- What a handler leaves behind besides the changed elements: the addresses handed to
`window.open`, the lines written with `console.warn`, and the delays (in ms) of the
callbacks it scheduled with `setTimeout`. -/
structure Effects where
  opened : List String
  warnings : List String
  timers : List Nat
  deriving DecidableEq, Repr

/-- A size selector of a card: its current `value`, whether its class list holds
`is-invalid`, and whether it has been given the focus. -/
structure SizeSelect where
  value : String
  invalid : Bool
  focused : Bool
  deriving DecidableEq, Repr

/-- An order control: its `data-phone` attribute (`dataset.phone` reads the same
attribute). -/
structure OrderBtn where
  dataPhone : Option String
  deriving DecidableEq, Repr

/-- The expression `btn.getAttribute('data-phone') || btn.dataset.phone || fallback`:
an absent or empty attribute is falsy. -/
def phoneOf (btn : OrderBtn) (fallback : String) : String :=
  match btn.dataPhone with
  | some p => if p = "" then fallback else p
  | Option.none => fallback

/-- What the order handlers of `Agbada.js` and `casualWears.js` look up inside the card
that encloses the order control.  Each field is the result of one `querySelector` call
(`none` when nothing matches); for text elements the field holds `textContent`, for the
notes field it holds `value`. -/
structure OrderCard where
  cardTitle : Option String
  h5 : Option String
  productTitle : Option String
  price : Option String
  cardTextPrice : Option String
  sizeSelect : Option SizeSelect
  selectSize : Option SizeSelect
  variant : Option String
  color : Option String
  customMeasurements : Option String
  deriving DecidableEq, Repr

/-- The chain `a || b` on query results. -/
def orElse {α : Type} (a b : Option α) : Option α :=
  match a with
  | some x => some x
  | Option.none => b

/-- The text `el ? el.textContent.trim() : dflt`. -/
def textOr (el : Option String) (dflt : String) : String :=
  match el with
  | some t => trim t
  | Option.none => dflt

/-- The outcome of an order click: the card as the handler leaves it, and the effects. -/
structure OrderResult where
  card : OrderCard
  effects : Effects
  deriving DecidableEq, Repr

/-- Writes the size selector back into the slot of the card it was found in. -/
def storeSize (card : OrderCard) (sel : SizeSelect) : OrderCard :=
  match card.sizeSelect with
  | some _ => { card with sizeSelect := some sel }
  | Option.none => { card with selectSize := some sel }

namespace Agbada

/-- The function `openWhatsApp(phone, message)` of `Agbada.js`: the address handed to
`window.open`. -/
def openWhatsApp (phone message : String) : String :=
  "https://wa.me/" ++ encodeURIComponent phone ++ "?text=" ++ encodeURIComponent message

/-- The function `flashInvalid(el)` for an existing element: the class `is-invalid` is
added now; its removal is scheduled 1400 ms later. -/
def flashInvalid (el : SizeSelect) : SizeSelect × Nat :=
  ({ el with invalid := true }, 1400)

/-- The closing request of the Agbada order message. -/
def closing : String :=
  "Please confirm availability, delivery fee, tailoring options, and payment methods. Thank you."

/-- The array `parts` of the order handler. -/
def orderParts (title variant size price custom : String) : List String :=
  ["Hello, I am interested in: " ++ title]
    ++ (if variant = "" then [] else ["Variant: " ++ variant])
    ++ (if size = "" then [] else ["Size: " ++ size])
    ++ (if price = "" then [] else ["Price: " ++ price])
    ++ (if custom = "" then [] else ["Measurements/Notes: " ++ custom])
    ++ [closing]

/-- The title the handler reads: the trimmed text of the first of `.card-title`, `h5`,
`.product-title`, and `'Agbada'` without such an element. -/
def titleOf (card : OrderCard) : String :=
  textOr (orElse (orElse card.cardTitle card.h5) card.productTitle) "Agbada"

/-- The price text the handler reads. -/
def priceOf (card : OrderCard) : String :=
  textOr (orElse card.price card.cardTextPrice) ""

/-- The variant text the handler reads. -/
def variantOf (card : OrderCard) : String :=
  textOr (orElse card.variant card.color) ""

/-- The notes the handler reads: `customInput ? (customInput.value || '').trim() : ''`. -/
def customOf (card : OrderCard) : String :=
  textOr card.customMeasurements ""

/-- The size selector the handler finds: `.size-select`, else `select.size`. -/
def sizeSelectOf (card : OrderCard) : Option SizeSelect :=
  orElse card.sizeSelect card.selectSize

/-- The size the handler reads: `sizeSelect ? (sizeSelect.value || '').trim() : ''`. -/
def sizeOf (card : OrderCard) : String :=
  match sizeSelectOf card with
  | some sel => trim sel.value
  | Option.none => ""

/-- The array `parts` for a card. -/
def partsOf (card : OrderCard) : List String :=
  orderParts (titleOf card) (variantOf card) (sizeOf card) (priceOf card) (customOf card)

/-- The message the handler builds for a card: `parts.join(' | ')`. -/
def orderMessage (card : OrderCard) : String :=
  join " | " (partsOf card)

/-- The click handler of an order control (`.order-btn`) of `Agbada.js`, for the card
enclosing the control. -/
def orderClick (btn : OrderBtn) (card : OrderCard) : OrderResult :=
  match sizeSelectOf card with
  | some sel =>
    if sizeOf card = "" then
      let flashed := flashInvalid sel
      ⟨storeSize card { flashed.1 with focused := true }, ⟨[], [], [flashed.2]⟩⟩
    else
      ⟨card, ⟨[openWhatsApp (phoneOf btn defaultPhone) (orderMessage card)], [], []⟩⟩
  | Option.none =>
    ⟨card, ⟨[openWhatsApp (phoneOf btn defaultPhone) (orderMessage card)], [], []⟩⟩

end Agbada

namespace Casual

/-- The function `normalizePhone(raw)` of `casualWears.js`: digits only, with a country
code; `none` stands for `null`. -/
def normalizePhone (raw : String) : Option String :=
  if raw = "" then Option.none
  else
    let digits := stripNonDigits raw
    if digits = [] then Option.none
    else if 10 ≤ digits.length ∧ digits.head? ≠ some '0' then some (String.mk digits)
    else if 10 ≤ digits.length ∧ digits.head? = some '0' then
      some ("234" ++ String.mk (digits.dropWhile (fun c => c == '0')))
    else Option.none

/-- The address that `openWhatsApp` builds once the number is settled:
`'https://wa.me/' + normalized + (encodedMessage ? ('?text=' + encodedMessage) : '')`
with `encodedMessage = encodeURIComponent(String(message || '').trim())`. -/
def buildUrl (normalized message : String) : String :=
  let encodedMessage := encodeURIComponent (trim message)
  "https://wa.me/" ++ normalized ++
    (if encodedMessage = "" then "" else "?text=" ++ encodedMessage)

/-- The function `openWhatsApp(phone, message)` of `casualWears.js`: the address it
navigates to (through `window.open`, or through `location.href` should that throw),
and the warnings it logs. -/
def openWhatsApp (phone message : String) : Effects :=
  match normalizePhone phone with
  | some normalized => ⟨[buildUrl normalized message], [], []⟩
  | Option.none =>
    ⟨[buildUrl "2348136754060" message],
      ["Invalid phone provided for WhatsApp; using fallback: 2348136754060"], []⟩

/-- The closing request of the casual-wear order message. -/
def closing : String :=
  "Please confirm availability, delivery fee, and payment options. Thank you."

/-- The array `parts` of the order handler. -/
def orderParts (title variant size price : String) : List String :=
  ["Hello, I am interested in: " ++ title]
    ++ (if variant = "" then [] else ["Variant: " ++ variant])
    ++ (if size = "" then [] else ["Size: " ++ size])
    ++ (if price = "" then [] else ["Price: " ++ price])
    ++ [closing]

/-- The title the handler reads; `'Product'` without a title element. -/
def titleOf (card : OrderCard) : String :=
  textOr (orElse (orElse card.cardTitle card.h5) card.productTitle) "Product"

/-- The array `parts` for a card. -/
def partsOf (card : OrderCard) : List String :=
  orderParts (titleOf card) (Agbada.variantOf card) (Agbada.sizeOf card) (Agbada.priceOf card)

/-- The message the handler builds for a card: `parts.join(' | ')`. -/
def orderMessage (card : OrderCard) : String :=
  join " | " (partsOf card)

/-- The click handler of an order control of `casualWears.js`. -/
def orderClick (btn : OrderBtn) (card : OrderCard) : OrderResult :=
  match Agbada.sizeSelectOf card with
  | some sel =>
    if Agbada.sizeOf card = "" then
      let flashed := Agbada.flashInvalid sel
      ⟨storeSize card { flashed.1 with focused := true }, ⟨[], [], [flashed.2]⟩⟩
    else ⟨card, openWhatsApp (phoneOf btn "2348136754060") (orderMessage card)⟩
  | Option.none => ⟨card, openWhatsApp (phoneOf btn "2348136754060") (orderMessage card)⟩

end Casual

namespace Collection

/-- The function `openWhatsApp(phone, message)` of `wrapperSets.js`. -/
def openWhatsApp (phone message : String) : String :=
  "https://wa.me/" ++ encodeURIComponent phone ++ "?text=" ++ encodeURIComponent message

/-- The title read by the order handler of `wrapperSets.js`:
`(card.querySelector('.card-title') || {}).textContent || 'item'` (not trimmed). -/
def orderTitle (card : OrderCard) : String :=
  match card.cardTitle with
  | some t => if t = "" then "item" else t
  | Option.none => "item"

/-- The array `messageParts` of the order handler, after `.filter(Boolean)` has dropped
the empty strings. -/
def messageParts (card : OrderCard) : List String :=
  ["Hello, I would like to order: " ++ orderTitle card,
   (if textOr card.price "" = "" then "" else "Price: " ++ textOr card.price ""),
   (match card.sizeSelect with
    | some sel => "Size: " ++ sel.value
    | Option.none => ""),
   "Please confirm availability, lead time and delivery fee.",
   "Buyer: [Your name] | Recipient: [Recipient name] | Address: [Delivery address]"].filter
    (fun part => part ≠ "")

/-- The order branch of the delegated click handler of `wrapperSets.js`. -/
def orderClick (btn : OrderBtn) (card : OrderCard) : OrderResult :=
  match card.sizeSelect with
  | some sel =>
    if sel.value = "" then
      ⟨{ card with sizeSelect := some { sel with invalid := true } }, ⟨[], [], [900]⟩⟩
    else
      ⟨card, ⟨[openWhatsApp (phoneOf btn defaultPhone) (join " | " (messageParts card))],
        [], []⟩⟩
  | Option.none =>
    ⟨card, ⟨[openWhatsApp (phoneOf btn defaultPhone) (join " | " (messageParts card))],
      [], []⟩⟩

end Collection

/-! ## Sorting -/

/-- The method `Array.prototype.sort(cmp)`.  The language requires the sort to be
stable and, for a consistent comparator, fixes the result: `a` comes before `b` when
`cmp(a, b) < 0`, after it when `cmp(a, b) > 0`, and elements that compare equal keep
their order.  That result is what a stable insertion sort computes.  Only the sign of
the comparator is read. -/
def jsSort {α : Type} (cmp : α → α → Int) (l : List α) : List α :=
  l.insertionSort (fun a b => cmp a b ≤ 0)

/-- The sign that the sort reads from `a - b` on prices: two infinities give `NaN`,
which the sort reads as `0`. -/
def subSign (a b : JsNumber) : Int :=
  match a, b with
  | JsNumber.fin x, JsNumber.fin y => (x : Int) - (y : Int)
  | JsNumber.fin _, JsNumber.inf => -1
  | JsNumber.inf, JsNumber.fin _ => 1
  | JsNumber.inf, JsNumber.inf => 0

/-- The number of a boolean in `(b === true) - (a === true)`. -/
def boolNum (b : Bool) : Int := if b then 1 else 0

/-- The order of prices as numbers: `+Infinity` is above every finite value. -/
def JsNumber.le (a b : JsNumber) : Prop :=
  match a, b with
  | JsNumber.fin x, JsNumber.fin y => x ≤ y
  | JsNumber.fin _, JsNumber.inf => True
  | JsNumber.inf, JsNumber.fin _ => False
  | JsNumber.inf, JsNumber.inf => True

instance JsNumber.decLe (a b : JsNumber) : Decidable (JsNumber.le a b) := by
  cases a <;> cases b <;> unfold JsNumber.le <;> infer_instance

/-- A filter control (an element with a `data-filter` attribute): the attribute value
and whether the class list holds `active`. -/
structure FilterButton where
  dataFilter : String
  active : Bool
  deriving DecidableEq, Repr

/-- The two statements `filterButtons.forEach(b => b.classList.remove('active'));
btn.classList.add('active')` for the control at position `i`. -/
def activate (i : Nat) (btns : List FilterButton) : List FilterButton :=
  match btns[i]? with
  | some btn => (btns.map (fun b => { b with active := false })).set i { btn with active := true }
  | Option.none => btns

namespace Agbada

/-- A product card (`.product-card`) of the Agbada page: the attributes `data-category`
and `data-newest`, the text of its `.price` element, its `style.display`, and whether
its class list holds `d-none`. -/
structure Product where
  category : Option String
  priceText : Option String
  dataNewest : Option String
  display : String
  dNone : Bool
  deriving DecidableEq, Repr

/-- The array `cats`: `(p.getAttribute('data-category') || '').split(/\s+/).filter(Boolean)`. -/
def cats (p : Product) : List String :=
  (splitWs (p.category.getD "")).filter (fun t => t ≠ "")

/-- The test `!filter || filter === 'all' || cats.indexOf(filter) !== -1`. -/
def shows (filter : String) (p : Product) : Bool :=
  filter == "" || filter == "all" || decide (filter ∈ cats p)

/-- The body of `products.forEach` in the filter handler. -/
def applyFilter (filter : String) (p : Product) : Product :=
  if shows filter p then { p with display := "", dNone := false }
  else { p with display := "none", dNone := true }

/-- The part of the document the filter handler works on: the filter controls and the
product cards, both in document order. -/
structure Page where
  filterButtons : List FilterButton
  products : List Product
  deriving DecidableEq, Repr

/-- The click handler that `setupFilters` attaches to the filter control at position
`i` (no control there, no handler). -/
def filterClick (i : Nat) (pg : Page) : Page :=
  match pg.filterButtons[i]? with
  | some btn =>
    { filterButtons := activate i pg.filterButtons,
      products := pg.products.map (applyFilter btn.dataFilter) }
  | Option.none => pg

/-- A child of the grid `#products .row`: whether it matches
`.col-6, .col-md-4, .col-lg-3`, and the card found inside it
(`.product-card`, else `.card`).  Columns are taken to be children of the grid. -/
structure GridCol where
  colClass : Bool
  card : Option Product
  deriving DecidableEq, Repr

/-- One entry of the array `mapped` of the sort handler. -/
structure Mapped where
  col : GridCol
  price : JsNumber
  newest : Bool
  deriving DecidableEq, Repr

/-- The callback of `cols.map` in the sort handler. -/
def toMapped (col : GridCol) : Mapped :=
  match col.card with
  | some card =>
    ⟨col, parsePrice (card.priceText.getD ""), decide (card.dataNewest = some "true")⟩
  | Option.none => ⟨col, parsePrice "", false⟩

/-- The three `mapped.sort` branches of the sort handler. -/
def sortMapped (val : String) (mapped : List Mapped) : List Mapped :=
  if val = "price-low" then jsSort (fun a b => subSign a.price b.price) mapped
  else if val = "price-high" then jsSort (fun a b => subSign b.price a.price) mapped
  else if val = "new" then jsSort (fun a b => boolNum b.newest - boolNum a.newest) mapped
  else mapped

/-- The `change` handler of the sort select, on the children of the grid: the matching
columns are re-appended in the chosen order, so they end up after every other child. -/
def sortChange (val : String) (grid : List GridCol) : List GridCol :=
  let cols := grid.filter (fun col => col.colClass)
  grid.filter (fun col => !col.colClass) ++ (sortMapped val (cols.map toMapped)).map Mapped.col

end Agbada

namespace Collection

/-- A product card of a collection page: the attributes `data-category`, `data-price`,
`data-new`, `data-newest` and the text of its `.price` element. -/
structure Card where
  category : Option String
  dataPrice : Option String
  priceText : Option String
  dataNew : Option String
  dataNewest : Option String
  deriving DecidableEq, Repr

/-- A child of the grid row: whether its class attribute contains `col-`
(`CONFIG.columnSelector`), the first `.product-card` inside it, and its
`style.display`.  Column wrappers are taken to be children of the row. -/
structure Col where
  colClass : Bool
  card : Option Card
  display : String
  deriving DecidableEq, Repr

/-- The object returned by `resolveContext`, as far as `applyFilters` reads it: the
children of the row (if there is a row), the filter controls, and the value of the
sort select (if there is one). -/
structure Container where
  row : Option (List Col)
  filterBtns : List FilterButton
  sortSelect : Option String
  deriving DecidableEq, Repr

/-- Membership in `getColumns`: a column wrapper that holds a product card. -/
def isColumn (col : Col) : Bool :=
  col.colClass && col.card.isSome

/-- The function `getColumns(container)`. -/
def getColumns (c : Container) : List Col :=
  match c.row with
  | some row => row.filter isColumn
  | Option.none => []

/-- The value `activeFilter`: the `data-filter` of the first control marked active, and
`'all'` without one. -/
def activeFilter (c : Container) : String :=
  match c.filterBtns.find? (fun b => b.active) with
  | some b => b.dataFilter
  | Option.none => "all"

/-- The value `sortVal`. -/
def sortVal (c : Container) : String :=
  match c.sortSelect with
  | some v => v
  | Option.none => "popular"

/-- The array `cats` of `applyFilters`; `lower` is the method `toLowerCase`. -/
def cats (lower : String → String) (card : Card) : List String :=
  (splitWs (card.category.getD "")).map lower

/-- The value `matches` for a column. -/
def matchesFilter (lower : String → String) (flt : String) (col : Col) : Bool :=
  match col.card with
  | some card => flt == "all" || decide (lower flt ∈ cats lower card)
  | Option.none => false

/-- The statement `col.style.display = matches ? '' : 'none'`, run for the columns of
`getColumns` only. -/
def setDisplay (lower : String → String) (flt : String) (col : Col) : Col :=
  if isColumn col then
    { col with display := if matchesFilter lower flt col then "" else "none" }
  else col

/-- The argument of `parsePrice` in `applyFilters`:
`card.getAttribute('data-price') || (card.querySelector('.price') || {}).textContent || ''`. -/
def priceSource (card : Card) : String :=
  match card.dataPrice with
  | some p => if p = "" then card.priceText.getD "" else p
  | Option.none => card.priceText.getD ""

/-- The flag `isNew` of a card. -/
def isNewCard (card : Card) : Bool :=
  decide (card.dataNew = some "true") || decide (card.dataNewest = some "true")

/-- One entry of the array `mapped`. -/
structure Mapped where
  col : Col
  price : JsNumber
  isNew : Bool
  deriving DecidableEq, Repr

/-- The callback of `visibleCols.map` (a visible column always holds a card). -/
def toMapped (col : Col) : Mapped :=
  match col.card with
  | some card => ⟨col, parsePrice (priceSource card), isNewCard card⟩
  | Option.none => ⟨col, JsNumber.fin 0, false⟩

/-- The three `mapped.sort` branches. -/
def sortMapped (val : String) (mapped : List Mapped) : List Mapped :=
  if val = "price-low" then jsSort (fun a b => subSign a.price b.price) mapped
  else if val = "price-high" then jsSort (fun a b => subSign b.price a.price) mapped
  else if val = "new" then jsSort (fun a b => boolNum b.isNew - boolNum a.isNew) mapped
  else mapped

/-- The function `applyFilters(container)`.  The filter pass sets the display of every
column; the sort pass, when `sortVal` is non-empty and some column is visible, moves
the visible columns into a fragment in the chosen order and appends the fragment to
the row, so they end up after every other child of the row. -/
def applyFilters (lower : String → String) (c : Container) : Container :=
  match c.row with
  | some row =>
    let flt := activeFilter c
    let shown := row.map (setDisplay lower flt)
    let visibleCols := shown.filter (fun col => isColumn col && matchesFilter lower flt col)
    if sortVal c ≠ "" ∧ visibleCols ≠ [] then
      let rest := shown.filter (fun col => !(isColumn col && matchesFilter lower flt col))
      let mapped := sortMapped (sortVal c) (visibleCols.map toMapped)
      { c with row := some (rest ++ mapped.map Mapped.col) }
    else { c with row := some shown }
  | Option.none => c

/-- The click handler that `initCollection` attaches to the filter control at position
`i`; nothing is wired when the container has no row. -/
def filterClick (lower : String → String) (i : Nat) (c : Container) : Container :=
  match c.row, c.filterBtns[i]? with
  | some _, some _ => applyFilters lower { c with filterBtns := activate i c.filterBtns }
  | _, _ => c

/-- The `change` handler of the sort select, once the user has picked the value `v`
(the handler is debounced by 120 ms and then runs `applyFilters`). -/
def sortChange (lower : String → String) (v : String) (c : Container) : Container :=
  match c.row, c.sortSelect with
  | some _, some _ => applyFilters lower { c with sortSelect := some v }
  | _, _ => c

/-- The grid cells a visitor sees: the columns of `getColumns` whose display is not
`'none'`, in document order. -/
def visibleCells (c : Container) : List Col :=
  (getColumns c).filter (fun col => col.display ≠ "none")

/-- The parsed price of a grid cell. -/
def priceOfCol (col : Col) : JsNumber := (toMapped col).price

/-- The new flag of a grid cell. -/
def isNewCol (col : Col) : Bool := (toMapped col).isNew

/-- ASCII lower-casing, with which `toLowerCase` agrees on ASCII text; used for
concrete runs. -/
def asciiLower (s : String) : String :=
  String.mk (s.data.map Char.toLower)

end Collection

namespace Collection

/-- The columns that the active filter selects, in document order, each as the filter
pass leaves it (display `''`). -/
def selectedCols (lower : String → String) (c : Container) : List Col :=
  ((getColumns c).filter (matchesFilter lower (activeFilter c))).map
    (fun col => { col with display := "" })

/-- The grid shows exactly the cells of the active filter; this is the state in which
every run of `applyFilters` leaves the grid. -/
def Filtered (lower : String → String) (c : Container) : Prop :=
  ∀ col ∈ getColumns c,
    col.display = if matchesFilter lower (activeFilter c) col then "" else "none"

end Collection

namespace Agbada

/-- Whether the card of a grid column is shown (a column without a card hides nothing). -/
def cardShown (col : GridCol) : Bool :=
  match col.card with
  | some p => decide (p.display ≠ "none")
  | Option.none => true

/-- The grid columns of the Agbada page whose card is shown, in document order. -/
def visibleCols (grid : List GridCol) : List GridCol :=
  (grid.filter (fun col => col.colClass)).filter cardShown

/-- The parsed price of a grid column. -/
def priceOfCol (col : GridCol) : JsNumber := (toMapped col).price

/-- The newest flag of a grid column. -/
def isNewestCol (col : GridCol) : Bool := (toMapped col).newest

end Agbada

/-! ## Sample documents for concrete runs -/

namespace Collection

/-- A row of three product columns and one other child; the second column is hidden.
The controls offer `all` (active) and `Men`; the sort select shows `price-low`. -/
def sampleContainer : Container :=
  ⟨some [⟨true, some ⟨some "men new", some "300", Option.none, Option.none, Option.none⟩, ""⟩,
         ⟨false, Option.none, ""⟩,
         ⟨true, some ⟨some "Women", Option.none, some "₦1,00", some "true", Option.none⟩, "none"⟩,
         ⟨true, some ⟨some "men", Option.none, some "N200", Option.none, some "true"⟩, ""⟩],
    [⟨"all", true⟩, ⟨"Men", false⟩], some "price-low"⟩

end Collection

namespace Agbada

/-- Three product cards of the Agbada page; the second is hidden. -/
def sampleProducts : List Product :=
  [⟨some "classic  new", some "₦45,000", Option.none, "", false⟩,
   ⟨some "royal", some "₦30,000", some "true", "none", true⟩,
   ⟨Option.none, some "₦60,000", some "true", "", false⟩]

/-- The filter controls `all`, `royal` and one with an empty tag, with the cards above. -/
def samplePage : Page :=
  ⟨[⟨"all", true⟩, ⟨"royal", false⟩, ⟨"", false⟩], sampleProducts⟩

/-- The grid of the Agbada page holding the cards above, one to a column, and one
other child. -/
def sampleGrid : List GridCol :=
  [⟨true, some ⟨some "classic  new", some "₦45,000", Option.none, "", false⟩⟩,
   ⟨false, Option.none⟩,
   ⟨true, some ⟨some "royal", some "₦30,000", some "true", "none", true⟩⟩,
   ⟨true, some ⟨Option.none, some "₦60,000", some "true", "", false⟩⟩]

end Agbada

/-- A card with a title, a price, a colour and a size selector on which no size has
been chosen. -/
def sampleCardNoSize : OrderCard :=
  ⟨some " Royal Agbada ", Option.none, Option.none, some "₦45,000", Option.none,
    some ⟨"", false, false⟩, Option.none, Option.none, some "Blue", Option.none⟩

/-- The same card with the size `XL` chosen and a note entered. -/
def sampleCard : OrderCard :=
  ⟨some " Royal Agbada ", Option.none, Option.none, some "₦45,000", Option.none,
    some ⟨"XL", false, false⟩, Option.none, Option.none, some "Blue", some "sleeve 25in"⟩

/-- A card is valid for ordering on the Agbada and casual-wear pages: it has no size
selector, or a size is chosen on it. -/
def ValidCard (card : OrderCard) : Prop :=
  Agbada.sizeSelectOf card = Option.none ∨ Agbada.sizeOf card ≠ ""

instance ValidCard.dec (card : OrderCard) : Decidable (ValidCard card) := by
  unfold ValidCard; infer_instance

namespace Agbada

/-- The fragments of the order message as the specification lists them: each candidate
fragment with the condition under which it is present, in order. -/
def specFragments (title variant size price custom : String) : List String :=
  ([(true, "Hello, I am interested in: " ++ title),
    (decide (variant ≠ ""), "Variant: " ++ variant),
    (decide (size ≠ ""), "Size: " ++ size),
    (decide (price ≠ ""), "Price: " ++ price),
    (decide (custom ≠ ""), "Measurements/Notes: " ++ custom),
    (true, closing)].filter (fun f => f.1)).map (fun f => f.2)

end Agbada

namespace Casual

/-- The number the casual-wear order handler ends up with: the normalised `data-phone`
override (or default), and the fixed fallback when normalisation fails. -/
def contactOf (btn : OrderBtn) : String :=
  match normalizePhone (phoneOf btn "2348136754060") with
  | some normalized => normalized
  | Option.none => "2348136754060"

end Casual

/-- The decimal digits of a string, as numbers, in the order in which they occur. -/
def digitsOf (s : String) : List Nat :=
  (s.data.filter isDigit).map digitVal

/-- The base-10 integer value of the ASCII digit characters of a string taken in
order (0 when there is none), as the specification words it. -/
def decimalValue (s : String) : Nat :=
  Nat.ofDigits 10 (digitsOf s).reverse

/-! ## Loading more grid cells -/

/-- The load-more control of a page: its `disabled` property and its text. -/
structure LoadBtn where
  disabled : Bool
  text : String
  deriving DecidableEq, Repr

namespace Collection

/-- An element inside a grid cell, as far as loading more touches it: its `id`
attribute, whether it matches `.size-select`, and its value. -/
structure Inner where
  id : Option String
  sizeSelect : Bool
  value : String
  deriving DecidableEq, Repr

/-- A child of the grid row together with what is inside it: the wrapper element as
`applyFilters` sees it, the wrapper's own `id` attribute, and the elements below the
wrapper in document order. -/
structure Cell where
  col : Col
  id : Option String
  inner : List Inner
  deriving DecidableEq, Repr

/-- The container as loading more reads it: the children of the row (if there is a
row) and the load-more control (if there is one). -/
structure LoadContainer where
  row : Option (List Cell)
  loadMoreBtn : Option LoadBtn
  deriving DecidableEq, Repr

/-- The function `removeIds(root)`: `querySelectorAll('[id]')` on the root yields the
elements below the root, and each loses its `id`. -/
def removeIds (root : Cell) : Cell :=
  { root with inner := root.inner.map (fun el => { el with id := Option.none }) }

/-- The statement `qsa('.size-select', cloneCol).forEach(sel => sel.value = '')`. -/
def resetSizes (cloneCol : Cell) : Cell :=
  { cloneCol with
    inner := cloneCol.inner.map (fun el => if el.sizeSelect then { el with value := "" } else el) }

/-- The callback of `toClone.map`: a deep copy of the column, then `removeIds`, then the
reset of the size selects. -/
def cloneCol (col : Cell) : Cell :=
  resetSizes (removeIds col)

/-- The columns of `getColumns` among the children of a row. -/
def cellColumns (row : List Cell) : List Cell :=
  row.filter (fun cell => isColumn cell.col)

/-- The function `safeLoadMore(container)`, on the children of the row. -/
def safeLoadMore (row : List Cell) : List Cell :=
  let cols := cellColumns row
  if cols = [] then row
  else
    let toClone := cols.take (min 4 cols.length)
    row ++ toClone.map cloneCol

/-- The first half of the load-more click handler of `initCollection`: the control is
disabled and shows `Loading...`.  Nothing is wired without a row or without a control. -/
def loadMoreClick (c : LoadContainer) : LoadContainer :=
  match c.row, c.loadMoreBtn with
  | some _, some _ => { c with loadMoreBtn := some ⟨true, "Loading..."⟩ }
  | _, _ => c

/-- The text the click handler saves in `original`. -/
def loadMoreOriginal (c : LoadContainer) : String :=
  match c.loadMoreBtn with
  | some b => b.text
  | Option.none => ""

/-- The delayed action of the load-more click handler (it runs 700 ms after the
click): `safeLoadMore`, then the control is enabled and gets its saved text back. -/
def loadMoreAction (original : String) (c : LoadContainer) : LoadContainer :=
  match c.row, c.loadMoreBtn with
  | some row, some _ => ⟨some (safeLoadMore row), some ⟨false, original⟩⟩
  | _, _ => c

end Collection

namespace Iro

/-- The page of `iro-and-buba.js` as its load-more handler reads it: the children of
the grid row and the load-more control. -/
structure Page where
  row : List Collection.Cell
  loadMoreBtn : LoadBtn
  deriving DecidableEq, Repr

/-- The first half of the load-more click handler. -/
def loadMoreClick (pg : Page) : Page :=
  { pg with loadMoreBtn := ⟨true, "Loading..."⟩ }

/-- The delayed action of the load-more click handler; `originalText` is the text the
click saved. -/
def loadMoreAction (originalText : String) (pg : Page) : Page :=
  let cols := Collection.cellColumns pg.row
  if cols = [] then { pg with loadMoreBtn := ⟨true, "No more items"⟩ }
  else
    let toClone := cols.take 4
    ⟨pg.row ++ toClone.map Collection.cloneCol, ⟨false, originalText⟩⟩

end Iro

/-! ## The gowns page of `Geleset.js` -/

namespace Geleset

/-- A product card of the gowns page: the attributes the filter and the sort read, its
`style.display`, and the value of the first `.size-select` inside it (if any). -/
structure Product where
  card : Collection.Card
  display : String
  sizeSelect : Option String
  deriving DecidableEq, Repr

/-- A child of the grid: a product card that is itself a child of the grid, or another
element (such as a column wrapper) with the product cards inside it, in document
order. -/
inductive Node
  | card (p : Product)
  | wrapper (cards : List Product)
  deriving DecidableEq, Repr

/-- The page as `applyFilters` and the load-more handler read it: the children of the
grid, the filter controls, the value of the sort select (if there is one) and the
load-more control (if there is one). -/
structure Page where
  grid : List Node
  filterBtns : List FilterButton
  sortSelect : Option String
  loadMoreBtn : Option LoadBtn
  deriving DecidableEq, Repr

/-- The product cards below one child of the grid. -/
def Node.products : Node → List Product
  | Node.card p => [p]
  | Node.wrapper cards => cards

/-- The function `getProducts()`: every product card of the grid, in document order. -/
def getProducts (grid : List Node) : List Product :=
  grid.flatMap Node.products

/-- The value `activeFilter`. -/
def activeFilter (pg : Page) : String :=
  match pg.filterBtns.find? (fun b => b.active) with
  | some b => b.dataFilter
  | Option.none => "all"

/-- The value `sortVal`. -/
def sortVal (pg : Page) : String :=
  match pg.sortSelect with
  | some v => v
  | Option.none => "popular"

/-- The value `matchesFilter` for a card; `lower` is the method `toLowerCase`. -/
def matchesFilter (lower : String → String) (flt : String) (p : Product) : Bool :=
  flt == "all" || decide (lower flt ∈ Collection.cats lower p.card)

/-- The statement `p.style.display = matchesFilter ? '' : 'none'`. -/
def setDisplay (lower : String → String) (flt : String) (p : Product) : Product :=
  { p with display := if matchesFilter lower flt p then "" else "none" }

/-- The filter pass on one child of the grid. -/
def showNode (lower : String → String) (flt : String) : Node → Node
  | Node.card p => Node.card (setDisplay lower flt p)
  | Node.wrapper cards => Node.wrapper (cards.map (setDisplay lower flt))

/-- What is left of a child of the grid once the matching cards have been moved away:
a matching card that was a child of the grid is gone, a wrapper keeps its other
cards. -/
def dropMatching (lower : String → String) (flt : String) : Node → Option Node
  | Node.card p => if matchesFilter lower flt p then Option.none else some (Node.card p)
  | Node.wrapper cards =>
    some (Node.wrapper (cards.filter (fun p => !matchesFilter lower flt p)))

/-- One entry of the array `mapped`. -/
structure Mapped where
  node : Product
  price : JsNumber
  isNew : Bool
  deriving DecidableEq, Repr

/-- The callback of `visible.map`. -/
def toMapped (n : Product) : Mapped :=
  ⟨n, Collection.parsePrice (Collection.priceSource n.card), Collection.isNewCard n.card⟩

/-- The three `mapped.sort` branches. -/
def sortMapped (val : String) (mapped : List Mapped) : List Mapped :=
  if val = "price-low" then jsSort (fun a b => subSign a.price b.price) mapped
  else if val = "price-high" then jsSort (fun a b => subSign b.price a.price) mapped
  else if val = "new" then jsSort (fun a b => boolNum b.isNew - boolNum a.isNew) mapped
  else mapped

/-- The function `applyFilters()`.  The filter pass sets the display of every card; the
sort pass, when `sortVal` is non-empty and some card is visible, appends each visible
card node to the grid in the chosen order, which takes the card out of the element it
was in and makes it a child of the grid, after every other child. -/
def applyFilters (lower : String → String) (pg : Page) : Page :=
  let flt := activeFilter pg
  let shown := pg.grid.map (showNode lower flt)
  let visible := (getProducts shown).filter (matchesFilter lower flt)
  if sortVal pg ≠ "" ∧ visible ≠ [] then
    let rest := shown.filterMap (dropMatching lower flt)
    let mapped := sortMapped (sortVal pg) (visible.map toMapped)
    { pg with grid := rest ++ mapped.map (fun m => Node.card m.node) }
  else { pg with grid := shown }

/-- The copy the load-more handler makes of a card: `clone.style.display = ''`, and the
first size select, if any, is reset. -/
def cloneProduct (src : Product) : Product :=
  { src with display := "", sizeSelect := src.sizeSelect.map (fun _ => "") }

/-- The first half of the load-more click handler. -/
def loadMoreClick (pg : Page) : Page :=
  match pg.loadMoreBtn with
  | some _ => { pg with loadMoreBtn := some ⟨true, "Loading..."⟩ }
  | Option.none => pg

/-- The delayed action of the load-more click handler: without products the control
only gets the text `No more items`; otherwise four copies `products[i % length]` are
appended to the grid and the control is enabled. -/
def loadMoreAction (pg : Page) : Page :=
  match pg.loadMoreBtn with
  | some btn =>
    let products := getProducts pg.grid
    if products = [] then { pg with loadMoreBtn := some { btn with text := "No more items" } }
    else
      let clones := (List.range 4).filterMap (fun i => products[i % products.length]?)
      { pg with grid := pg.grid ++ clones.map (fun src => Node.card (cloneProduct src)),
                loadMoreBtn := some ⟨false, "Load more"⟩ }
  | Option.none => pg

end Geleset

/-! ## Further sample documents and click sequences -/

namespace Collection

/-- A row of two product columns, both shown; the control `men` is active and the page
has no sort select, so the sort mode is the default one. -/
def popularContainer : Container :=
  ⟨some [⟨true, some ⟨some "men", some "300", Option.none, Option.none, Option.none⟩, ""⟩,
         ⟨true, some ⟨some "women", some "200", Option.none, Option.none, Option.none⟩, ""⟩],
    [⟨"all", false⟩, ⟨"men", true⟩], Option.none⟩

/-- A run of filter clicks, on the controls at the given positions, one after the
other. -/
def filterClicks (lower : String → String) (is : List Nat) (c : Container) : Container :=
  is.foldl (fun st i => filterClick lower i st) c

/-- The cards of the grid cells, in document order. -/
def cardsOf (c : Container) : List (Option Card) :=
  (getColumns c).map Col.card

/-- The cards of the grid cells a visitor sees, in document order. -/
def visibleCards (c : Container) : List (Option Card) :=
  (visibleCells c).map Col.card

end Collection

namespace Agbada

/-- A run of filter clicks, on the controls at the given positions, one after the
other. -/
def filterClicks (is : List Nat) (pg : Page) : Page :=
  is.foldl (fun st i => filterClick i st) pg

end Agbada

namespace Geleset

/-- A grid of two product cards, both shown and both children of the grid; the control
`men` is active and the page has no sort select. -/
def popularPage : Page :=
  ⟨[Node.card ⟨⟨some "men", some "300", Option.none, Option.none, Option.none⟩, "", Option.none⟩,
    Node.card ⟨⟨some "women", some "200", Option.none, Option.none, Option.none⟩, "", Option.none⟩],
    [⟨"all", false⟩, ⟨"men", true⟩], Option.none, Option.none⟩

/-- A grid of two column wrappers with one product card each; the control `all` is
active and the sort select shows `price-low`. -/
def wrappedPage : Page :=
  ⟨[Node.wrapper [⟨⟨some "men", some "300", Option.none, Option.none, Option.none⟩, "", Option.none⟩],
    Node.wrapper [⟨⟨some "women", some "200", Option.none, Option.none, Option.none⟩, "", Option.none⟩]],
    [⟨"all", true⟩, ⟨"men", false⟩], some "price-low", Option.none⟩

end Geleset

namespace Collection

/-- A row of two product columns and one other child.  The first column carries the id
`first` and holds an image with the id `img1` and a size select showing `XL`. -/
def sampleCells : List Cell :=
  [⟨⟨true, some ⟨some "men", some "300", Option.none, Option.none, Option.none⟩, ""⟩,
      some "first", [⟨some "img1", false, ""⟩, ⟨Option.none, true, "XL"⟩]⟩,
   ⟨⟨false, Option.none, ""⟩, some "banner", []⟩,
   ⟨⟨true, some ⟨some "women", some "200", Option.none, Option.none, Option.none⟩, "none"⟩,
      Option.none, [⟨Option.none, true, "M"⟩]⟩]

/-- The row above with a load-more control. -/
def sampleLoad : LoadContainer :=
  ⟨some sampleCells, some ⟨false, "Load more"⟩⟩

/-- A row without a product column, with a load-more control. -/
def emptyLoad : LoadContainer :=
  ⟨some [⟨⟨false, Option.none, ""⟩, Option.none, []⟩], some ⟨false, "Load more"⟩⟩

end Collection

namespace Iro

/-- A page whose grid holds no product column. -/
def emptyPage : Page :=
  ⟨[], ⟨false, "Load more"⟩⟩

end Iro

namespace Geleset

/-- A page whose grid holds no product card, with a load-more control. -/
def emptyPage : Page :=
  ⟨[], [⟨"all", true⟩], Option.none, some ⟨false, "Load more"⟩⟩

end Geleset

/-! ## The reviews page (`reviews-1.js`) -/

/-- The call `parseInt(s, 10)`: leading white space is skipped, then an optional sign,
then the longest run of decimal digits is read and rounded to a double.  Without a
digit the result is `NaN`, here `none`; otherwise the result is the magnitude together
with the flag of a minus sign. -/
def parseIntSigned (s : String) : Option (Bool × JsNumber) :=
  let t := s.data.dropWhile isSpace
  let neg := decide (t.head? = some '-')
  let rest := if t.head? = some '-' ∨ t.head? = some '+' then t.tail else t
  let ds := rest.takeWhile isDigit
  if ds = [] then Option.none else some (neg, roundDouble (mathInt ds))

/-- The sum `a + b` of two non-negative numbers: the exact sum rounded to a double. -/
def jsAdd (a b : JsNumber) : JsNumber :=
  match a, b with
  | JsNumber.fin x, JsNumber.fin y => roundDouble (x + y)
  | _, _ => JsNumber.inf

/-- The expression `Math.max(0, count - 1)` on a non-negative number. -/
def maxZeroPred (count : JsNumber) : JsNumber :=
  match count with
  | JsNumber.fin 0 => JsNumber.fin 0
  | JsNumber.fin (n + 1) => roundDouble n
  | JsNumber.inf => JsNumber.inf

/-- The text of an element into which scripts write numbers: text that came with the
markup (or was written as a string), or the text the engine writes for a number, which
reads back as that number. -/
inductive NumText where
  | text (s : String)
  | num (x : JsNumber)
  deriving DecidableEq, Repr

namespace Reviews

/-- The function `toNumber(v) = Number(v) || 0` on a string.  White space around the
text is ignored; a run of decimal digits (the empty one included) is read as a whole
number and rounded to a double, `Infinity` is infinite, and any other text counts as
not a number, which gives 0.  Signed, fractional, exponent and radix-prefixed numerals
are outside the model: the script reads them as numbers that `JsNumber` does not hold,
and this function does not.  The predicate `readable` below marks the texts on which
this function is the script's; a theorem whose statement depends on a number read from a
text assumes it of that text, or is about given texts of which it holds. -/
def toNumber (v : String) : JsNumber :=
  let t := (trim v).data
  if t.all isDigit then orZero (Newpage.toNumber t)
  else if t = "Infinity".data ∨ t = "+Infinity".data then JsNumber.inf
  else JsNumber.fin 0

/-- The function `toNumber` on the text of an element. -/
def textNumber (t : NumText) : JsNumber :=
  match t with
  | NumText.text s => toNumber s
  | NumText.num x => x

/-- The helpful control of a review (`[data-helpful]`): its `aria-pressed` attribute and
the text of the first `.badge` inside it. -/
structure HelpfulBtn where
  ariaPressed : Option String
  badge : Option NumText
  deriving DecidableEq, Repr

/-- A review node (`article.card.review-card`, a child of `#reviews-list`): the
attributes `data-rating` and `data-verified`, its `style.display`, the text of the first
`.badge` of the article when that badge is not the one of the helpful control, and the
helpful control.  The remaining content of a review (author, text, time stamp) is read
by no handler and is left out. -/
structure Review where
  dataRating : Option String
  dataVerified : Option String
  display : String
  leadBadge : Option String
  helpful : Option HelpfulBtn
  deriving DecidableEq, Repr

/-- The page as the script reads it: the review nodes of the list in document order,
the rating filter controls (an absent `data-filter` acts like an empty one), the value
of the sort select and the state of the verified-only box (if present), the display of
the empty-state notice, the texts of `#avg-rating` and `#total-reviews`, and the
load-more control (if present). -/
structure Page where
  list : List Review
  filterButtons : List FilterButton
  sortSelect : Option String
  verifiedOnly : Option Bool
  emptyDisplay : String
  avgText : String
  totalText : NumText
  loadMoreBtn : Option LoadBtn
  deriving DecidableEq, Repr

/-- The number `toNumber(n.getAttribute('data-rating'))`; a missing attribute gives 0. -/
def ratingOf (n : Review) : JsNumber :=
  match n.dataRating with
  | some v => toNumber v
  | Option.none => JsNumber.fin 0

/-- The sum that `computeStats` accumulates. -/
def sumRatings (nodes : List Review) : JsNumber :=
  nodes.foldl (fun sum n => jsAdd sum (ratingOf n)) (JsNumber.fin 0)

/-- The result of `computeStats`: the count `total`, and the sum whose quotient by
`total` is `avg` (0 without nodes).  Every node counts, since `toNumber` never gives
`NaN`; an array holds fewer than `2^32` nodes, so the count is exact. -/
structure Stats where
  total : Nat
  sum : JsNumber
  deriving DecidableEq, Repr

/-- The function `computeStats(nodes)`. -/
def computeStats (nodes : List Review) : Stats :=
  ⟨nodes.length, sumRatings nodes⟩

/-- Whether `stats.avg` is falsy: there is no node, or the sum is 0. -/
def avgIsZero (stats : Stats) : Bool :=
  stats.total == 0 || stats.sum == JsNumber.fin 0

/-- The function `updateSummary()`; `fmt sum total` is the engine's
`(sum / total).toFixed(1)`. -/
def updateSummary (fmt : JsNumber → Nat → String) (pg : Page) : Page :=
  let stats := computeStats pg.list
  { pg with
    avgText := if avgIsZero stats then "0.0" else fmt stats.sum stats.total,
    totalText := NumText.num (JsNumber.fin stats.total) }

end Reviews

namespace Reviews

/-- The value `activeFilter` of `applyFiltersAndSort`. -/
def activeFilter (pg : Page) : String :=
  match pg.filterButtons.find? (fun b => b.active) with
  | some b => b.dataFilter
  | Option.none => "all"

/-- The value `sortBy`. -/
def sortBy (pg : Page) : String :=
  match pg.sortSelect with
  | some v => v
  | Option.none => "newest"

/-- The value `verifiedOnly`. -/
def verifiedOnly (pg : Page) : Bool :=
  match pg.verifiedOnly with
  | some checked => checked
  | Option.none => false

/-- The value `verified` of a node. -/
def verified (n : Review) : Bool :=
  decide (n.dataVerified = some "true")

/-- The rating part of the filter: `show` stays as it is unless the active filter is
non-empty, is not `all`, parses to a number, and `rating !== filterNum`. -/
def passesRating (flt : String) (rating : JsNumber) : Bool :=
  if flt ≠ "" ∧ flt ≠ "all" then
    match parseIntSigned flt with
    | some (neg, x) => decide (rating = x ∧ (neg = false ∨ x = JsNumber.fin 0))
    | Option.none => true
  else true

/-- The value `show` of a node. -/
def shows (pg : Page) (n : Review) : Bool :=
  !(verifiedOnly pg && !verified n) && passesRating (activeFilter pg) (ratingOf n)

/-- The statement `n.style.display = show ? '' : 'none'`. -/
def setDisplay (pg : Page) (n : Review) : Review :=
  { n with display := if shows pg n then "" else "none" }

/-- The number `toNumber(qs('.badge', a) ? qs('.badge', a).textContent : 0)`: read from
the first `.badge` of the article, 0 without one. -/
def badgeCount (a : Review) : JsNumber :=
  match a.leadBadge with
  | some s => toNumber s
  | Option.none =>
    match a.helpful with
    | some h =>
      match h.badge with
      | some t => textNumber t
      | Option.none => JsNumber.fin 0
    | Option.none => JsNumber.fin 0

/-- The comparator of `visible.sort`, by its sign. -/
def compareBy (sortBy : String) (a b : Review) : Int :=
  if sortBy = "newest" then 0
  else if sortBy = "helpful" then subSign (badgeCount b) (badgeCount a)
  else if sortBy = "highest" then subSign (ratingOf b) (ratingOf a)
  else if sortBy = "lowest" then subSign (ratingOf a) (ratingOf b)
  else 0

/-- The function `applyFiltersAndSort()`: the filter pass sets the display of every
node, the visible nodes are sorted and appended to the list again, which puts them
after the hidden ones, and the empty-state notice is shown when no node is visible. -/
def applyFiltersAndSort (pg : Page) : Page :=
  let nodes := pg.list.map (setDisplay pg)
  let visible := nodes.filter (fun n => n.display ≠ "none")
  let sorted := jsSort (compareBy (sortBy pg)) visible
  { pg with
    list := nodes.filter (fun n => !decide (n.display ≠ "none")) ++ sorted,
    emptyDisplay := if visible ≠ [] then "none" else "" }

/-- Whether the helpful control counts as pressed. -/
def pressed (h : HelpfulBtn) : Bool :=
  decide (h.ariaPressed = some "true")

/-- The number the counter of a helpful control shows:
`toNumber(badge ? badge.textContent : 0)`. -/
def shownCount (h : HelpfulBtn) : JsNumber :=
  match h.badge with
  | some t => textNumber t
  | Option.none => JsNumber.fin 0

/-- The click handler of a helpful control. -/
def helpfulClick (h : HelpfulBtn) : HelpfulBtn :=
  let count := shownCount h
  if pressed h then
    ⟨some "false", h.badge.map (fun _ => NumText.num (maxZeroPred count))⟩
  else
    ⟨some "true", h.badge.map (fun _ => NumText.num (jsAdd count (JsNumber.fin 1)))⟩

/-- The controls of the review form the submit handler reads: the value of each, if the
control exists. -/
structure Form where
  name : Option String
  email : Option String
  rating : Option String
  comment : Option String
  deriving DecidableEq, Repr

/-- The fields the submit handler can hand to `flashInvalidField`. -/
inductive Field where
  | name
  | rating
  | comment
  deriving DecidableEq, Repr

/-- What the submit handler leaves: the page, the field it flagged as invalid (if any),
and whether it went on to the feedback on the submit button. -/
structure SubmitResult where
  page : Page
  flagged : Option Field
  thanked : Bool
  deriving DecidableEq, Repr

/-- The node the submit handler creates: `data-rating` is the rating, `data-verified` is
`false`, no inline display, and a helpful control that is not pressed and shows 0. -/
def newReview (rating : String) : Review :=
  ⟨some rating, some "false", "", Option.none,
    some ⟨some "false", some (NumText.text "0")⟩⟩

/-- The submit handler of the review form. -/
def submit (fmt : JsNumber → Nat → String) (form : Form) (pg : Page) : SubmitResult :=
  let name := trim (form.name.getD "")
  let rating := form.rating.getD ""
  let comment := trim (form.comment.getD "")
  if name = "" then ⟨pg, some Field.name, false⟩
  else if rating = "" then ⟨pg, some Field.rating, false⟩
  else if comment = "" then ⟨pg, some Field.comment, false⟩
  else
    let article := newReview rating
    let inserted := { pg with list := article :: pg.list }
    ⟨applyFiltersAndSort (updateSummary fmt inserted), Option.none, true⟩

/-- The copy the load-more handler makes of a review: the helpful control is not
pressed and its counter shows 0. -/
def cloneReview (src : Review) : Review :=
  { src with
    helpful := src.helpful.map
      (fun h => ⟨some "false", h.badge.map (fun _ => NumText.text "0")⟩) }

/-- The nodes `sample[i % sample.length]` for `i = 0, 1, 2` that the load-more handler
copies. -/
def loadMoreClones (sample : List Review) : List Review :=
  (List.range 3).filterMap (fun i => sample[i % sample.length]?)

/-- The first half of the load-more click handler. -/
def loadMoreClick (pg : Page) : Page :=
  match pg.loadMoreBtn with
  | some _ => { pg with loadMoreBtn := some ⟨true, "Loading..."⟩ }
  | Option.none => pg

/-- The delayed action of the load-more click handler: without review nodes the control
only gets the text `No more reviews`; otherwise three copies `sample[i % length]` are
appended, the summary and the filter are brought up to date, and the control is
enabled. -/
def loadMoreAction (fmt : JsNumber → Nat → String) (pg : Page) : Page :=
  match pg.loadMoreBtn with
  | some btn =>
    let sample := pg.list
    if sample = [] then { pg with loadMoreBtn := some { btn with text := "No more reviews" } }
    else
      let clones := loadMoreClones sample
      let appended := { pg with list := pg.list ++ clones.map cloneReview }
      let updated := applyFiltersAndSort (updateSummary fmt appended)
      { updated with loadMoreBtn := some ⟨false, "Load more reviews"⟩ }
  | Option.none => pg

end Reviews

namespace Reviews

/-- The least `k`, counted up from the last argument within the given number of steps,
for which `s * 2^k / t` is at least `2^52`: the binary scale at which the quotient
`s / t` fills a 53-bit significand. -/
def scaleBits : Nat → Nat → Nat → Nat → Nat
  | 0, _, _, k => k
  | fuel + 1, s, t, k => if 2 ^ 52 * t ≤ s * 2 ^ k then k else scaleBits fuel s t (k + 1)

/-- The text `(sum / total).toFixed(1)` for concrete runs, for a whole sum up to `2^53`
and a count below `2^53`.  The quotient is first rounded to a double `m / 2^k` (nearest,
ties to even, on 53 bits); `toFixed(1)` then takes the integer `n` for which `n / 10` is
nearest to that double, the larger one on a tie, and writes it with one decimal. -/
def fixed1 (sum : JsNumber) (total : Nat) : String :=
  match sum with
  | JsNumber.inf => "Infinity"
  | JsNumber.fin s =>
    if total = 0 then (if s = 0 then "NaN" else "Infinity")
    else if s = 0 then "0.0"
    else
      let k := scaleBits 120 s total 0
      let a := s * 2 ^ k
      let f := a / total
      let r := a % total
      let m := if total < 2 * r ∨ (2 * r = total ∧ f % 2 = 1) then f + 1 else f
      let n := (20 * m + 2 ^ k) / 2 ^ (k + 1)
      toString (n / 10) ++ "." ++ toString (n % 10)

/-- The whole-number rating of a node (0 for an infinite one). -/
def ratingNat (n : Review) : Nat :=
  match ratingOf n with
  | JsNumber.fin r => r
  | JsNumber.inf => 0

/-- Three reviews with the ratings 5, 4 and 4; the second is not verified and is
hidden.  The control `all` is active, the sort select shows `newest`, and the
verified-only box is not checked. -/
def samplePage : Page :=
  ⟨[⟨some "5", some "true", "", Option.none, some ⟨some "false", some (NumText.text "2")⟩⟩,
    ⟨some "4", some "false", "none", Option.none, some ⟨some "true", some (NumText.text "7")⟩⟩,
    ⟨some "4", some "true", "", some "Verified", some ⟨Option.none, some (NumText.text "0")⟩⟩],
    [⟨"all", true⟩, ⟨"5", false⟩, ⟨"4", false⟩], some "newest", some false, "none",
    "4.3", NumText.text "3", some ⟨false, "Load more reviews"⟩⟩

/-- The page above with the sort select showing `highest`. -/
def highestPage : Page :=
  { samplePage with sortSelect := some "highest" }

/-- The page above with the rating filter `4` active. -/
def fourPage : Page :=
  { samplePage with filterButtons := [⟨"all", false⟩, ⟨"5", false⟩, ⟨"4", true⟩] }

/-- A review form filled in with the name `Ada`, the rating 5 and the comment
`Great fit`. -/
def sampleForm : Form :=
  ⟨some "Ada", some "", some "5", some "Great fit"⟩

/-- The form above with the rating 3. -/
def threeForm : Form :=
  ⟨some "Ada", some "", some "3", some "Great fit"⟩

/-- The form above with a name of white space only. -/
def blankNameForm : Form :=
  ⟨some "  ", some "ada@example.com", some "5", some "Great fit"⟩

end Reviews

namespace Reviews

/-- The sample page with a single filter control, tagged `top` and active. -/
def topPage : Page :=
  { samplePage with filterButtons := [⟨"top", true⟩] }

/-- The rating filter as the specification words it, made precise: the filter value is
`all`, or it is empty or does not start with a number (then it filters nothing), or the
rating equals the number the filter value starts with. -/
def FilterAdmits (flt : String) (rating : JsNumber) : Prop :=
  flt = "all" ∨ flt = "" ∨ parseIntSigned flt = Option.none ∨
    ∃ neg x, parseIntSigned flt = some (neg, x) ∧ rating = x ∧
      (neg = false ∨ x = JsNumber.fin 0)

end Reviews

namespace Reviews

/-- The replacement that `escapeHtml` makes for one character: the entity of `&`, `<`,
`>`, the double quote (code 34) and the apostrophe (code 39), the character itself
otherwise. -/
def escapeChar (c : Char) : List Char :=
  if c = '&' then "&amp;".data
  else if c = '<' then "&lt;".data
  else if c = '>' then "&gt;".data
  else if c = Char.ofNat 34 then "&quot;".data
  else if c = Char.ofNat 39 then "&#39;".data
  else [c]

/-- The function `escapeHtml(str)`: `String(str).replace(/[&<>"']/g, ...)`. -/
def escapeHtml (str : String) : String :=
  String.mk (str.data.flatMap escapeChar)

/-- The number `r = clamp(parseInt(rating, 10) || 0, 0, 5)` of `renderStars`. -/
def starCount (rating : String) : Nat :=
  match parseIntSigned rating with
  | some (neg, x) =>
    if neg then 0
    else
      match x with
      | JsNumber.fin n => min n 5
      | JsNumber.inf => 5
  | Option.none => 0

/-- The function `renderStars(rating)`: `r` full stars, then empty stars up to five. -/
def renderStars (rating : String) : String :=
  let r := starCount rating
  String.join (List.replicate r "<span class=\"rating-star\">★</span>") ++
    String.join (List.replicate (5 - r) "<span class=\"rating-empty\">☆</span>")

/-- The expression `name.charAt(0) || 'U'`: the first character of the name, `U` for an
empty name.  (For a first character outside the basic plane the script takes its first
code unit, a lone surrogate, which is no character; the model takes the character.) -/
def initialOf (name : String) : String :=
  match name.data with
  | c :: _ => String.mk [c]
  | [] => "U"

/-- The string the submit handler assigns to `article.innerHTML`, from the trimmed
name, e-mail and comment and the rating. -/
def reviewMarkup (name email rating comment : String) : String :=
  "<div class=\"d-flex align-items-start gap-3\">" ++
  "  <div class=\"flex-shrink-0\">" ++
  "    <div class=\"rounded-circle bg-light d-flex align-items-center justify-content-center\" style=\"width:56px;height:56px;\">" ++
  "      <span class=\"fw-bold text-brown\">" ++ escapeHtml (initialOf name) ++ "</span>" ++
  "    </div>" ++
  "  </div>" ++
  "  <div class=\"flex-grow-1\">" ++
  "    <div class=\"d-flex align-items-center justify-content-between\">" ++
  "      <div><strong>" ++ escapeHtml name ++ "</strong><div class=\"small review-meta\">" ++
    (if email ≠ "" then escapeHtml email ++ " · " else "") ++ "Just now</div></div>" ++
  "      <div aria-hidden=\"true\">" ++ renderStars rating ++ "</div>" ++
  "    </div>" ++
  "    <p class=\"mt-2 mb-2\">" ++ escapeHtml comment ++ "</p>" ++
  "    <div class=\"d-flex gap-3 align-items-center\">" ++
  "      <button class=\"helpful-btn\" data-helpful=\"true\" aria-pressed=\"false\">Helpful <span class=\"badge bg-light text-muted ms-1\">0</span></button>" ++
  "      <button class=\"helpful-btn\" data-report=\"true\">Report</button>" ++
  "    </div>" ++
  "  </div>" ++
  "</div>"

/-- The markup the submit handler builds from a form that passes its validation. -/
def formMarkup (form : Form) : String :=
  reviewMarkup (trim (form.name.getD "")) (trim (form.email.getD "")) (form.rating.getD "")
    (trim (form.comment.getD ""))

/-- The four characters that can open or close a tag or an attribute value: `<`, `>`,
the double quote and the apostrophe. -/
def isMarkupChar (c : Char) : Bool :=
  c == '<' || c == '>' || c == Char.ofNat 34 || c == Char.ofNat 39

/-- The five entities `escapeHtml` writes. -/
def entities : List String :=
  ["&amp;", "&lt;", "&gt;", "&quot;", "&#39;"]

/-- A piece of text starts with one of the five entities. -/
def EntityStart (t : List Char) : Prop :=
  ∃ e ∈ entities, e.data <+: t

end Reviews

/-! ## The newsletter form (`Agbada.js`, `script-1.js`) -/

/-- A piece of the patterns used by the scripts: a literal character, or a character
class repeated one or more times. -/
inductive Atom where
  | lit (c : Char)
  | plus (p : Char → Bool)

/-- The method `test` for a pattern anchored at both ends (`^...$`), given as the list of
its pieces: whether the pieces, in order, can consume the whole text.  A repeated class
may stop after any character it has taken, as backtracking allows. -/
def matchAtoms : List Atom → List Char → Bool
  | [], [] => true
  | [], _ :: _ => false
  | _ :: _, [] => false
  | Atom.lit c :: rest, x :: s => x == c && matchAtoms rest s
  | Atom.plus p :: rest, x :: s =>
    p x && (matchAtoms rest s || matchAtoms (Atom.plus p :: rest) s)

/-- The pattern `/^\S+@\S+\.\S+$/`. -/
def emailPattern : List Atom :=
  [Atom.plus (fun c => !isSpace c), Atom.lit '@', Atom.plus (fun c => !isSpace c),
    Atom.lit '.', Atom.plus (fun c => !isSpace c)]

/-- The input `input[name="email"]` of the newsletter form: its value, whether it
carries the class `is-invalid`, and whether the handler focused it. -/
structure EmailInput where
  value : String
  invalid : Bool
  focused : Bool
  deriving DecidableEq, Repr

/-- The newsletter form: the e-mail input and the submit button (if present), and the
texts of the confirmation elements appended to the form. -/
structure Newsletter where
  input : Option EmailInput
  submitBtn : Option LoadBtn
  messages : List String
  deriving DecidableEq, Repr

/-- What a newsletter submit handler leaves: the form and the delays of the timers it
started. -/
structure NewsletterResult where
  form : Newsletter
  timers : List Nat
  deriving DecidableEq, Repr

/-- The test both newsletter handlers make on the trimmed value:
`!email || !/^\S+@\S+\.\S+$/.test(email)` fails. -/
def emailAccepted (email : String) : Bool :=
  !(email == "") && matchAtoms emailPattern email.data

/-- The subscribed state both handlers show: the button is disabled and reads
`Subscribed`, and a confirmation is appended to the form. -/
def subscribed (form : Newsletter) : Newsletter :=
  { form with
    submitBtn := form.submitBtn.map (fun _ => ⟨true, "Subscribed"⟩),
    messages := form.messages ++ ["Thanks — we will keep you updated."] }

namespace Agbada

/-- The submit handler of `setupNewsletter`. -/
def newsletterSubmit (form : Newsletter) : NewsletterResult :=
  match form.input with
  | Option.none => ⟨form, []⟩
  | some input =>
    let email := trim input.value
    if emailAccepted email = false then
      ⟨{ form with input := some { input with invalid := true, focused := true } }, [1400]⟩
    else ⟨subscribed form, [1600]⟩

end Agbada

namespace Script

/-- The newsletter submit handler of `script-1.js`. -/
def newsletterSubmit (form : Newsletter) : NewsletterResult :=
  match form.input with
  | Option.none => ⟨form, []⟩
  | some email =>
    let val := trim email.value
    if emailAccepted val = false then
      ⟨{ form with input := some { email with invalid := true } }, [1400]⟩
    else ⟨subscribed form, [2200]⟩

end Script

/-- The acceptance condition as the specification words it: no white space, an `@` at
a position `i ≥ 1`, and a `.` at a position `j` with `i + 2 ≤ j ≤ length - 2`. -/
def SpecValidEmail (v : List Char) : Prop :=
  (∀ c ∈ v, isSpace c = false) ∧
    ∃ i j, 1 ≤ i ∧ v[i]? = some '@' ∧ i + 2 ≤ j ∧ j + 2 ≤ v.length ∧ v[j]? = some '.'

/-- A newsletter form with the given value typed in. -/
def sampleNewsletter (value : String) : Newsletter :=
  ⟨some ⟨value, false, false⟩, some ⟨false, "Subscribe"⟩, []⟩

/-! ## Lazy images -/

/-- An image as the lazy loaders read and write it: the attributes `src`, `srcset`,
`data-src` and `data-srcset`, whether its class list holds `lazy` and `lazy-loaded`, and
whether the observer is observing it. -/
structure Img where
  src : Option String
  srcset : Option String
  dataSrc : Option String
  dataSrcset : Option String
  isLazy : Bool
  isLoaded : Bool
  observed : Bool
  deriving DecidableEq, Repr

/-- The assignment `if (s) img.src = s` for `s = img.getAttribute('data-src')`. -/
def copySrc (img : Img) : Img :=
  match img.dataSrc with
  | some s => if s = "" then img else { img with src := some s }
  | Option.none => img

/-- The assignment `if (srcset) img.srcset = srcset` for
`srcset = img.getAttribute('data-srcset')`. -/
def copySrcset (img : Img) : Img :=
  match img.dataSrcset with
  | some s => if s = "" then img else { img with srcset := some s }
  | Option.none => img

/-- The observer callback of `initLazy` and of `setupLazyLoad` (the same in both) for an
entry that intersects: both sources are copied, the class `lazy` is replaced by
`lazy-loaded`, and the image is no longer observed. -/
def lazyLoad (img : Img) : Img :=
  { copySrcset (copySrc img) with isLazy := false, isLoaded := true, observed := false }

namespace Collection

/-- The body of the `else` branch of `initLazy` in `wrapperSets.js`, for one image:
`s = i.getAttribute('data-src'); if (s) i.src = s;` and the two class changes. -/
def lazyFallback (i : Img) : Img :=
  { copySrc i with isLazy := false, isLoaded := true }

/-- The function `initLazy(root)` on the images under `root`; the flag tells whether
`'IntersectionObserver' in window` holds.  Only the images matching `img.lazy` are
touched: with the observer they are observed, without it they are loaded at once. -/
def initLazy (hasObserver : Bool) (imgs : List Img) : List Img :=
  if hasObserver then imgs.map (fun i => if i.isLazy then { i with observed := true } else i)
  else imgs.map (fun i => if i.isLazy then lazyFallback i else i)

end Collection

namespace Agbada

/-- The body of the `else` branch of `setupLazyLoad` in `Agbada.js`, for one image: both
sources are copied, then the two class changes. -/
def lazyFallback (img : Img) : Img :=
  { copySrcset (copySrc img) with isLazy := false, isLoaded := true }

/-- The function `setupLazyLoad()` on the images of the document. -/
def setupLazyLoad (hasObserver : Bool) (imgs : List Img) : List Img :=
  if hasObserver then imgs.map (fun i => if i.isLazy then { i with observed := true } else i)
  else imgs.map (fun i => if i.isLazy then lazyFallback i else i)

end Agbada

/-- An image marked lazy with both deferred sources. -/
def sampleImg : Img :=
  ⟨Option.none, Option.none, some "gown.jpg", some "gown.jpg 1x, gown-2x.jpg 2x",
    true, false, false⟩

/-! ## The preview overlay of the generalised controller -/

namespace Collection

/-- An overlay element (`div.preview-overlay`) as the preview functions write it: its
`style.display`, its `aria-hidden` attribute, the `src` and `alt` of its image, and the
texts of its title and its description. -/
structure Overlay where
  display : String
  ariaHidden : Option String
  imgSrc : String
  imgAlt : String
  title : String
  text : String
  deriving DecidableEq, Repr

/-- The image of a card as `openPreview` reads it: `data-src` and the `src` property. -/
structure PreviewImg where
  dataSrc : Option String
  src : String
  deriving DecidableEq, Repr

/-- A card as `openPreview` reads it: its image (`img.card-img-top`, else the first
`img`) and the texts of `.card-title`, `.card-text` and `.price`, each if present. -/
structure PreviewCard where
  img : Option PreviewImg
  title : Option String
  desc : Option String
  price : Option String
  deriving DecidableEq, Repr

/-- The state of the preview: the overlay elements that `createPreview` has appended to
the body, in order, and the variable `previewOverlay`, which is `null` or refers to one
of them by its position. -/
structure PreviewState where
  body : List Overlay
  previewOverlay : Option Nat
  deriving DecidableEq, Repr

/-- The state when the script starts. -/
def previewStart : PreviewState :=
  ⟨[], Option.none⟩

/-- The overlay as `createPreview` builds it: hidden, with an empty image, title and
text. -/
def freshOverlay : Overlay :=
  ⟨"none", Option.none, "", "", "", ""⟩

/-- The function `createPreview()`: the overlay `previewOverlay` refers to if there is
one; otherwise a new overlay is appended to the body and `previewOverlay` is set to it.
The result is the state and the position of the overlay returned. -/
def createPreview (st : PreviewState) : PreviewState × Nat :=
  match st.previewOverlay with
  | some k => (st, k)
  | Option.none => (⟨st.body ++ [freshOverlay], some st.body.length⟩, st.body.length)

/-- The source `imgEl.getAttribute('data-src') || imgEl.src || ''`. -/
def previewSrc (img : PreviewImg) : String :=
  match img.dataSrc with
  | some s => if s = "" then img.src else s
  | Option.none => img.src

/-- What `openPreview(card)` writes into the overlay: image, title and text, then the
overlay is shown.  (The two `onclick` properties it assigns replace the former ones;
they are not part of the state.) -/
def fillOverlay (card : PreviewCard) (o : Overlay) : Overlay :=
  let title := card.title.getD ""
  let desc := card.desc.getD ""
  let price := card.price.getD ""
  let o1 := match card.img with
    | some img => { o with imgSrc := previewSrc img, imgAlt := if title = "" then "Preview" else title }
    | Option.none => o
  { o1 with
    title := title,
    text := (if price = "" then "" else price ++ " · ") ++ desc,
    display := "flex",
    ariaHidden := some "false" }

/-- The function `openPreview(card)`. -/
def openPreview (card : PreviewCard) (st : PreviewState) : PreviewState :=
  let r := createPreview st
  { r.1 with body := r.1.body.modify (fillOverlay card) r.2 }

/-- The function `closePreview()`: nothing without an overlay; otherwise the overlay is
hidden. -/
def closePreview (st : PreviewState) : PreviewState :=
  match st.previewOverlay with
  | Option.none => st
  | some k =>
    { st with
      body := st.body.modify (fun o => { o with display := "none", ariaHidden := some "true" }) k }

/-- A call of one of the two preview functions. -/
inductive PreviewCall where
  | openPreview (card : PreviewCard)
  | closePreview
  deriving DecidableEq, Repr

/-- The effect of one call. -/
def previewStep (st : PreviewState) (call : PreviewCall) : PreviewState :=
  match call with
  | PreviewCall.openPreview card => openPreview card st
  | PreviewCall.closePreview => closePreview st

/-- The effect of a sequence of calls, from the state at the start of the script. -/
def previewRun (calls : List PreviewCall) : PreviewState :=
  calls.foldl previewStep previewStart

/-- A card with a title, a price and an image. -/
def samplePreviewCard : PreviewCard :=
  ⟨some ⟨some "gown.jpg", ""⟩, some "Royal gown", some "Hand made", some "₦45,000"⟩

end Collection

namespace Collection

/-- No overlay has been created: the body holds none and `previewOverlay` is `null`. -/
def NoOverlay (st : PreviewState) : Prop :=
  st = previewStart

/-- One overlay has been created, and `previewOverlay` refers to it. -/
def OneOverlay (st : PreviewState) : Prop :=
  ∃ o, st = ⟨[o], some 0⟩

/-- The overlay as `closePreview` leaves it. -/
def hideOverlay (o : Overlay) : Overlay :=
  { o with display := "none", ariaHidden := some "true" }

end Collection

/-! ## Initialisation of the generalised controller -/

namespace Collection

/-- What `resolveContext(el)` finds below a container element, by the identity of the
nodes (a number stands for a node of the document): the first `.row`, the filter
controls, the sort select and the load-more control. -/
structure Context where
  row : Option Nat
  filterBtns : List Nat
  sortSelect : Option Nat
  loadMoreBtn : Option Nat
  deriving DecidableEq, Repr

/-- The document as `autoInit` reads it: for each of the five selectors `#featured`,
`#heritage`, `#irobuba`, `#wrapper-sets`, `#gowns` and for the first `main` element,
whether the element exists and what `resolveContext` finds below it; and whether the
document holds a product card. -/
structure Document where
  featured : Option Context
  heritage : Option Context
  irobuba : Option Context
  wrapperSets : Option Context
  gowns : Option Context
  hasCard : Bool
  main : Option Context
  deriving DecidableEq, Repr

/-- The events `initCollection` listens to. -/
inductive EventKind where
  | filterClick
  | sortChange
  | loadMoreClick
  deriving DecidableEq, Repr

/-- A handler attached by `initCollection`: the node it is attached to, the event, and
the container its closure works on. -/
structure Listener where
  target : Nat
  event : EventKind
  container : Context
  deriving DecidableEq, Repr

/-- What initialisation has done so far: the handlers attached, in order, and the rows
on which `initCollection` has run, one entry for each run. -/
structure InitState where
  listeners : List Listener
  initialised : List Nat
  deriving DecidableEq, Repr

/-- The function `initCollection(containerRoot)`, given what `resolveContext` finds:
nothing without a row; otherwise a handler on every filter control, on the sort select
and on the load-more control. -/
def initCollection (container : Context) (st : InitState) : InitState :=
  match container.row with
  | Option.none => st
  | some row =>
    { listeners := st.listeners
        ++ container.filterBtns.map (fun btn => ⟨btn, EventKind.filterClick, container⟩)
        ++ container.sortSelect.toList.map (fun s => ⟨s, EventKind.sortChange, container⟩)
        ++ container.loadMoreBtn.toList.map (fun b => ⟨b, EventKind.loadMoreClick, container⟩),
      initialised := st.initialised ++ [row] }

/-- The function `autoInit()`: `initCollection` on each of the five elements that
exists, then, when the document holds a product card, on the first `main` element. -/
def autoInit (doc : Document) : InitState :=
  let st := [doc.featured, doc.heritage, doc.irobuba, doc.wrapperSets, doc.gowns].foldl
    (fun st el =>
      match el with
      | some container => initCollection container st
      | Option.none => st)
    ⟨[], []⟩
  if doc.hasCard = false then st
  else
    match doc.main with
    | some mainEl => initCollection mainEl st
    | Option.none => st

/-- The children of the row `row` after one click on the load-more control `btn` and the
delayed actions it starts: every load-more handler on `btn` whose container has this
row runs `safeLoadMore` on it, in the order of attachment. -/
def clickLoadMore (st : InitState) (btn row : Nat) (cells : List Cell) : List Cell :=
  (st.listeners.filter (fun l =>
      l.target == btn && l.event == EventKind.loadMoreClick && l.container.row == some row)).foldl
    (fun r _ => safeLoadMore r) cells

/-- A page whose `main` element holds the section `#featured`: the first row below
either is the node 1, the filter controls are the nodes 2 and 3, there is no sort
select, and the load-more control is the node 9.  The document holds product cards. -/
def sampleDocument : Document :=
  ⟨some ⟨some 1, [2, 3], Option.none, some 9⟩, Option.none, Option.none, Option.none,
    Option.none, true, some ⟨some 1, [2, 3], Option.none, some 9⟩⟩

end Collection

/-! ## The order modal of the gifts page (`gifts-1.js`) -/

namespace Gifts

/-- The variables shared by the two function objects `updateTotal` and `onSubmit` that
one call of `handleOrderClick` creates; `id` tells the function objects of different
calls apart. -/
structure Closure where
  id : Nat
  packageName : String
  basePrice : JsNumber
  phone : Option String
  deriving DecidableEq, Repr

/-- An add-on checkbox (`.addon-checkbox`): whether it is checked, the trimmed text of
its parent, its `data-price`, and the `change` handlers attached to it, in order. -/
structure AddOn where
  checked : Bool
  label : String
  dataPrice : Option String
  changeListeners : List Closure
  deriving DecidableEq, Repr

/-- The values of the controls of the order form. -/
structure OrderForm where
  buyerName : String
  buyerPhone : String
  recipientName : String
  address : String
  deliveryDate : String
  note : String
  deriving DecidableEq, Repr

/-- An order button with its card, as `handleOrderClick` reads them: `data-package` and
`data-phone` of the button, `data-package` of the card, and the texts of the card's
`.card-title` and `.price`, each if present. -/
structure OrderButton where
  dataPackage : Option String
  dataPhone : Option String
  cardPackage : Option String
  cardTitle : Option String
  priceText : Option String
  deriving DecidableEq, Repr

/-- The page state the order flow works on: the number of function objects created so
far, the add-on checkboxes, the order form with its `submit` handlers in order, the
display of the modal, the two texts the modal shows, the addresses opened, and the
names of the fields flagged as invalid. -/
structure Page where
  nextId : Nat
  addOns : List AddOn
  form : OrderForm
  submitListeners : List Closure
  modalDisplay : String
  selectedPackage : String
  totalText : String
  opened : List String
  flagged : List String
  deriving DecidableEq, Repr

/-- A value or the next one when it is missing or empty: the operator `||` on strings. -/
def orStr (a : Option String) (b : String) : String :=
  match a with
  | some s => if s = "" then b else s
  | Option.none => b

/-- The value `packageName` (the empty string stands for any falsy value). -/
def packageOf (btn : OrderButton) : String :=
  orStr btn.dataPackage (orStr btn.cardPackage (trim (btn.cardTitle.getD "")))

/-- The value `basePrice`; `parsePrice` of `gifts-1.js` has the body of the one in
`casualWears.js`. -/
def priceOf (btn : OrderButton) : JsNumber :=
  match btn.priceText with
  | some t => Agbada.parsePrice t
  | Option.none => JsNumber.fin 0

/-- The number `Number(cb.dataset.price) || 0`. -/
def addOnPrice (cb : AddOn) : JsNumber :=
  match cb.dataPrice with
  | some v => Reviews.toNumber v
  | Option.none => JsNumber.fin 0

/-- The function `calculateTotal(basePrice, selectedAddOnCheckboxes)`. -/
def calculateTotal (basePrice : JsNumber) (selected : List AddOn) : JsNumber :=
  selected.foldl (fun total cb => jsAdd total (addOnPrice cb)) (orZero basePrice)

/-- The method `removeEventListener(type, fn)`: the handler that is the function object
`fn` is taken off the list. -/
def removeListener (fn : Closure) (listeners : List Closure) : List Closure :=
  listeners.filter (fun l => l.id ≠ fn.id)

/-- The function `handleOrderClick` for a click on an order button; `formatCurrency` is
the function of that name (it uses the locale of the engine).  The call creates new
function objects `updateTotal` and `onSubmit`, removes them from the checkboxes and
the form, where they cannot yet be, and attaches them. -/
def handleOrderClick (formatCurrency : JsNumber → String) (btn : OrderButton) (pg : Page) :
    Page :=
  let packageName := packageOf btn
  let basePrice := priceOf btn
  let fn : Closure := ⟨pg.nextId, packageName, basePrice, btn.dataPhone⟩
  { pg with
    nextId := pg.nextId + 1,
    selectedPackage :=
      (if packageName = "" then "" else packageName ++ " · ") ++ formatCurrency basePrice,
    form := ⟨"", "", "", "", "", ""⟩,
    totalText := "Total: " ++ formatCurrency basePrice,
    addOns := pg.addOns.map
      (fun cb => { cb with changeListeners := removeListener fn cb.changeListeners ++ [fn] }),
    submitListeners := removeListener fn pg.submitListeners ++ [fn],
    modalDisplay := "flex" }

/-- The list `parts` of `onSubmit`. -/
def orderParts (formatCurrency : JsNumber → String) (fn : Closure) (form : OrderForm)
    (addOns : List AddOn) : List String :=
  let selected := addOns.filter (fun cb => cb.checked)
  ["Hello, I would like to order: " ++ (if fn.packageName = "" then "Gift package" else fn.packageName),
   "Buyer: " ++ trim form.buyerName ++ " (" ++ trim form.buyerPhone ++ ")",
   "Recipient: " ++ trim form.recipientName,
   "Address: " ++ trim form.address]
  ++ (if form.deliveryDate = "" then [] else ["Delivery date: " ++ form.deliveryDate])
  ++ (if trim form.note = "" then [] else ["Note: " ++ trim form.note])
  ++ (if selected = [] then []
      else ["Add-ons: " ++ join "; "
        (selected.map (fun a => a.label ++ " (" ++ formatCurrency (addOnPrice a) ++ ")"))])
  ++ ["Total: " ++ formatCurrency (calculateTotal fn.basePrice selected),
      "Please confirm availability and delivery fee. Thank you."]

/-- The function object `onSubmit` of one `handleOrderClick` call: a missing field is
flagged; otherwise the message is sent, the handler takes itself off the form, and the
modal is hidden. -/
def onSubmit (formatCurrency : JsNumber → String) (fn : Closure) (pg : Page) : Page :=
  if trim pg.form.buyerName = "" then { pg with flagged := pg.flagged ++ ["buyerName"] }
  else if trim pg.form.buyerPhone = "" then { pg with flagged := pg.flagged ++ ["buyerPhone"] }
  else if trim pg.form.recipientName = "" then
    { pg with flagged := pg.flagged ++ ["recipientName"] }
  else if trim pg.form.address = "" then { pg with flagged := pg.flagged ++ ["address"] }
  else
    let message := join " | " (orderParts formatCurrency fn pg.form pg.addOns)
    { pg with
      opened := pg.opened ++ [Collection.openWhatsApp (orStr fn.phone "2348136754060") message],
      submitListeners := removeListener fn pg.submitListeners,
      modalDisplay := "none" }

/-- A `submit` event on the order form: the handlers attached when the event is
dispatched run in order, each unless it has been removed by then. -/
def submitForm (formatCurrency : JsNumber → String) (pg : Page) : Page :=
  pg.submitListeners.foldl
    (fun st fn => if fn ∈ st.submitListeners then onSubmit formatCurrency fn st else st) pg

/-- The visitor fills in the order form. -/
def fillForm (form : OrderForm) (pg : Page) : Page :=
  { pg with form := form }

/-- The state from which the handlers of the script start: no handler attached, two
add-on checkboxes, the form empty, nothing opened; `modalDisplay` is the display
`createOrderModal` gives the modal.  Whether the script is evaluated at all, so that the
modal exists and the handlers can run, is settled by `scriptParses` and `loadScript`
below. -/
def startPage : Page :=
  ⟨0, [⟨false, "Gift card", some "2000", []⟩, ⟨false, "Ribbon", some "500", []⟩],
    ⟨"", "", "", "", "", ""⟩, [], "none", "", "", [], []⟩

/-- The order buttons of two packages. -/
def silverBtn : OrderButton :=
  ⟨some "Silver", Option.none, Option.none, some "Silver box", some "₦20,000"⟩

/-- The order button of the second package. -/
def goldBtn : OrderButton :=
  ⟨some "Gold", Option.none, Option.none, some "Gold box", some "₦50,000"⟩

/-- An order form filled in completely. -/
def filledForm : OrderForm :=
  ⟨"Ada", "08030000000", "Bola", "12 Allen Avenue", "", ""⟩

/-- A currency format for concrete runs: the naira sign and the digits, without
grouping. -/
def plainCurrency (n : JsNumber) : String :=
  match n with
  | JsNumber.fin v => "₦" ++ toString v
  | JsNumber.inf => "₦∞"

/-- The functions of the script as they are written, applied by hand: `handleOrderClick`
for the order button of the first package, then for that of the second, and the form
filled in.  The page as shipped never makes this run, see `shippedRun` below. -/
def twoClicks : Page :=
  fillForm filledForm
    (handleOrderClick plainCurrency goldBtn (handleOrderClick plainCurrency silverBtn startPage))

end Gifts

/-! ## The texts the reviews script reads as numbers -/

namespace Reviews

/-- The texts on which `toNumber` above is the script's `Number(v) || 0`: after trimming,
a run of decimal digits (possibly empty), or a text without any decimal digit other than
`-Infinity`.  A text without a digit is no numeral unless it is `Infinity` with or
without a sign, since every other numeral of the language holds a digit. -/
def readable (v : String) : Bool :=
  let t := (trim v).data
  t.all isDigit || (t.all (fun c => !isDigit c) && !(t == "-Infinity".data))

/-- The texts of an element on which `textNumber` is the script's reading: a number the
script wrote, or a readable text. -/
def faithfulText (t : NumText) : Bool :=
  match t with
  | NumText.text s => readable s
  | NumText.num _ => true

/-- A review whose `data-rating` and whose badges, as far as present, are readable. -/
def readableReview (n : Review) : Bool :=
  n.dataRating.all readable && n.leadBadge.all readable &&
    (match n.helpful with
     | some h => h.badge.all faithfulText
     | Option.none => true)

/-- A list of reviews all of which are readable: on such a list the model reads every
number as the script does. -/
def readableList (l : List Review) : Bool :=
  l.all readableReview

/-- The counter of a helpful control shows the whole number `n`: its text is a number
the script wrote, equal to `n`, or it is, up to white space around it, a non-empty run
of decimal digits that denotes `n`. -/
def CounterShows (t : NumText) (n : Nat) : Prop :=
  match t with
  | NumText.num x => x = JsNumber.fin n
  | NumText.text s =>
    (trim s).data ≠ [] ∧ (trim s).data.all isDigit = true ∧ mathInt (trim s).data = n

end Reviews

namespace Agbada

/-- A card of the Agbada page that carries the attributes of a collection card, as the
Agbada script reads it: `data-category`, the text of `.price` and `data-newest`.  The
attributes `data-price` and `data-new` are not read on this page. -/
def ofCard (card : Collection.Card) (display : String) (dNone : Bool) : Product :=
  ⟨card.category, card.priceText, card.dataNewest, display, dNone⟩

/-- Two cards, one to a column: the first carries no flag, the second carries
`data-new="true"` and no `data-newest`. -/
def dataNewGrid : List GridCol :=
  [⟨true, some (ofCard ⟨some "men", Option.none, some "₦300", Option.none, Option.none⟩ "" false)⟩,
   ⟨true, some (ofCard ⟨some "men", Option.none, some "₦200", some "true", Option.none⟩ "" false)⟩]

end Agbada

namespace Collection

/-- The same two cards in a row of the generalised controller, with the control `all`
active and the sort select showing `new`. -/
def dataNewContainer : Container :=
  ⟨some [⟨true, some ⟨some "men", Option.none, some "₦300", Option.none, Option.none⟩, ""⟩,
         ⟨true, some ⟨some "men", Option.none, some "₦200", some "true", Option.none⟩, ""⟩],
    [⟨"all", true⟩], some "new"⟩

end Collection

/-! ## Loading `gifts-1.js` -/

namespace Gifts

/-- The characters that can start an identifier, as far as the script text uses them:
letters, `$` and `_`. -/
def isIdentStart (c : Char) : Bool :=
  c.isAlpha || c == '$' || c == '_'

/-- The characters that can continue an identifier. -/
def isIdentPart (c : Char) : Bool :=
  isIdentStart c || isDigit c

/-- The exponent part of a decimal literal, if the text starts with one: `e` or `E`, an
optional sign, and at least one digit. -/
def skipExponent (src : List Char) : List Char :=
  match src with
  | c :: r =>
    if c == 'e' || c == 'E' then
      let r1 := if r.head? = some '+' ∨ r.head? = some '-' then r.tail else r
      if (r1.head?.map isDigit) = some true then r1.dropWhile isDigit else src
    else src
  | [] => src

/-- A decimal literal at the head of the text: digits, an optional point with further
digits, an optional exponent; the result is the text behind it.  The language demands
that the character right behind a numeric literal is neither the start of an identifier
nor a digit; otherwise the text is in error, here `none`. -/
def lexNumber (src : List Char) : Option (List Char) :=
  let afterInt := src.dropWhile isDigit
  let afterFrac :=
    match afterInt with
    | '.' :: r => r.dropWhile isDigit
    | r => r
  let rest := skipExponent afterFrac
  match rest.head? with
  | some c => if isIdentStart c || isDigit c then Option.none else some rest
  | Option.none => some rest

/-- The number of tokens of a piece of script text made of white space, identifiers,
decimal literals, string literals in single quotes and one-character punctuators, or
`none` when the text cannot be split into tokens.  The first argument bounds the number
of steps. -/
def lexTokens : Nat → List Char → Option Nat
  | 0, _ => Option.none
  | _ + 1, [] => some 0
  | fuel + 1, c :: cs =>
    if isSpace c then lexTokens fuel cs
    else if isDigit c then
      match lexNumber (c :: cs) with
      | some rest => (lexTokens fuel rest).map (fun k => k + 1)
      | Option.none => Option.none
    else if isIdentStart c then
      (lexTokens fuel (cs.dropWhile isIdentPart)).map (fun k => k + 1)
    else if c == Char.ofNat 39 then
      match cs.dropWhile (fun x => x != Char.ofNat 39) with
      | _ :: rest => (lexTokens fuel rest).map (fun k => k + 1)
      | [] => Option.none
    else (lexTokens fuel cs).map (fun k => k + 1)

/-- Line 225 of `gifts-1.js`, in the function `createOrderModal`. -/
def line225 : String :=
  "    modal.style-1.cssText = 'position:fixed;inset:0;display:none;align-items:center;justify-content:center;background:rgba(0,0,0,0.6);z-index:1300;padding:20px;';"

/-- Whether line 225 splits into tokens.  The engine evaluates a script only if its whole
text parses, so this is necessary for any statement of `gifts-1.js` to run. -/
def scriptParses : Bool :=
  (lexTokens (line225.data.length + 1) line225.data).isSome

/-- The page together with what only an evaluated script provides: whether the order
modal with its form exists (`createOrderModal`), and whether the order buttons carry
`handleOrderClick`. -/
structure Site where
  page : Page
  modal : Bool
  wired : Bool
  deriving DecidableEq, Repr

/-- The page as the markup gives it, before any script. -/
def markupSite : Site :=
  ⟨startPage, false, false⟩

/-- The document loads `gifts-1.js`: a script that parses is evaluated, which creates the
modal (`var orderModal = createOrderModal()`) and attaches `handleOrderClick` to the
order buttons; of a script that does not parse nothing runs. -/
def loadScript (site : Site) : Site :=
  if scriptParses then { site with modal := true, wired := true } else site

/-- A click on an order button: `handleOrderClick` runs if it is attached. -/
def clickOrder (formatCurrency : JsNumber → String) (btn : OrderButton) (site : Site) : Site :=
  if site.wired then { site with page := handleOrderClick formatCurrency btn site.page }
  else site

/-- The visitor fills in the order form, if there is one. -/
def typeForm (form : OrderForm) (site : Site) : Site :=
  if site.modal then { site with page := fillForm form site.page } else site

/-- The visitor submits the order form, if there is one. -/
def submitOrder (formatCurrency : JsNumber → String) (site : Site) : Site :=
  if site.modal then { site with page := submitForm formatCurrency site.page } else site

/-- The run of the failing input on the page as shipped: the script is loaded, the order
buttons of two packages are clicked, the form is filled in and submitted. -/
def shippedRun : Site :=
  submitOrder plainCurrency (typeForm filledForm (clickOrder plainCurrency goldBtn
    (clickOrder plainCurrency silverBtn (loadScript markupSite))))

end Gifts

/-! ## Price parsing -/

theorem mathInt_eq_ofDigits (ds : List Char) :
    mathInt ds = Nat.ofDigits 10 (ds.map digitVal).reverse := by
  unfold mathInt
  rw [Nat.ofDigits_eq_foldr, List.foldr_reverse, List.foldl_map]
  simp [Nat.add_comm]

theorem mathInt_strip (s : String) : mathInt (stripNonDigits s) = decimalValue s := by
  rw [mathInt_eq_ofDigits]; rfl

theorem roundDouble_exact (n : Nat) (h : n ≤ 2 ^ 53) : roundDouble n = JsNumber.fin n := by
  rcases Nat.lt_or_eq_of_le h with h1 | h1
  · unfold roundDouble; rw [if_pos h1]
  · subst h1; decide

theorem orZero_fin (n : Nat) : orZero (JsNumber.fin n) = JsNumber.fin n := by
  cases n <;> rfl

theorem decimalValue_of_no_digit (s : String) (h : ∀ c ∈ s.data, isDigit c = false) :
    decimalValue s = 0 := by
  have : s.data.filter isDigit = [] := by
    rw [List.filter_eq_nil_iff]; intro c hc; simp [h c hc]
  simp [decimalValue, digitsOf, this]

/-! ## The sort -/

theorem jsSort_perm {α : Type} (cmp : α → α → Int) (l : List α) : (jsSort cmp l).Perm l :=
  List.perm_insertionSort _ l

theorem jsSort_pairwise {α : Type} (cmp : α → α → Int)
    (htot : ∀ a b, cmp a b ≤ 0 ∨ cmp b a ≤ 0)
    (htr : ∀ a b c, cmp a b ≤ 0 → cmp b c ≤ 0 → cmp a c ≤ 0) (l : List α) :
    (jsSort cmp l).Pairwise (fun a b => cmp a b ≤ 0) := by
  haveI : IsTotal α (fun a b => cmp a b ≤ 0) := ⟨htot⟩
  haveI : IsTrans α (fun a b => cmp a b ≤ 0) := ⟨htr⟩
  exact List.sorted_insertionSort _ l

theorem subSign_le_iff (a b : JsNumber) : subSign a b ≤ 0 ↔ JsNumber.le a b := by
  cases a <;> cases b <;> simp [subSign, JsNumber.le]

theorem JsNumber.le_total (a b : JsNumber) : JsNumber.le a b ∨ JsNumber.le b a := by
  cases a <;> cases b <;> simp [JsNumber.le]; omega

theorem JsNumber.le_trans (a b c : JsNumber) (h1 : JsNumber.le a b) (h2 : JsNumber.le b c) :
    JsNumber.le a c := by
  cases a <;> cases b <;> cases c <;> simp_all [JsNumber.le]; omega

theorem JsNumber.le_antisymm (a b : JsNumber) (h1 : JsNumber.le a b) (h2 : JsNumber.le b a) :
    a = b := by
  cases a <;> cases b <;> simp_all [JsNumber.le]; omega

/-- Sorting by ascending key leaves the keys in non-decreasing order. -/
theorem jsSort_asc {α : Type} (k : α → JsNumber) (l : List α) :
    (jsSort (fun a b => subSign (k a) (k b)) l).Pairwise
      (fun a b => JsNumber.le (k a) (k b)) := by
  have h := jsSort_pairwise (fun a b => subSign (k a) (k b))
    (fun a b => by simp only [subSign_le_iff]; exact JsNumber.le_total _ _)
    (fun a b c => by simp only [subSign_le_iff]; exact JsNumber.le_trans _ _ _) l
  exact h.imp (fun hab => (subSign_le_iff _ _).1 hab)

/-- Sorting by descending key leaves the keys in non-increasing order. -/
theorem jsSort_desc {α : Type} (k : α → JsNumber) (l : List α) :
    (jsSort (fun a b => subSign (k b) (k a)) l).Pairwise
      (fun a b => JsNumber.le (k b) (k a)) := by
  have h := jsSort_pairwise (fun a b => subSign (k b) (k a))
    (fun a b => by simp only [subSign_le_iff]; exact JsNumber.le_total _ _)
    (fun a b c h1 h2 => by
      simp only [subSign_le_iff] at *; exact JsNumber.le_trans _ _ _ h2 h1) l
  exact h.imp (fun hab => (subSign_le_iff _ _).1 hab)

theorem orderedInsert_append_of_not {α : Type} (r : α → α → Prop) [DecidableRel r] (a : α)
    (l1 l2 : List α) (h : ∀ x ∈ l1, ¬ r a x) :
    List.orderedInsert r a (l1 ++ l2) = l1 ++ List.orderedInsert r a l2 := by
  induction l1 with
  | nil => rfl
  | cons x xs ih =>
    have hx : ¬ r a x := h x (List.mem_cons_self _ _)
    have ih2 := ih (fun y hy => h y (List.mem_cons_of_mem _ hy))
    simp only [List.cons_append, List.orderedInsert, if_neg hx]
    exact congrArg (List.cons x) ih2

theorem orderedInsert_of_all {α : Type} (r : α → α → Prop) [DecidableRel r] (a : α)
    (l : List α) (h : ∀ x ∈ l, r a x) : List.orderedInsert r a l = a :: l := by
  cases l with
  | nil => rfl
  | cons x xs => simp [List.orderedInsert, h x (List.mem_cons_self _ _)]

/-- Sorting by a flag is the stable partition: the flagged elements in their order,
then the others in their order. -/
theorem jsSort_flag {α : Type} (f : α → Bool) (l : List α) :
    jsSort (fun a b => boolNum (f b) - boolNum (f a)) l
      = l.filter f ++ l.filter (fun x => !f x) := by
  unfold jsSort
  induction l with
  | nil => rfl
  | cons a l ih =>
    simp only [List.insertionSort, ih]
    cases ha : f a
    · rw [orderedInsert_append_of_not]
      · rw [orderedInsert_of_all]
        · simp [List.filter_cons, ha]
        · intro x hx
          have hfx : f x = false := by simpa using (List.mem_filter.1 hx).2
          simp [boolNum, ha, hfx]
      · intro x hx
        have hfx : f x = true := (List.mem_filter.1 hx).2
        simp [boolNum, ha, hfx]
    · rw [orderedInsert_of_all]
      · simp [List.filter_cons, ha]
      · intro x _
        cases hfx : f x <;> simp [boolNum, ha]

theorem eq_of_map_eq_of_injOn {α β : Type} (k : α → β) :
    ∀ (l1 l2 : List α), l1.map k = l2.map k →
      (∀ a ∈ l1, ∀ b ∈ l2, k a = k b → a = b) → l1 = l2
  | [], [], _, _ => rfl
  | [], _ :: _, h, _ => by simp at h
  | _ :: _, [], h, _ => by simp at h
  | a :: l1, b :: l2, h, hinj => by
    simp only [List.map_cons, List.cons.injEq] at h
    have hab : a = b := hinj a (List.mem_cons_self _ _) b (List.mem_cons_self _ _) h.1
    have ht := eq_of_map_eq_of_injOn k l1 l2 h.2
      (fun x hx y hy => hinj x (List.mem_cons_of_mem _ hx) y (List.mem_cons_of_mem _ hy))
    rw [hab, ht]

/-! ## The generalised controller: filter and sort -/

namespace Collection

theorem isColumn_setDisplay (lower : String → String) (flt : String) (col : Col) :
    isColumn (setDisplay lower flt col) = isColumn col := by
  unfold setDisplay; split <;> rfl

theorem matchesFilter_setDisplay (lower : String → String) (flt flt2 : String) (col : Col) :
    matchesFilter lower flt (setDisplay lower flt2 col) = matchesFilter lower flt col := by
  unfold setDisplay; split <;> rfl

theorem setDisplay_of_selected (lower : String → String) (flt : String) (col : Col)
    (h1 : isColumn col = true) (h2 : matchesFilter lower flt col = true) :
    setDisplay lower flt col = { col with display := "" } := by
  simp [setDisplay, h1, h2]

theorem setDisplay_display (lower : String → String) (flt : String) (col : Col)
    (h1 : isColumn col = true) :
    (setDisplay lower flt col).display
      = if matchesFilter lower flt col then "" else "none" := by
  simp [setDisplay, h1]

theorem toMapped_col (col : Col) : (toMapped col).col = col := by
  unfold toMapped; split <;> rfl

theorem map_col_toMapped (l : List Col) : (l.map toMapped).map Mapped.col = l := by
  rw [List.map_map]
  conv_rhs => rw [← List.map_id l]
  exact List.map_congr_left (fun a _ => toMapped_col a)

theorem sortMapped_perm (v : String) (l : List Mapped) : (sortMapped v l).Perm l := by
  unfold sortMapped
  split
  · exact jsSort_perm _ _
  · split
    · exact jsSort_perm _ _
    · split
      · exact jsSort_perm _ _
      · exact List.Perm.refl _

/-- The array `visibleCols` of `applyFilters` is `selectedCols`. -/
theorem visibleCols_eq (lower : String → String) (c : Container) (row : List Col)
    (hrow : c.row = some row) :
    (row.map (setDisplay lower (activeFilter c))).filter
        (fun col => isColumn col && matchesFilter lower (activeFilter c) col)
      = selectedCols lower c := by
  unfold selectedCols getColumns
  rw [hrow, List.filter_map, List.filter_filter]
  have hf : ((fun col => isColumn col && matchesFilter lower (activeFilter c) col)
      ∘ setDisplay lower (activeFilter c))
      = (fun col => matchesFilter lower (activeFilter c) col && isColumn col) := by
    funext col
    simp [Function.comp, isColumn_setDisplay, matchesFilter_setDisplay, Bool.and_comm]
  rw [hf]
  apply List.map_congr_left
  intro col hcol
  have h := (List.mem_filter.1 hcol).2
  simp only [Bool.and_eq_true] at h
  exact setDisplay_of_selected lower _ col h.2 h.1

theorem selectedCols_mem (lower : String → String) (c : Container) (col : Col)
    (h : col ∈ selectedCols lower c) : isColumn col = true ∧ col.display = "" := by
  unfold selectedCols at h
  obtain ⟨x, hx, rfl⟩ := List.mem_map.1 h
  have hx1 := (List.mem_filter.1 hx).1
  unfold getColumns at hx1
  split at hx1
  · exact ⟨(List.mem_filter.1 hx1).2, rfl⟩
  · simp at hx1

theorem sortMapped_nil (v : String) : sortMapped v [] = [] := by
  unfold sortMapped jsSort; split
  · rfl
  · split
    · rfl
    · split <;> rfl

theorem visible_filter_rest (lower : String → String) (flt : String) (row : List Col) :
    (((row.map (setDisplay lower flt)).filter
        (fun col => !(isColumn col && matchesFilter lower flt col))).filter isColumn).filter
        (fun col => col.display ≠ "none") = [] := by
  rw [List.filter_eq_nil_iff]
  intro x hx
  have hx1 := List.mem_filter.1 hx
  have hx2 := List.mem_filter.1 hx1.1
  obtain ⟨y, _, rfl⟩ := List.mem_map.1 hx2.1
  have hcol : isColumn y = true := by simpa [isColumn_setDisplay] using hx1.2
  have hnm : matchesFilter lower flt y = false := by
    have := hx2.2
    simpa [isColumn_setDisplay, matchesFilter_setDisplay, hcol] using this
  simp [setDisplay_display lower flt y hcol, hnm]

theorem visible_filter_selected (lower : String → String) (c : Container) (l : List Col)
    (h : ∀ x ∈ l, x ∈ selectedCols lower c) :
    (l.filter isColumn).filter (fun col => col.display ≠ "none") = l := by
  have h1 : l.filter isColumn = l :=
    List.filter_eq_self.2 (fun x hx => (selectedCols_mem lower c x (h x hx)).1)
  rw [h1, List.filter_eq_self]
  intro x hx
  simp [(selectedCols_mem lower c x (h x hx)).2]

theorem visible_shown (lower : String → String) (flt : String) (row : List Col) :
    ((row.map (setDisplay lower flt)).filter isColumn).filter
        (fun col => col.display ≠ "none")
      = (row.map (setDisplay lower flt)).filter
        (fun col => isColumn col && matchesFilter lower flt col) := by
  rw [List.filter_filter]
  apply List.filter_congr
  intro x hx
  obtain ⟨y, _, rfl⟩ := List.mem_map.1 hx
  cases hcol : isColumn y
  · simp [isColumn_setDisplay, hcol]
  · cases hm : matchesFilter lower flt y <;>
      simp [isColumn_setDisplay, matchesFilter_setDisplay, setDisplay_display, hcol, hm]

theorem sortMapped_empty_mode (l : List Mapped) : sortMapped "" l = l := by
  unfold sortMapped
  rw [if_neg (by decide), if_neg (by decide), if_neg (by decide)]

/-- What a visitor sees after `applyFilters`: the cells the filter selects, in the
order the sort gives them. -/
theorem visibleCells_applyFilters (lower : String → String) (c : Container) :
    visibleCells (applyFilters lower c)
      = (sortMapped (sortVal c) ((selectedCols lower c).map toMapped)).map Mapped.col := by
  cases hrow : c.row with
  | none =>
    have h1 : applyFilters lower c = c := by unfold applyFilters; rw [hrow]
    have h2 : selectedCols lower c = [] := by simp [selectedCols, getColumns, hrow]
    rw [h1, h2]
    simp [visibleCells, getColumns, hrow, sortMapped_nil]
  | some row =>
    have hsel := visibleCols_eq lower c row hrow
    have hmem : ∀ x ∈ (sortMapped (sortVal c) ((selectedCols lower c).map toMapped)).map
        Mapped.col, x ∈ selectedCols lower c := by
      intro x hx
      have hp := ((sortMapped_perm (sortVal c) ((selectedCols lower c).map toMapped)).map
        Mapped.col)
      have := hp.mem_iff.1 hx
      rwa [map_col_toMapped] at this
    unfold applyFilters
    rw [hrow]
    simp only [hsel]
    split
    · simp only [visibleCells, getColumns, List.filter_append]
      rw [visible_filter_rest, visible_filter_selected lower c _ hmem, List.nil_append]
    · rename_i hno
      simp only [visibleCells, getColumns]
      rw [visible_shown, hsel]
      by_cases hv : sortVal c = ""
      · rw [hv, sortMapped_empty_mode, map_col_toMapped]
      · have hnil : selectedCols lower c = [] := by
          by_contra hne
          exact hno ⟨hv, hne⟩
        rw [hnil]; simp [sortMapped_nil]

theorem priceOfCol_sorted (l : List Col) (v : String) :
    ∀ m ∈ sortMapped v (l.map toMapped), priceOfCol m.col = m.price := by
  intro m hm
  have hm2 := (sortMapped_perm v (l.map toMapped)).mem_iff.1 hm
  obtain ⟨col, _, rfl⟩ := List.mem_map.1 hm2
  unfold priceOfCol; rw [toMapped_col]

theorem visibleCells_of_filtered (lower : String → String) (c : Container)
    (h : Filtered lower c) : visibleCells c = selectedCols lower c := by
  unfold visibleCells selectedCols
  have h1 : (getColumns c).filter (fun col => col.display ≠ "none")
      = (getColumns c).filter (matchesFilter lower (activeFilter c)) := by
    apply List.filter_congr
    intro x hx
    rw [h x hx]
    cases matchesFilter lower (activeFilter c) x <;> simp
  rw [h1]
  conv_lhs => rw [← List.map_id (List.filter _ _)]
  apply List.map_congr_left
  intro x hx
  have hx2 := List.mem_filter.1 hx
  have hd := h x hx2.1
  rw [hx2.2] at hd
  cases x
  simp_all

end Collection

namespace Agbada

theorem grid_toMapped_col (col : GridCol) : (toMapped col).col = col := by
  unfold toMapped; split <;> rfl

theorem grid_map_col_toMapped (l : List GridCol) : (l.map toMapped).map Mapped.col = l := by
  rw [List.map_map]
  conv_rhs => rw [← List.map_id l]
  exact List.map_congr_left (fun a _ => grid_toMapped_col a)

theorem grid_sortMapped_perm (v : String) (l : List Mapped) : (sortMapped v l).Perm l := by
  unfold sortMapped
  split
  · exact jsSort_perm _ _
  · split
    · exact jsSort_perm _ _
    · split
      · exact jsSort_perm _ _
      · exact List.Perm.refl _

/-- The grid columns after a sort change: the columns, in the order the sort gives. -/
theorem cols_sortChange (val : String) (grid : List GridCol) :
    (sortChange val grid).filter (fun col => col.colClass)
      = (sortMapped val ((grid.filter (fun col => col.colClass)).map toMapped)).map
          Mapped.col := by
  unfold sortChange
  simp only [List.filter_append]
  have h1 : (grid.filter (fun col => !col.colClass)).filter (fun col => col.colClass) = [] := by
    rw [List.filter_eq_nil_iff]
    intro x hx
    have := (List.mem_filter.1 hx).2
    simpa using this
  rw [h1, List.nil_append, List.filter_eq_self]
  intro x hx
  have hp := (grid_sortMapped_perm val ((grid.filter (fun col => col.colClass)).map toMapped)).map
    Mapped.col
  have hx2 := hp.mem_iff.1 hx
  rw [grid_map_col_toMapped] at hx2
  exact (List.mem_filter.1 hx2).2

theorem sortChange_perm (val : String) (grid : List GridCol) :
    (sortChange val grid).Perm grid := by
  unfold sortChange
  have hp := (grid_sortMapped_perm val ((grid.filter (fun col => col.colClass)).map toMapped)).map
    Mapped.col
  rw [grid_map_col_toMapped] at hp
  refine (List.Perm.append_left _ hp).trans ?_
  refine List.perm_append_comm.trans ?_
  exact List.filter_append_perm _ grid

theorem grid_priceOfCol_sorted (l : List GridCol) (v : String) :
    ∀ m ∈ sortMapped v (l.map toMapped), priceOfCol m.col = m.price := by
  intro m hm
  have hm2 := (grid_sortMapped_perm v (l.map toMapped)).mem_iff.1 hm
  obtain ⟨col, _, rfl⟩ := List.mem_map.1 hm2
  unfold priceOfCol; rw [grid_toMapped_col]

end Agbada

namespace Collection

theorem sortMapped_low_sorted (l : List Col) :
    ((sortMapped "price-low" (l.map toMapped)).map Mapped.col).Pairwise
      (fun a b => JsNumber.le (priceOfCol a) (priceOfCol b)) := by
  rw [List.pairwise_map]
  have hs := priceOfCol_sorted l "price-low"
  have hE : sortMapped "price-low" (l.map toMapped)
      = jsSort (fun a b => subSign a.price b.price) (l.map toMapped) := by
    unfold sortMapped; rw [if_pos rfl]
  rw [hE] at hs ⊢
  exact (jsSort_asc Mapped.price _).imp_of_mem
    (fun ha hb hab => by rw [hs _ ha, hs _ hb]; exact hab)

theorem sortMapped_high_sorted (l : List Col) :
    ((sortMapped "price-high" (l.map toMapped)).map Mapped.col).Pairwise
      (fun a b => JsNumber.le (priceOfCol b) (priceOfCol a)) := by
  rw [List.pairwise_map]
  have hs := priceOfCol_sorted l "price-high"
  have hE : sortMapped "price-high" (l.map toMapped)
      = jsSort (fun a b => subSign b.price a.price) (l.map toMapped) := by
    unfold sortMapped; rw [if_neg (by decide), if_pos rfl]
  rw [hE] at hs ⊢
  exact (jsSort_desc Mapped.price _).imp_of_mem
    (fun ha hb hab => by rw [hs _ ha, hs _ hb]; exact hab)

theorem sortMapped_col_perm (v : String) (l : List Col) :
    ((sortMapped v (l.map toMapped)).map Mapped.col).Perm l := by
  have hp := (sortMapped_perm v (l.map toMapped)).map Mapped.col
  rwa [map_col_toMapped] at hp

end Collection

namespace Agbada

theorem visibleCols_low_sorted (grid : List GridCol) :
    (visibleCols (sortChange "price-low" grid)).Pairwise
      (fun a b => JsNumber.le (priceOfCol a) (priceOfCol b)) := by
  unfold visibleCols
  rw [cols_sortChange]
  refine List.Pairwise.sublist (List.filter_sublist _) ?_
  rw [List.pairwise_map]
  have hs := grid_priceOfCol_sorted (grid.filter (fun col => col.colClass)) "price-low"
  have hE : sortMapped "price-low" ((grid.filter (fun col => col.colClass)).map toMapped)
      = jsSort (fun a b => subSign a.price b.price)
        ((grid.filter (fun col => col.colClass)).map toMapped) := by
    unfold sortMapped; rw [if_pos rfl]
  rw [hE] at hs ⊢
  exact (jsSort_asc Mapped.price _).imp_of_mem
    (fun ha hb hab => by rw [hs _ ha, hs _ hb]; exact hab)

theorem visibleCols_high_sorted (grid : List GridCol) :
    (visibleCols (sortChange "price-high" grid)).Pairwise
      (fun a b => JsNumber.le (priceOfCol b) (priceOfCol a)) := by
  unfold visibleCols
  rw [cols_sortChange]
  refine List.Pairwise.sublist (List.filter_sublist _) ?_
  rw [List.pairwise_map]
  have hs := grid_priceOfCol_sorted (grid.filter (fun col => col.colClass)) "price-high"
  have hE : sortMapped "price-high" ((grid.filter (fun col => col.colClass)).map toMapped)
      = jsSort (fun a b => subSign b.price a.price)
        ((grid.filter (fun col => col.colClass)).map toMapped) := by
    unfold sortMapped; rw [if_neg (by decide), if_pos rfl]
  rw [hE] at hs ⊢
  exact (jsSort_desc Mapped.price _).imp_of_mem
    (fun ha hb hab => by rw [hs _ ha, hs _ hb]; exact hab)

theorem visibleCols_perm (val : String) (grid : List GridCol) :
    (visibleCols (sortChange val grid)).Perm (visibleCols grid) := by
  unfold visibleCols
  exact ((sortChange_perm val grid).filter _).filter _

end Agbada

theorem filter_swap {α : Type} (p q : α → Bool) (l : List α) :
    (l.filter p).filter q = (l.filter q).filter p := by
  rw [List.filter_filter, List.filter_filter]
  apply List.filter_congr
  intro x _
  exact Bool.and_comm _ _

theorem Collection.map_col_filter (p : Collection.Mapped → Bool) (l : List Collection.Col) :
    ((l.map Collection.toMapped).filter p).map Collection.Mapped.col
      = l.filter (fun col => p (Collection.toMapped col)) := by
  rw [List.filter_map, Collection.map_col_toMapped]; rfl

theorem Agbada.grid_map_col_filter (p : Agbada.Mapped → Bool) (l : List Agbada.GridCol) :
    ((l.map Agbada.toMapped).filter p).map Agbada.Mapped.col
      = l.filter (fun col => p (Agbada.toMapped col)) := by
  rw [List.filter_map, Agbada.grid_map_col_toMapped]; rfl

/-- Two arrangements of the same elements that are both in non-increasing key order
are equal when the keys are pairwise distinct. -/
theorem eq_of_perm_of_desc {α : Type} (k : α → JsNumber) (l1 l2 : List α)
    (hp : l1.Perm l2) (hnd : (l1.map k).Nodup)
    (h1 : l1.Pairwise (fun a b => JsNumber.le (k b) (k a)))
    (h2 : l2.Pairwise (fun a b => JsNumber.le (k b) (k a))) : l1 = l2 := by
  apply eq_of_map_eq_of_injOn k
  · haveI : IsAntisymm JsNumber (fun a b => JsNumber.le b a) :=
      ⟨fun a b h1 h2 => JsNumber.le_antisymm a b h2 h1⟩
    exact List.eq_of_perm_of_sorted (r := fun a b => JsNumber.le b a) (hp.map k)
      (List.pairwise_map.2 h1) (List.pairwise_map.2 h2)
  · intro a ha b hb hk
    exact List.inj_on_of_nodup_map hnd ha (hp.mem_iff.2 hb) hk

namespace Collection

/-- The row after `applyFilters` holds the children of the row before, each as the
filter pass leaves it; the controls are untouched. -/
theorem applyFilters_row (lower : String → String) (c : Container) (row : List Col)
    (hrow : c.row = some row) :
    ∃ r, (applyFilters lower c).row = some r ∧
      r.Perm (row.map (setDisplay lower (activeFilter c))) ∧
      (applyFilters lower c).filterBtns = c.filterBtns ∧
      (applyFilters lower c).sortSelect = c.sortSelect := by
  unfold applyFilters
  rw [hrow]
  simp only []
  split
  · refine ⟨_, rfl, ?_, rfl, rfl⟩
    have hp := (sortMapped_perm (sortVal c)
      (((row.map (setDisplay lower (activeFilter c))).filter
        (fun col => isColumn col && matchesFilter lower (activeFilter c) col)).map
          toMapped)).map Mapped.col
    rw [map_col_toMapped] at hp
    refine (List.Perm.append_left _ hp).trans ?_
    refine List.perm_append_comm.trans ?_
    exact List.filter_append_perm _ _
  · exact ⟨_, rfl, List.Perm.refl _, rfl, rfl⟩

/-- Every run of `applyFilters` leaves the grid showing exactly the cells of the active
filter. -/
theorem applyFilters_filtered (lower : String → String) (c : Container) :
    Filtered lower (applyFilters lower c) := by
  cases hrow : c.row with
  | none =>
    have h1 : applyFilters lower c = c := by unfold applyFilters; rw [hrow]
    rw [h1]; intro col hcol
    simp [getColumns, hrow] at hcol
  | some row =>
    obtain ⟨r, hr, hp, hb, _⟩ := applyFilters_row lower c row hrow
    intro col hcol
    have hact : activeFilter (applyFilters lower c) = activeFilter c := by
      unfold activeFilter; rw [hb]
    rw [hact]
    unfold getColumns at hcol
    rw [hr] at hcol
    have hcol2 := List.mem_filter.1 hcol
    obtain ⟨y, _, rfl⟩ := List.mem_map.1 (hp.mem_iff.1 hcol2.1)
    have hy : isColumn y = true := by simpa [isColumn_setDisplay] using hcol2.2
    rw [setDisplay_display lower _ y hy, matchesFilter_setDisplay]

/-- The product cards of the grid after `applyFilters` are the cards it held before:
no cell leaves the row and none is added. -/
theorem applyFilters_cards (lower : String → String) (c : Container) :
    ((getColumns (applyFilters lower c)).map Col.card).Perm
      ((getColumns c).map Col.card) := by
  cases hrow : c.row with
  | none =>
    have h1 : applyFilters lower c = c := by unfold applyFilters; rw [hrow]
    rw [h1]
  | some row =>
    obtain ⟨r, hr, hp, _, _⟩ := applyFilters_row lower c row hrow
    unfold getColumns
    rw [hr, hrow]
    refine ((hp.filter isColumn).map Col.card).trans ?_
    rw [List.filter_map, List.map_map]
    have h1 : (isColumn ∘ setDisplay lower (activeFilter c)) = isColumn := by
      funext col; simp [Function.comp, isColumn_setDisplay]
    rw [h1]
    have h2 : ∀ col ∈ row.filter isColumn,
        (Col.card ∘ setDisplay lower (activeFilter c)) col = Col.card col := by
      intro col _
      simp only [Function.comp]; unfold setDisplay; split <;> rfl
    rw [List.map_congr_left h2]

theorem visibleCells_sortChange (lower : String → String) (v : String) (c : Container)
    (hsel : c.sortSelect.isSome = true) :
    visibleCells (sortChange lower v c)
      = (sortMapped v ((selectedCols lower c).map toMapped)).map Mapped.col := by
  cases hrow : c.row with
  | none =>
    have h1 : sortChange lower v c = c := by unfold sortChange; rw [hrow]
    have h2 : selectedCols lower c = [] := by simp [selectedCols, getColumns, hrow]
    rw [h1, h2]
    simp [visibleCells, getColumns, hrow, sortMapped_nil]
  | some row =>
    cases hs : c.sortSelect with
    | none => rw [hs] at hsel; simp at hsel
    | some w =>
      have h1 : sortChange lower v c = applyFilters lower { c with sortSelect := some v } := by
        unfold sortChange; rw [hrow, hs]
      rw [h1, visibleCells_applyFilters]
      rfl

theorem sortChange_sortSelect (lower : String → String) (v : String) (c : Container)
    (hsel : c.sortSelect.isSome = true) :
    (sortChange lower v c).sortSelect.isSome = true := by
  cases hrow : c.row with
  | none =>
    have h1 : sortChange lower v c = c := by unfold sortChange; rw [hrow]
    rw [h1]; exact hsel
  | some row =>
    cases hs : c.sortSelect with
    | none => rw [hs] at hsel; simp at hsel
    | some w =>
      have h1 : sortChange lower v c = applyFilters lower { c with sortSelect := some v } := by
        unfold sortChange; rw [hrow, hs]
      obtain ⟨r, _, _, _, hss⟩ := applyFilters_row lower { c with sortSelect := some v } row hrow
      rw [h1, hss]; rfl

theorem selectedCols_sortChange (lower : String → String) (v : String) (c : Container)
    (hsel : c.sortSelect.isSome = true) :
    selectedCols lower (sortChange lower v c) = visibleCells (sortChange lower v c) := by
  cases hrow : c.row with
  | none =>
    have h1 : sortChange lower v c = c := by unfold sortChange; rw [hrow]
    rw [h1]
    simp [selectedCols, visibleCells, getColumns, hrow]
  | some row =>
    cases hs : c.sortSelect with
    | none => rw [hs] at hsel; simp at hsel
    | some w =>
      have h1 : sortChange lower v c = applyFilters lower { c with sortSelect := some v } := by
        unfold sortChange; rw [hrow, hs]
      rw [h1]
      exact (visibleCells_of_filtered lower _ (applyFilters_filtered lower _)).symm

end Collection

/-! ## Filter clicks -/

theorem find_active_set :
    ∀ (l : List FilterButton) (i : Nat) (b : FilterButton),
      (∀ x ∈ l, x.active = false) → b.active = true → i < l.length →
      (l.set i b).find? (fun x => x.active) = some b
  | [], _, _, _, _, hi => by simp at hi
  | x :: xs, 0, b, _, hb, _ => by simp [List.set, List.find?, hb]
  | x :: xs, i + 1, b, hl, hb, hi => by
    have hx : x.active = false := hl x (List.mem_cons_self _ _)
    simp only [List.set, List.find?, hx]
    exact find_active_set xs i b (fun y hy => hl y (List.mem_cons_of_mem _ hy)) hb
      (Nat.lt_of_succ_lt_succ hi)

/-- After the two class-list statements of a filter click, the first (and only)
control marked active is the clicked one. -/
theorem find_active_activate (btns : List FilterButton) (i : Nat) (btn : FilterButton)
    (hb : btns[i]? = some btn) :
    (activate i btns).find? (fun x => x.active) = some { btn with active := true } := by
  unfold activate
  rw [hb]
  simp only []
  apply find_active_set
  · intro x hx
    obtain ⟨y, _, rfl⟩ := List.mem_map.1 hx
    rfl
  · rfl
  · rw [List.length_map]
    exact (List.getElem?_eq_some_iff.1 hb).1

namespace Collection

theorem filterClick_eq (lower : String → String) (i : Nat) (c : Container) (row : List Col)
    (btn : FilterButton) (hrow : c.row = some row) (hb : c.filterBtns[i]? = some btn) :
    filterClick lower i c
      = applyFilters lower { c with filterBtns := activate i c.filterBtns } := by
  unfold filterClick
  rw [hrow, hb]

theorem activeFilter_activate (i : Nat) (c : Container) (btn : FilterButton)
    (hb : c.filterBtns[i]? = some btn) :
    activeFilter { c with filterBtns := activate i c.filterBtns } = btn.dataFilter := by
  unfold activeFilter
  simp only [find_active_activate c.filterBtns i btn hb]

/-- The display of every column after a filter click. -/
theorem filterClick_display (lower : String → String) (i : Nat) (c : Container)
    (btn : FilterButton) (hb : c.filterBtns[i]? = some btn) :
    ∀ col ∈ getColumns (filterClick lower i c),
      col.display = if matchesFilter lower btn.dataFilter col then "" else "none" := by
  cases hrow : c.row with
  | none =>
    have h1 : filterClick lower i c = c := by unfold filterClick; rw [hrow]
    rw [h1]; intro col hcol
    simp [getColumns, hrow] at hcol
  | some row =>
    rw [filterClick_eq lower i c row btn hrow hb]
    have hf := applyFilters_filtered lower { c with filterBtns := activate i c.filterBtns }
    obtain ⟨r, _, _, hbt, _⟩ :=
      applyFilters_row lower { c with filterBtns := activate i c.filterBtns } row hrow
    have hact : activeFilter (applyFilters lower { c with filterBtns := activate i c.filterBtns })
        = btn.dataFilter := by
      rw [← activeFilter_activate i c btn hb]
      unfold activeFilter; rw [hbt]
    intro col hcol
    have := hf col hcol
    rwa [hact] at this

/-- The cards of the grid after a filter click are the cards it held before. -/
theorem filterClick_cards (lower : String → String) (i : Nat) (c : Container) :
    ((getColumns (filterClick lower i c)).map Col.card).Perm
      ((getColumns c).map Col.card) := by
  cases hrow : c.row with
  | none =>
    have h1 : filterClick lower i c = c := by unfold filterClick; rw [hrow]
    rw [h1]
  | some row =>
    cases hb : c.filterBtns[i]? with
    | none =>
      have h1 : filterClick lower i c = c := by unfold filterClick; rw [hrow, hb]
      rw [h1]
    | some btn =>
      rw [filterClick_eq lower i c row btn hrow hb]
      exact applyFilters_cards lower { c with filterBtns := activate i c.filterBtns }

theorem matchesFilter_all (lower : String → String) (col : Col) (h : isColumn col = true) :
    matchesFilter lower "all" col = true := by
  unfold isColumn at h
  unfold matchesFilter
  cases hc : col.card with
  | none => simp [hc] at h
  | some card => simp

end Collection

namespace Agbada

theorem applyFilter_all (p : Product) :
    applyFilter "all" p = { p with display := "", dNone := false } := by
  unfold applyFilter shows; simp

theorem applyFilter_display (t : String) (p : Product) :
    (applyFilter t p).display = (if shows t p then "" else "none") ∧
    (applyFilter t p).dNone = !shows t p ∧
    (applyFilter t p).category = p.category := by
  unfold applyFilter
  cases shows t p <;> simp

theorem filterClick_products (j : Nat) (pg : Page) (btn : FilterButton)
    (hb : pg.filterButtons[j]? = some btn) :
    (filterClick j pg).products = pg.products.map (applyFilter btn.dataFilter) := by
  unfold filterClick; rw [hb]

end Agbada

theorem empty_ne_none : ("" : String) ≠ "none" := by decide

/-! ## The order hand-off -/

theorem trim_empty : trim "" = "" := by decide

theorem sizeSelectOf_storeSize (card : OrderCard) (new : SizeSelect) :
    Agbada.sizeSelectOf (storeSize card new) = some new := by
  unfold Agbada.sizeSelectOf orElse storeSize at *
  cases hs : card.sizeSelect with
  | none => simp [hs]
  | some x => simp [hs]

/-! ## Strings -/

theorem dropWhile_of_head {p : Char → Bool} (l : List Char) (a : Char)
    (h : l.head? = some a) (hp : p a = false) : l.dropWhile p = l := by
  cases l with
  | nil => simp at h
  | cons x xs =>
    simp only [List.head?_cons, Option.some.injEq] at h
    subst h
    exact List.dropWhile_cons_of_neg (by simp [hp])

/-- A string that neither begins nor ends with white space is left alone by `trim`. -/
theorem trim_eq_self (s : String) (a z : Char) (ha : s.data.head? = some a)
    (hz : s.data.getLast? = some z) (hna : isSpace a = false) (hnz : isSpace z = false) :
    trim s = s := by
  unfold trim
  apply String.ext
  simp only []
  rw [dropWhile_of_head s.data a ha hna,
    dropWhile_of_head s.data.reverse z (by rw [List.head?_reverse]; exact hz) hnz,
    List.reverse_reverse]

theorem join_cons_eq (sep a : String) (rest : List String) :
    ∃ t, join sep (a :: rest) = a ++ t := by
  cases rest with
  | nil => exact ⟨"", by simp [join]⟩
  | cons b r => exact ⟨sep ++ join sep (b :: r), by simp [join, String.append_assoc]⟩

theorem join_concat_eq (sep z : String) : ∀ (l : List String),
    ∃ t, join sep (l ++ [z]) = t ++ z
  | [] => ⟨"", by simp [join]⟩
  | [a] => ⟨a ++ sep, by simp [join]⟩
  | a :: b :: r => by
    obtain ⟨t, ht⟩ := join_concat_eq sep z (b :: r)
    refine ⟨a ++ sep ++ t, ?_⟩
    have : a :: b :: r ++ [z] = a :: b :: (r ++ [z]) := rfl
    rw [this]
    simp only [join]
    have h2 : b :: (r ++ [z]) = (b :: r) ++ [z] := rfl
    rw [h2, ht]
    simp [String.append_assoc]

theorem encodeChar_ne_nil (c : Char) : encodeChar c ≠ [] := by
  unfold encodeChar
  split
  · simp
  · unfold utf8Bytes
    split
    · simp [percentByte]
    · split
      · simp [percentByte]
      · split <;> simp [percentByte]

theorem encodeURIComponent_ne_empty (s : String) (h : s ≠ "") :
    encodeURIComponent s ≠ "" := by
  intro he
  apply h
  apply String.ext
  have hd : (encodeURIComponent s).data = [] := by rw [he]
  unfold encodeURIComponent at hd
  simp only [] at hd
  cases hs : s.data with
  | nil => rfl
  | cons a tl =>
    rw [hs] at hd
    simp only [List.flatMap_cons, List.append_eq_nil] at hd
    exact absurd hd.1 (encodeChar_ne_nil a)

theorem isDigit_isUnreserved (c : Char) (h : isDigit c = true) : isUnreserved c = true := by
  unfold isDigit at h
  unfold isUnreserved
  simp only [Bool.and_eq_true, decide_eq_true_eq] at h
  simp [h.1, h.2]

/-- A string of digits is its own encoding. -/
theorem encodeURIComponent_digits (s : String) (h : ∀ c ∈ s.data, isDigit c = true) :
    encodeURIComponent s = s := by
  unfold encodeURIComponent
  apply String.ext
  simp only []
  generalize s.data = l at h
  induction l with
  | nil => rfl
  | cons a tl ih =>
    have ha := isDigit_isUnreserved a (h a (List.mem_cons_self _ _))
    simp only [List.flatMap_cons, encodeChar, ha, if_true]
    rw [ih (fun c hc => h c (List.mem_cons_of_mem _ hc))]
    rfl

theorem agbada_orderClick_valid (btn : OrderBtn) (card : OrderCard) (h : ValidCard card) :
    Agbada.orderClick btn card
      = ⟨card, ⟨[Agbada.openWhatsApp (phoneOf btn defaultPhone) (Agbada.orderMessage card)],
          [], []⟩⟩ := by
  unfold Agbada.orderClick
  cases hs : Agbada.sizeSelectOf card with
  | none => rfl
  | some sel =>
    have hne : Agbada.sizeOf card ≠ "" := by
      rcases h with h | h
      · rw [hs] at h; cases h
      · exact h
    simp only [hne, if_false]

theorem casual_orderClick_valid (btn : OrderBtn) (card : OrderCard) (h : ValidCard card) :
    Casual.orderClick btn card
      = ⟨card, Casual.openWhatsApp (phoneOf btn "2348136754060") (Casual.orderMessage card)⟩ := by
  unfold Casual.orderClick
  cases hs : Agbada.sizeSelectOf card with
  | none => rfl
  | some sel =>
    have hne : Agbada.sizeOf card ≠ "" := by
      rcases h with h | h
      · rw [hs] at h; cases h
      · exact h
    simp only [hne, if_false]

theorem agbada_orderParts_shape (t v s p c : String) :
    ∃ mid, Agbada.orderParts t v s p c
      = ("Hello, I am interested in: " ++ t) :: (mid ++ [Agbada.closing]) ∧ mid.length ≤ 4 ∧
      mid.length = (if v = "" then 0 else 1) + (if s = "" then 0 else 1)
        + (if p = "" then 0 else 1) + (if c = "" then 0 else 1) := by
  refine ⟨(if v = "" then [] else ["Variant: " ++ v]) ++ (if s = "" then [] else ["Size: " ++ s])
    ++ (if p = "" then [] else ["Price: " ++ p])
    ++ (if c = "" then [] else ["Measurements/Notes: " ++ c]), ?_, ?_, ?_⟩
  · unfold Agbada.orderParts
    simp [List.append_assoc]
  · by_cases hv : v = "" <;> by_cases hs : s = "" <;> by_cases hp : p = "" <;>
      by_cases hc : c = "" <;> simp [hv, hs, hp, hc]
  · by_cases hv : v = "" <;> by_cases hs : s = "" <;> by_cases hp : p = "" <;>
      by_cases hc : c = "" <;> simp [hv, hs, hp, hc]

theorem casual_orderParts_shape (t v s p : String) :
    ∃ mid, Casual.orderParts t v s p
      = ("Hello, I am interested in: " ++ t) :: (mid ++ [Casual.closing]) := by
  refine ⟨(if v = "" then [] else ["Variant: " ++ v]) ++ (if s = "" then [] else ["Size: " ++ s])
    ++ (if p = "" then [] else ["Price: " ++ p]), ?_⟩
  unfold Casual.orderParts
  simp [List.append_assoc]

theorem greeting_head (t rest : String) :
    (("Hello, I am interested in: " ++ t) ++ rest).data.head? = some 'H' := by
  simp only [String.data_append, List.head?_append]
  rfl

theorem infix_of_greeting (t rest : String) :
    t.data <:+: (("Hello, I am interested in: " ++ t) ++ rest).data := by
  refine ⟨("Hello, I am interested in: " : String).data, rest.data, ?_⟩
  simp only [String.data_append]

theorem casual_message_shape (card : OrderCard) :
    (∃ rest, Casual.orderMessage card
      = ("Hello, I am interested in: " ++ Casual.titleOf card) ++ rest) ∧
    (∃ front, Casual.orderMessage card = front ++ Casual.closing) := by
  obtain ⟨mid, hmid⟩ := casual_orderParts_shape (Casual.titleOf card)
    (Agbada.variantOf card) (Agbada.sizeOf card) (Agbada.priceOf card)
  have hparts : Casual.partsOf card
      = ("Hello, I am interested in: " ++ Casual.titleOf card) :: (mid ++ [Casual.closing]) :=
    hmid
  constructor
  · unfold Casual.orderMessage; rw [hparts]; exact join_cons_eq _ _ _
  · unfold Casual.orderMessage; rw [hparts, ← List.cons_append]; exact join_concat_eq _ _ _

theorem casual_message_trim (card : OrderCard) :
    trim (Casual.orderMessage card) = Casual.orderMessage card := by
  obtain ⟨⟨rest, hr⟩, ⟨front, hf⟩⟩ := casual_message_shape card
  apply trim_eq_self _ 'H' '.'
  · rw [hr]; exact greeting_head _ _
  · rw [hf]
    simp only [String.data_append, List.getLast?_append]
    rfl
  · decide
  · decide

theorem casual_message_ne_empty (card : OrderCard) : Casual.orderMessage card ≠ "" := by
  obtain ⟨⟨rest, hr⟩, _⟩ := casual_message_shape card
  intro he
  have := greeting_head (Casual.titleOf card) rest
  rw [← hr, he] at this
  simp at this

/-- The address the casual-wear handler builds for an order message. -/
theorem casual_buildUrl_message (normalized : String) (card : OrderCard) :
    Casual.buildUrl normalized (Casual.orderMessage card)
      = "https://wa.me/" ++ normalized ++ "?text="
        ++ encodeURIComponent (Casual.orderMessage card) := by
  unfold Casual.buildUrl
  simp only [casual_message_trim]
  rw [if_neg (encodeURIComponent_ne_empty _ (casual_message_ne_empty card))]
  simp [String.append_assoc]

theorem stripNonDigits_digits (raw : String) : ∀ ch ∈ stripNonDigits raw, isDigit ch = true := by
  intro ch hch
  exact (List.mem_filter.1 hch).2

theorem normalizePhone_digits (raw normalized : String)
    (h : Casual.normalizePhone raw = some normalized) :
    ∀ ch ∈ normalized.data, isDigit ch = true := by
  unfold Casual.normalizePhone at h
  split at h
  · cases h
  · simp only [] at h
    split at h
    · cases h
    · split at h
      · cases h
        exact stripNonDigits_digits raw
      · split at h
        · cases h
          intro ch hch
          simp only [String.data_append, List.mem_append] at hch
          rcases hch with hch | hch
          · have h234 : ∀ x ∈ ("234" : String).data, isDigit x = true := by decide
            exact h234 ch hch
          · exact stripNonDigits_digits raw ch ((List.dropWhile_sublist _).subset hch)
        · cases h

theorem contactOf_digits (btn : OrderBtn) :
    ∀ ch ∈ (Casual.contactOf btn).data, isDigit ch = true := by
  unfold Casual.contactOf
  cases hn : Casual.normalizePhone (phoneOf btn "2348136754060") with
  | none =>
    have hd : ∀ x ∈ ("2348136754060" : String).data, isDigit x = true := by decide
    exact hd
  | some normalized => exact normalizePhone_digits _ _ hn

theorem casual_open_contact (btn : OrderBtn) (card : OrderCard) :
    (Casual.openWhatsApp (phoneOf btn "2348136754060") (Casual.orderMessage card)).opened
      = ["https://wa.me/" ++ Casual.contactOf btn ++ "?text="
          ++ encodeURIComponent (Casual.orderMessage card)] := by
  unfold Casual.openWhatsApp Casual.contactOf
  cases hn : Casual.normalizePhone (phoneOf btn "2348136754060") with
  | none => simp only [casual_buildUrl_message]
  | some normalized => simp only [casual_buildUrl_message]

/-! ## Known values of the primitives -/

/-- The primitives on inputs whose results are known from the language: splitting at
white space, trimming, percent-encoding, rounding to a double, phone normalisation. -/
theorem primitives_known_values :
    splitWs " a  b " = ["", "a", "b", ""] ∧
    splitWs "" = [""] ∧
    splitWs "men\twomen  kids" = ["men", "women", "kids"] ∧
    trim "  a b \n" = "a b" ∧
    encodeURIComponent "₦12,500 | é(x)!" = "%E2%82%A612%2C500%20%7C%20%C3%A9(x)!" ∧
    join " | " ["a", "b", "c"] = "a | b | c" ∧
    roundDouble (10 ^ 30) = JsNumber.fin 1000000000000000019884624838656 ∧
    roundDouble (2 ^ 53 + 3) = JsNumber.fin (2 ^ 53 + 4) ∧
    Casual.normalizePhone "0813 675 4060" = some "2348136754060" ∧
    Casual.normalizePhone "+234-813-675-4060" = some "2348136754060" ∧
    Casual.normalizePhone "12345" = Option.none := by
  decide

/-! ## Runs of filter clicks -/

theorem activate_getElem (btns : List FilterButton) (i : Nat) (hi : i < btns.length)
    (k : Nat) :
    (activate i btns)[k]? = (btns[k]?).map (fun b => { b with active := decide (k = i) }) := by
  unfold activate
  rw [List.getElem?_eq_getElem hi]
  simp only []
  rw [List.getElem?_set]
  by_cases hk : i = k
  · subst hk
    simp [hi]
  · have hk2 : ¬ k = i := fun h => hk h.symm
    simp [hk, hk2]

theorem activate_length (btns : List FilterButton) (i : Nat) :
    (activate i btns).length = btns.length := by
  unfold activate
  split <;> simp

theorem activate_dataFilter (btns : List FilterButton) (i : Nat) :
    (activate i btns).map FilterButton.dataFilter = btns.map FilterButton.dataFilter := by
  by_cases hi : i < btns.length
  · apply List.ext_getElem?
    intro k
    rw [List.getElem?_map, List.getElem?_map, activate_getElem btns i hi k]
    cases btns[k]? <;> rfl
  · have h : btns[i]? = Option.none := List.getElem?_eq_none (Nat.le_of_not_lt hi)
    unfold activate
    rw [h]

/-- After the two class-list statements of a click on the control at position `i`, the
control at position `k` is marked active exactly when `k = i`. -/
theorem activate_active (btns : List FilterButton) (i : Nat) (hi : i < btns.length)
    (k : Nat) (b : FilterButton) (hk : (activate i btns)[k]? = some b) :
    (b.active = true ↔ k = i) := by
  rw [activate_getElem btns i hi k] at hk
  cases hbk : btns[k]? with
  | none => rw [hbk] at hk; simp at hk
  | some b0 =>
    rw [hbk] at hk
    simp only [Option.map_some'] at hk
    have hb := Option.some.inj hk
    rw [← hb]
    simp

namespace Collection

/-- What a filter click leaves alone: whether there is a row, the tags of the controls,
their number, the sort select, and the cards of the grid. -/
theorem filterClick_frame (lower : String → String) (i : Nat) (c : Container) :
    (filterClick lower i c).row.isSome = c.row.isSome ∧
    (filterClick lower i c).filterBtns.map FilterButton.dataFilter
      = c.filterBtns.map FilterButton.dataFilter ∧
    (filterClick lower i c).sortSelect = c.sortSelect ∧
    (cardsOf (filterClick lower i c)).Perm (cardsOf c) := by
  refine ⟨?_, ?_, ?_, filterClick_cards lower i c⟩
  all_goals
    cases hrow : c.row with
    | none =>
      have h1 : filterClick lower i c = c := by unfold filterClick; rw [hrow]
      rw [h1]
      try rw [hrow]
    | some row =>
      cases hb : c.filterBtns[i]? with
      | none =>
        have h1 : filterClick lower i c = c := by unfold filterClick; rw [hrow, hb]
        rw [h1]
        try rw [hrow]
      | some btn =>
        rw [filterClick_eq lower i c row btn hrow hb]
        obtain ⟨r, hr, _, hbt, hs⟩ :=
          applyFilters_row lower { c with filterBtns := activate i c.filterBtns } row hrow
        first
          | rw [hr]; rfl
          | rw [hbt]; exact activate_dataFilter c.filterBtns i
          | rw [hs]

theorem filterClicks_append (lower : String → String) (is : List Nat) (i : Nat)
    (c : Container) :
    filterClicks lower (is ++ [i]) c = filterClick lower i (filterClicks lower is c) := by
  unfold filterClicks
  rw [List.foldl_append]
  rfl

/-- What a run of filter clicks leaves alone. -/
theorem filterClicks_frame (lower : String → String) (is : List Nat) :
    ∀ c : Container,
      (filterClicks lower is c).row.isSome = c.row.isSome ∧
      (filterClicks lower is c).filterBtns.map FilterButton.dataFilter
        = c.filterBtns.map FilterButton.dataFilter ∧
      (filterClicks lower is c).sortSelect = c.sortSelect ∧
      (cardsOf (filterClicks lower is c)).Perm (cardsOf c) := by
  induction is with
  | nil => intro c; exact ⟨rfl, rfl, rfl, List.Perm.refl _⟩
  | cons i is ih =>
    intro c
    obtain ⟨h1, h2, h3, h4⟩ := ih (filterClick lower i c)
    obtain ⟨g1, g2, g3, g4⟩ := filterClick_frame lower i c
    have he : filterClicks lower (i :: is) c = filterClicks lower is (filterClick lower i c) := rfl
    rw [he]
    exact ⟨h1.trans g1, h2.trans g2, h3.trans g3, h4.trans g4⟩

/-- The cards a visitor sees after a filter click: the cards of the grid that match the
tag of the clicked control. -/
theorem visibleCards_filterClick (lower : String → String) (i : Nat) (c : Container)
    (btn : FilterButton) (hb : c.filterBtns[i]? = some btn) :
    (visibleCards (filterClick lower i c)).Perm
      ((cardsOf c).filter (fun oc => matchesFilter lower btn.dataFilter ⟨true, oc, ""⟩)) := by
  cases hrow : c.row with
  | none =>
    have h1 : filterClick lower i c = c := by unfold filterClick; rw [hrow]
    rw [h1]
    simp [visibleCards, visibleCells, cardsOf, getColumns, hrow]
  | some row =>
    rw [filterClick_eq lower i c row btn hrow hb]
    unfold visibleCards
    rw [visibleCells_applyFilters]
    refine ((sortMapped_col_perm _ _).map Col.card).trans ?_
    unfold selectedCols cardsOf
    rw [activeFilter_activate i c btn hb, List.map_map, List.filter_map]
    have hg : getColumns { c with filterBtns := activate i c.filterBtns } = getColumns c := rfl
    rw [hg]
    exact List.Perm.refl _

end Collection

namespace Agbada

theorem applyFilter_shows (t u : String) (p : Product) :
    shows t (applyFilter u p) = shows t p := by
  unfold applyFilter shows cats
  split <;> rfl

/-- A later filter overrides an earlier one on every card. -/
theorem applyFilter_applyFilter (t u : String) (p : Product) :
    applyFilter t (applyFilter u p) = applyFilter t p := by
  have h := applyFilter_shows t u p
  have e : applyFilter t (applyFilter u p)
      = if shows t (applyFilter u p) then { applyFilter u p with display := "", dNone := false }
        else { applyFilter u p with display := "none", dNone := true } := rfl
  rw [e, h]
  unfold applyFilter
  cases shows t p <;> cases shows u p <;> rfl

end Agbada

theorem getElem_of_map_dataFilter (l1 l2 : List FilterButton)
    (h : l1.map FilterButton.dataFilter = l2.map FilterButton.dataFilter) (i : Nat)
    (b : FilterButton) (hb : l2[i]? = some b) :
    ∃ b1, l1[i]? = some b1 ∧ b1.dataFilter = b.dataFilter := by
  have h1 : (l1.map FilterButton.dataFilter)[i]? = (l2.map FilterButton.dataFilter)[i]? := by
    rw [h]
  rw [List.getElem?_map, List.getElem?_map, hb] at h1
  cases h2 : l1[i]? with
  | none => rw [h2] at h1; simp at h1
  | some b1 =>
    rw [h2] at h1
    exact ⟨b1, rfl, Option.some.inj h1⟩

theorem length_of_map_dataFilter (l1 l2 : List FilterButton)
    (h : l1.map FilterButton.dataFilter = l2.map FilterButton.dataFilter) :
    l1.length = l2.length := by
  have h1 := congrArg List.length h
  rwa [List.length_map, List.length_map] at h1

namespace Collection

theorem filterClick_btns (lower : String → String) (i : Nat) (c : Container)
    (row : List Col) (hrow : c.row = some row) (hi : i < c.filterBtns.length) :
    (filterClick lower i c).filterBtns = activate i c.filterBtns := by
  have hb : c.filterBtns[i]? = some (c.filterBtns[i]) := List.getElem?_eq_getElem hi
  rw [filterClick_eq lower i c row _ hrow hb]
  obtain ⟨r, _, _, hbt, _⟩ :=
    applyFilters_row lower { c with filterBtns := activate i c.filterBtns } row hrow
  exact hbt

end Collection

namespace Agbada

theorem page_filterClick_btns (j : Nat) (pg : Page) (hj : j < pg.filterButtons.length) :
    (filterClick j pg).filterButtons = activate j pg.filterButtons := by
  unfold filterClick
  rw [List.getElem?_eq_getElem hj]

theorem page_filterClick_frame (j : Nat) (pg : Page) :
    (filterClick j pg).filterButtons.map FilterButton.dataFilter
      = pg.filterButtons.map FilterButton.dataFilter ∧
    ∀ t, (filterClick j pg).products.map (applyFilter t) = pg.products.map (applyFilter t) := by
  unfold filterClick
  cases hb : pg.filterButtons[j]? with
  | none => exact ⟨rfl, fun _ => rfl⟩
  | some btn =>
    refine ⟨activate_dataFilter pg.filterButtons j, fun t => ?_⟩
    simp only [List.map_map]
    exact List.map_congr_left (fun p _ => applyFilter_applyFilter t btn.dataFilter p)

theorem page_filterClicks_append (js : List Nat) (j : Nat) (pg : Page) :
    filterClicks (js ++ [j]) pg = filterClick j (filterClicks js pg) := by
  unfold filterClicks
  rw [List.foldl_append]
  rfl

/-- What a run of filter clicks on the Agbada page leaves alone: the tags of the
controls, and the cards up to their visibility. -/
theorem page_filterClicks_frame (js : List Nat) :
    ∀ pg : Page,
      (filterClicks js pg).filterButtons.map FilterButton.dataFilter
        = pg.filterButtons.map FilterButton.dataFilter ∧
      ∀ t, (filterClicks js pg).products.map (applyFilter t)
        = pg.products.map (applyFilter t) := by
  induction js with
  | nil => intro pg; exact ⟨rfl, fun _ => rfl⟩
  | cons j js ih =>
    intro pg
    obtain ⟨h1, h2⟩ := ih (filterClick j pg)
    obtain ⟨g1, g2⟩ := page_filterClick_frame j pg
    have he : filterClicks (j :: js) pg = filterClicks js (filterClick j pg) := rfl
    rw [he]
    exact ⟨h1.trans g1, fun t => (h2 t).trans (g2 t)⟩

end Agbada

/-! ## The reviews page -/

theorem jsSort_zero {α : Type} (cmp : α → α → Int) (h : ∀ a b, cmp a b = 0) (l : List α) :
    jsSort cmp l = l := by
  unfold jsSort
  induction l with
  | nil => rfl
  | cons a l ih =>
    simp only [List.insertionSort, ih]
    exact orderedInsert_of_all _ a l (fun x _ => by rw [h])

namespace Reviews

theorem display_setDisplay (pg : Page) (n : Review) :
    decide ((setDisplay pg n).display ≠ "none") = shows pg n := by
  unfold setDisplay
  cases shows pg n <;> simp

theorem filter_shown (pg : Page) (l : List Review) :
    (l.map (setDisplay pg)).filter (fun n => n.display ≠ "none")
      = (l.filter (shows pg)).map (setDisplay pg) := by
  rw [List.filter_map]
  congr 1
  apply List.filter_congr
  intro n _
  exact display_setDisplay pg n

theorem filter_hidden (pg : Page) (l : List Review) :
    (l.map (setDisplay pg)).filter (fun n => !decide (n.display ≠ "none"))
      = (l.filter (fun n => !shows pg n)).map (setDisplay pg) := by
  rw [List.filter_map]
  congr 1
  apply List.filter_congr
  intro n _
  simp only [Function.comp, display_setDisplay pg n]

/-- The list that `applyFiltersAndSort` leaves: the hidden nodes in their order, then
the visible nodes as sorted. -/
theorem applyFiltersAndSort_list (pg : Page) :
    (applyFiltersAndSort pg).list
      = (pg.list.filter (fun n => !shows pg n)).map (setDisplay pg)
        ++ jsSort (compareBy (sortBy pg)) ((pg.list.filter (shows pg)).map (setDisplay pg)) := by
  rw [← filter_shown, ← filter_hidden]
  rfl

theorem applyFiltersAndSort_perm (pg : Page) :
    (applyFiltersAndSort pg).list.Perm (pg.list.map (setDisplay pg)) := by
  rw [applyFiltersAndSort_list, ← filter_shown, ← filter_hidden]
  refine (List.Perm.append_left _ (jsSort_perm _ _)).trans ?_
  refine List.perm_append_comm.trans ?_
  exact List.filter_append_perm _ _

theorem compareBy_newest (a b : Review) : compareBy "newest" a b = 0 := by
  unfold compareBy
  simp

/-- In the mode `newest` the visible nodes keep their order. -/
theorem applyFiltersAndSort_newest (pg : Page) (h : sortBy pg = "newest") :
    (applyFiltersAndSort pg).list
      = (pg.list.filter (fun n => !shows pg n)).map (setDisplay pg)
        ++ (pg.list.filter (shows pg)).map (setDisplay pg) := by
  rw [applyFiltersAndSort_list, h, jsSort_zero _ compareBy_newest]

theorem submit_valid (fmt : JsNumber → Nat → String) (form : Form) (pg : Page)
    (hn : trim (form.name.getD "") ≠ "") (hr : form.rating.getD "" ≠ "")
    (hc : trim (form.comment.getD "") ≠ "") :
    submit fmt form pg
      = ⟨applyFiltersAndSort
          (updateSummary fmt { pg with list := newReview (form.rating.getD "") :: pg.list }),
        Option.none, true⟩ := by
  unfold submit
  simp only [if_neg hn, if_neg hr, if_neg hc]

theorem submit_invalid (fmt : JsNumber → Nat → String) (form : Form) (pg : Page)
    (h : trim (form.name.getD "") = "" ∨ form.rating.getD "" = "" ∨
      trim (form.comment.getD "") = "") :
    (submit fmt form pg).page = pg ∧ (submit fmt form pg).thanked = false ∧
      (submit fmt form pg).flagged ≠ Option.none := by
  unfold submit
  simp only []
  split
  · exact ⟨rfl, rfl, by simp⟩
  · split
    · exact ⟨rfl, rfl, by simp⟩
    · split
      · exact ⟨rfl, rfl, by simp⟩
      · rename_i h1 h2 h3
        rcases h with h | h | h
        · exact absurd h h1
        · exact absurd h h2
        · exact absurd h h3

theorem ratingOf_fin (n : Review) (h : ratingOf n ≠ JsNumber.inf) :
    ratingOf n = JsNumber.fin (ratingNat n) := by
  unfold ratingNat
  cases hr : ratingOf n with
  | fin r => rfl
  | inf => exact absurd hr h

/-- While no rounding occurs, the accumulated sum is the sum of the whole-number
ratings. -/
theorem foldl_jsAdd_exact (l : List Review) :
    ∀ a : Nat, (∀ n ∈ l, ratingOf n ≠ JsNumber.inf) →
      a + (l.map ratingNat).sum ≤ 2 ^ 53 →
      l.foldl (fun sum n => jsAdd sum (ratingOf n)) (JsNumber.fin a)
        = JsNumber.fin (a + (l.map ratingNat).sum) := by
  induction l with
  | nil => intro a _ _; simp
  | cons n l ih =>
    intro a hfin hsum
    simp only [List.map_cons, List.sum_cons] at hsum
    have hn := ratingOf_fin n (hfin n (List.mem_cons_self _ _))
    have h1 : a + ratingNat n ≤ 2 ^ 53 := by omega
    have h2 : jsAdd (JsNumber.fin a) (ratingOf n) = JsNumber.fin (a + ratingNat n) := by
      rw [hn]
      exact roundDouble_exact _ h1
    simp only [List.foldl_cons, h2, List.map_cons, List.sum_cons]
    rw [ih (a + ratingNat n) (fun m hm => hfin m (List.mem_cons_of_mem _ hm)) (by omega)]
    congr 1
    omega

theorem sumRatings_exact (l : List Review) (hfin : ∀ n ∈ l, ratingOf n ≠ JsNumber.inf)
    (hsum : (l.map ratingNat).sum ≤ 2 ^ 53) :
    sumRatings l = JsNumber.fin (l.map ratingNat).sum := by
  have h := foldl_jsAdd_exact l 0 hfin (by omega)
  rw [Nat.zero_add] at h
  exact h

end Reviews

namespace Reviews

theorem helpfulClick_of_not_pressed (h : HelpfulBtn) (t : NumText) (hb : h.badge = some t)
    (hp : pressed h = false) :
    helpfulClick h
      = ⟨some "true", some (NumText.num (jsAdd (textNumber t) (JsNumber.fin 1)))⟩ := by
  unfold helpfulClick shownCount
  rw [hb]
  simp [hp]

theorem helpfulClick_of_pressed (h : HelpfulBtn) (t : NumText) (hb : h.badge = some t)
    (hp : pressed h = true) :
    helpfulClick h = ⟨some "false", some (NumText.num (maxZeroPred (textNumber t)))⟩ := by
  unfold helpfulClick shownCount
  rw [hb]
  simp [hp]

theorem pressed_true (b : Option NumText) : pressed ⟨some "true", b⟩ = true := by
  unfold pressed; simp

theorem pressed_false (b : Option NumText) : pressed ⟨some "false", b⟩ = false := by
  unfold pressed; simp

theorem jsAdd_one (n : Nat) (h : n < 2 ^ 53) :
    jsAdd (JsNumber.fin n) (JsNumber.fin 1) = JsNumber.fin (n + 1) :=
  roundDouble_exact (n + 1) h

theorem maxZeroPred_succ (n : Nat) (h : n ≤ 2 ^ 53) :
    maxZeroPred (JsNumber.fin (n + 1)) = JsNumber.fin n :=
  roundDouble_exact n h

theorem clones_length (l : List Review) (hne : l ≠ []) :
    (loadMoreClones l).length = 3 := by
  unfold loadMoreClones
  have hpos : 0 < l.length := List.length_pos.2 hne
  have h : ∀ i, l[i % l.length]? = some (l.get ⟨i % l.length, Nat.mod_lt _ hpos⟩) :=
    fun i => List.getElem?_eq_getElem (Nat.mod_lt _ hpos)
  have hr : List.range 3 = [0, 1, 2] := rfl
  rw [hr]
  simp only [List.filterMap_cons, h 0, h 1, h 2, List.filterMap_nil]
  rfl

theorem loadMoreAction_nonempty (fmt : JsNumber → Nat → String) (pg : Page) (btn : LoadBtn)
    (hbtn : pg.loadMoreBtn = some btn) (hne : pg.list ≠ []) :
    loadMoreAction fmt pg
      = { (applyFiltersAndSort (updateSummary fmt
            { pg with list := pg.list ++ (loadMoreClones pg.list).map cloneReview })) with
          loadMoreBtn := some ⟨false, "Load more reviews"⟩ } := by
  unfold loadMoreAction
  rw [hbtn]
  simp only [if_neg hne]

theorem ratingNat_setDisplay (pg : Page) (n : Review) :
    ratingNat (setDisplay pg n) = ratingNat n := rfl

theorem sum_ratingNat_applyFiltersAndSort (pg : Page) :
    ((applyFiltersAndSort pg).list.map ratingNat).sum = (pg.list.map ratingNat).sum := by
  have hp := ((applyFiltersAndSort_perm pg).map ratingNat).sum_eq
  rw [hp, List.map_map]
  rfl

end Reviews

/-! ## Phone normalisation and the two price parsers -/

theorem orZero_eq (x : JsNumber) : orZero x = x := by
  cases x with
  | fin n => exact orZero_fin n
  | inf => rfl

theorem stripNonDigits_of_digits (s : String) (h : ∀ c ∈ s.data, isDigit c = true) :
    stripNonDigits s = s.data := by
  unfold stripNonDigits
  exact List.filter_eq_self.2 h

/-- The two successful branches of `normalizePhone`, by the first digit. -/
theorem normalizePhone_cases (raw : String) :
    (10 ≤ (stripNonDigits raw).length → (stripNonDigits raw).head? ≠ some '0' →
      Casual.normalizePhone raw = some (String.mk (stripNonDigits raw))) ∧
    (10 ≤ (stripNonDigits raw).length → (stripNonDigits raw).head? = some '0' →
      Casual.normalizePhone raw
        = some ("234" ++ String.mk ((stripNonDigits raw).dropWhile (fun c => c == '0')))) ∧
    ((stripNonDigits raw).length < 10 → Casual.normalizePhone raw = Option.none) := by
  have hraw : 0 < (stripNonDigits raw).length → raw ≠ "" := by
    intro hl he
    subst he
    exact absurd hl (by decide)
  have hnil : 0 < (stripNonDigits raw).length → stripNonDigits raw ≠ [] := by
    intro hl he
    rw [he] at hl
    exact absurd hl (by decide)
  refine ⟨?_, ?_, ?_⟩
  · intro hl hh
    have h0 : 0 < (stripNonDigits raw).length := by omega
    unfold Casual.normalizePhone
    simp only [if_neg (hraw h0), if_neg (hnil h0)]
    rw [if_pos ⟨hl, hh⟩]
  · intro hl hh
    have h0 : 0 < (stripNonDigits raw).length := by omega
    unfold Casual.normalizePhone
    simp only [if_neg (hraw h0), if_neg (hnil h0)]
    rw [if_neg (fun h => h.2 hh), if_pos ⟨hl, hh⟩]
  · intro hl
    unfold Casual.normalizePhone
    simp only []
    split
    · rfl
    · split
      · rfl
      · rw [if_neg (fun h => by omega), if_neg (fun h => by omega)]

theorem dropWhile_zero_head (l : List Char) :
    (l.dropWhile (fun c => c == '0')).head? ≠ some '0' := by
  induction l with
  | nil => simp
  | cons a l ih =>
    rw [List.dropWhile_cons]
    split
    · exact ih
    · rename_i ha
      intro h
      simp only [List.head?_cons, Option.some.injEq] at h
      rw [h] at ha
      exact ha (by decide)

theorem isDigit_not_isSpace (c : Char) (h : isDigit c = true) : isSpace c = false := by
  unfold isDigit at h
  simp only [Bool.and_eq_true, decide_eq_true_eq] at h
  unfold isSpace
  simp only [Bool.or_eq_false_iff, decide_eq_false_iff_not, beq_eq_false_iff_ne, ne_eq]
  omega

/-- On a non-empty string of decimal digits `parseInt(s, 10)` reads the whole string. -/
theorem parseIntSigned_digits (s : String) (hne : s.data ≠ [])
    (hd : ∀ c ∈ s.data, isDigit c = true) :
    parseIntSigned s = some (false, roundDouble (mathInt s.data)) := by
  obtain ⟨a, l, hl⟩ : ∃ a l, s.data = a :: l := by
    cases hs : s.data with
    | nil => exact absurd hs hne
    | cons a l => exact ⟨a, l, rfl⟩
  have ha : isDigit a = true := hd a (by rw [hl]; exact List.mem_cons_self _ _)
  have hsp : isSpace a = false := isDigit_not_isSpace a ha
  have h1 : s.data.dropWhile isSpace = s.data := by
    rw [hl, List.dropWhile_cons]
    simp [hsp]
  have hm : a ≠ '-' := by
    intro he; rw [he] at ha; exact absurd ha (by decide)
  have hp : a ≠ '+' := by
    intro he; rw [he] at ha; exact absurd ha (by decide)
  have h2 : s.data.takeWhile isDigit = s.data := List.takeWhile_eq_self_iff.2 hd
  unfold parseIntSigned
  simp only [h1]
  have h3 : ¬ (s.data.head? = some '-' ∨ s.data.head? = some '+') := by
    rw [hl]
    simp [hm, hp]
  have h4 : decide (s.data.head? = some '-') = false := by
    rw [hl]
    simp [hm]
  rw [if_neg h3, h2, if_neg hne, h4]

namespace Reviews

theorem passesRating_iff (flt : String) (rating : JsNumber) :
    passesRating flt rating = true ↔ FilterAdmits flt rating := by
  unfold passesRating FilterAdmits
  by_cases h1 : flt = "all"
  · simp [h1]
  · by_cases h2 : flt = ""
    · simp [h2]
    · rw [if_pos ⟨h2, h1⟩]
      cases hp : parseIntSigned flt with
      | none => simp [h1, h2]
      | some v =>
        obtain ⟨neg, x⟩ := v
        simp only [decide_eq_true_eq]
        constructor
        · intro h
          exact Or.inr (Or.inr (Or.inr ⟨neg, x, rfl, h⟩))
        · intro h
          rcases h with h | h | h | ⟨neg1, x1, he, hr⟩
          · exact absurd h h1
          · exact absurd h h2
          · cases h
          · cases he
            exact hr

theorem shows_iff (pg : Page) (n : Review) :
    shows pg n = true ↔
      (verifiedOnly pg = false ∨ verified n = true) ∧
        FilterAdmits (activeFilter pg) (ratingOf n) := by
  unfold shows
  rw [Bool.and_eq_true, passesRating_iff]
  cases verifiedOnly pg <;> cases verified n <;> simp

end Reviews

/-! ## Escaping review text -/

namespace Reviews

/-- The replacement of a character, case by case. -/
theorem escapeChar_cases (c : Char) :
    (c = '&' ∧ escapeChar c = ['&', 'a', 'm', 'p', ';']) ∨
    (c = '<' ∧ escapeChar c = ['&', 'l', 't', ';']) ∨
    (c = '>' ∧ escapeChar c = ['&', 'g', 't', ';']) ∨
    (c = Char.ofNat 34 ∧ escapeChar c = ['&', 'q', 'u', 'o', 't', ';']) ∨
    (c = Char.ofNat 39 ∧ escapeChar c = ['&', '#', '3', '9', ';']) ∨
    (c ≠ '&' ∧ isMarkupChar c = false ∧ escapeChar c = [c]) := by
  by_cases h1 : c = '&'
  · subst h1; exact Or.inl ⟨rfl, by decide⟩
  · by_cases h2 : c = '<'
    · subst h2; exact Or.inr (Or.inl ⟨rfl, by decide⟩)
    · by_cases h3 : c = '>'
      · subst h3; exact Or.inr (Or.inr (Or.inl ⟨rfl, by decide⟩))
      · by_cases h4 : c = Char.ofNat 34
        · subst h4; exact Or.inr (Or.inr (Or.inr (Or.inl ⟨rfl, by decide⟩)))
        · by_cases h5 : c = Char.ofNat 39
          · subst h5; exact Or.inr (Or.inr (Or.inr (Or.inr (Or.inl ⟨rfl, by decide⟩))))
          · refine Or.inr (Or.inr (Or.inr (Or.inr (Or.inr ⟨h1, ?_, ?_⟩))))
            · unfold isMarkupChar
              simp [h2, h3, h4, h5]
            · unfold escapeChar
              simp [h1, h2, h3, h4, h5]

theorem escapeHtml_cons (c : Char) (l : List Char) :
    (escapeHtml (String.mk (c :: l))).data = escapeChar c ++ (escapeHtml (String.mk l)).data := by
  unfold escapeHtml
  simp [List.flatMap_cons]

theorem escapeChar_no_markup (c x : Char) (hx : x ∈ escapeChar c) : isMarkupChar x = false := by
  rcases escapeChar_cases c with h | h | h | h | h | h
  · rw [h.2] at hx; revert x; decide
  · rw [h.2] at hx; revert x; decide
  · rw [h.2] at hx; revert x; decide
  · rw [h.2] at hx; revert x; decide
  · rw [h.2] at hx; revert x; decide
  · rw [h.2.2] at hx
    rw [List.mem_singleton.1 hx]
    exact h.2.1

/-- No escaped text holds a character that opens or closes a tag or an attribute value. -/
theorem escapeHtml_no_markup (s : String) :
    ∀ x ∈ (escapeHtml s).data, isMarkupChar x = false := by
  intro x hx
  unfold escapeHtml at hx
  obtain ⟨c, _, hc⟩ := List.mem_flatMap.1 hx
  exact escapeChar_no_markup c x hc

theorem filter_escapeHtml (s : String) : (escapeHtml s).data.filter isMarkupChar = [] := by
  rw [List.filter_eq_nil_iff]
  intro x hx
  rw [escapeHtml_no_markup s x hx]
  decide

/-- Text without any of the five special characters is returned as it is. -/
theorem escapeHtml_plain (s : String)
    (h : ∀ c ∈ s.data, c ≠ '&' ∧ isMarkupChar c = false) : escapeHtml s = s := by
  unfold escapeHtml
  have hl : ∀ l : List Char, (∀ c ∈ l, c ≠ '&' ∧ isMarkupChar c = false) →
      l.flatMap escapeChar = l := by
    intro l
    induction l with
    | nil => intro _; rfl
    | cons c l ih =>
      intro hc
      have h1 := hc c (List.mem_cons_self _ _)
      rw [List.flatMap_cons, ih (fun d hd => hc d (List.mem_cons_of_mem _ hd))]
      rcases escapeChar_cases c with g | g | g | g | g | g
      · exact absurd g.1 h1.1
      · rw [g.1] at h1; exact absurd h1.2 (by decide)
      · rw [g.1] at h1; exact absurd h1.2 (by decide)
      · rw [g.1] at h1; exact absurd h1.2 (by decide)
      · rw [g.1] at h1; exact absurd h1.2 (by decide)
      · rw [g.2.2]; rfl
  rw [hl s.data h]

/-- The property "every `&` of the text begins an entity", carried over one leading
character. -/
theorem entity_step (x : Char) (l : List Char)
    (hl : ∀ t, t <:+ l → t.head? = some '&' → EntityStart t)
    (hx : x ≠ '&' ∨ EntityStart (x :: l)) :
    ∀ t, t <:+ (x :: l) → t.head? = some '&' → EntityStart t := by
  intro t ht hh
  rcases List.suffix_cons_iff.1 ht with h | h
  · subst h
    rcases hx with hx | hx
    · simp only [List.head?_cons, Option.some.injEq] at hh
      exact absurd hh hx
    · exact hx
  · exact hl t h hh

theorem entity_amp (l : List Char) : EntityStart ('&' :: 'a' :: 'm' :: 'p' :: ';' :: l) :=
  ⟨"&amp;", by decide, ⟨l, rfl⟩⟩

theorem entity_lt (l : List Char) : EntityStart ('&' :: 'l' :: 't' :: ';' :: l) :=
  ⟨"&lt;", by decide, ⟨l, rfl⟩⟩

theorem entity_gt (l : List Char) : EntityStart ('&' :: 'g' :: 't' :: ';' :: l) :=
  ⟨"&gt;", by decide, ⟨l, rfl⟩⟩

theorem entity_quot (l : List Char) :
    EntityStart ('&' :: 'q' :: 'u' :: 'o' :: 't' :: ';' :: l) :=
  ⟨"&quot;", by decide, ⟨l, rfl⟩⟩

theorem entity_apos (l : List Char) : EntityStart ('&' :: '#' :: '3' :: '9' :: ';' :: l) :=
  ⟨"&#39;", by decide, ⟨l, rfl⟩⟩

/-- Every `&` of an escaped text begins one of the five entities. -/
theorem escapeHtml_entities (l : List Char) :
    ∀ t, t <:+ (escapeHtml (String.mk l)).data → t.head? = some '&' → EntityStart t := by
  induction l with
  | nil =>
    intro t ht hh
    have : t = [] := List.suffix_nil.1 ht
    subst this
    simp at hh
  | cons c l ih =>
    rw [escapeHtml_cons]
    rcases escapeChar_cases c with g | g | g | g | g | g
    · rw [g.2]
      exact entity_step _ _ (entity_step _ _ (entity_step _ _ (entity_step _ _
        (entity_step _ _ ih (Or.inl (by decide))) (Or.inl (by decide)))
        (Or.inl (by decide))) (Or.inl (by decide))) (Or.inr (entity_amp _))
    · rw [g.2]
      exact entity_step _ _ (entity_step _ _ (entity_step _ _
        (entity_step _ _ ih (Or.inl (by decide))) (Or.inl (by decide)))
        (Or.inl (by decide))) (Or.inr (entity_lt _))
    · rw [g.2]
      exact entity_step _ _ (entity_step _ _ (entity_step _ _
        (entity_step _ _ ih (Or.inl (by decide))) (Or.inl (by decide)))
        (Or.inl (by decide))) (Or.inr (entity_gt _))
    · rw [g.2]
      exact entity_step _ _ (entity_step _ _ (entity_step _ _ (entity_step _ _
        (entity_step _ _ (entity_step _ _ ih (Or.inl (by decide))) (Or.inl (by decide)))
        (Or.inl (by decide))) (Or.inl (by decide))) (Or.inl (by decide)))
        (Or.inr (entity_quot _))
    · rw [g.2]
      exact entity_step _ _ (entity_step _ _ (entity_step _ _ (entity_step _ _
        (entity_step _ _ ih (Or.inl (by decide))) (Or.inl (by decide)))
        (Or.inl (by decide))) (Or.inl (by decide))) (Or.inr (entity_apos _))
    · rw [g.2.2]
      exact entity_step _ _ ih (Or.inl g.1)

end Reviews

namespace Reviews

theorem filter_meta (email : String) :
    (if email ≠ "" then escapeHtml email ++ " · " else "").data.filter isMarkupChar = [] := by
  split
  · rw [String.data_append, List.filter_append, filter_escapeHtml]
    decide
  · rfl

/-- The characters of the review markup that open or close a tag or an attribute value
are those of the template: they do not depend on the name, the e-mail or the comment. -/
theorem reviewMarkup_delimiters (name email rating comment : String) :
    (reviewMarkup name email rating comment).data.filter isMarkupChar
      = (reviewMarkup "" "" rating "").data.filter isMarkupChar := by
  unfold reviewMarkup
  simp only [String.data_append, List.filter_append, filter_escapeHtml, filter_meta,
    List.append_nil, List.nil_append]

end Reviews

/-! ## The e-mail pattern -/

theorem matchAtoms_nil (s : List Char) : matchAtoms [] s = true ↔ s = [] := by
  cases s <;> simp [matchAtoms]

theorem matchAtoms_lit (c : Char) (rest : List Atom) (s : List Char) :
    matchAtoms (Atom.lit c :: rest) s = true ↔ ∃ b, s = c :: b ∧ matchAtoms rest b = true := by
  cases s with
  | nil => simp [matchAtoms]
  | cons x s =>
    simp only [matchAtoms, Bool.and_eq_true, beq_iff_eq, List.cons.injEq]
    constructor
    · rintro ⟨rfl, h⟩
      exact ⟨s, ⟨rfl, rfl⟩, h⟩
    · rintro ⟨b, ⟨rfl, rfl⟩, h⟩
      exact ⟨rfl, h⟩

theorem matchAtoms_plus (p : Char → Bool) (rest : List Atom) (s : List Char) :
    matchAtoms (Atom.plus p :: rest) s = true ↔
      ∃ a b, s = a ++ b ∧ a ≠ [] ∧ (∀ x ∈ a, p x = true) ∧ matchAtoms rest b = true := by
  induction s with
  | nil =>
    simp only [matchAtoms]
    constructor
    · intro h; cases h
    · rintro ⟨a, b, h, hne, _⟩
      have := List.append_eq_nil.1 h.symm
      exact absurd this.1 hne
  | cons x s ih =>
    simp only [matchAtoms, Bool.and_eq_true, Bool.or_eq_true]
    constructor
    · rintro ⟨hx, h | h⟩
      · exact ⟨[x], s, rfl, by simp, by simpa using hx, h⟩
      · obtain ⟨a, b, rfl, _, ha, hb⟩ := ih.1 h
        refine ⟨x :: a, b, rfl, by simp, ?_, hb⟩
        intro y hy
        rcases List.mem_cons.1 hy with rfl | hy
        · exact hx
        · exact ha y hy
    · rintro ⟨a, b, h, hne, ha, hb⟩
      cases a with
      | nil => exact absurd rfl hne
      | cons y a =>
        simp only [List.cons_append, List.cons.injEq] at h
        obtain ⟨rfl, rfl⟩ := h
        refine ⟨ha x (List.mem_cons_self _ _), ?_⟩
        cases a with
        | nil => exact Or.inl hb
        | cons z a =>
          exact Or.inr (ih.2 ⟨z :: a, b, rfl, by simp,
            fun w hw => ha w (List.mem_cons_of_mem _ hw), hb⟩)

/-- A text matches the e-mail pattern exactly when it is three non-empty runs of
characters that are not white space, with an `@` after the first and a `.` after the
second. -/
theorem emailPattern_iff (v : List Char) :
    matchAtoms emailPattern v = true ↔
      ∃ a b c, v = a ++ '@' :: (b ++ '.' :: c) ∧ a ≠ [] ∧ b ≠ [] ∧ c ≠ [] ∧
        (∀ x ∈ a, isSpace x = false) ∧ (∀ x ∈ b, isSpace x = false) ∧
        (∀ x ∈ c, isSpace x = false) := by
  unfold emailPattern
  constructor
  · intro h
    obtain ⟨a, r1, rfl, ha, hpa, h1⟩ := (matchAtoms_plus _ _ _).1 h
    obtain ⟨r2, rfl, h2⟩ := (matchAtoms_lit _ _ _).1 h1
    obtain ⟨b, r3, rfl, hb, hpb, h3⟩ := (matchAtoms_plus _ _ _).1 h2
    obtain ⟨r4, rfl, h4⟩ := (matchAtoms_lit _ _ _).1 h3
    obtain ⟨c, r5, rfl, hc, hpc, h5⟩ := (matchAtoms_plus _ _ _).1 h4
    have h6 := (matchAtoms_nil _).1 h5
    subst h6
    refine ⟨a, b, c, by simp, ha, hb, hc, ?_, ?_, ?_⟩
    · intro x hx; simpa using hpa x hx
    · intro x hx; simpa using hpb x hx
    · intro x hx; simpa using hpc x hx
  · rintro ⟨a, b, c, rfl, ha, hb, hc, hpa, hpb, hpc⟩
    refine (matchAtoms_plus _ _ _).2 ⟨a, _, rfl, ha, fun x hx => by simp [hpa x hx], ?_⟩
    refine (matchAtoms_lit _ _ _).2 ⟨_, rfl, ?_⟩
    refine (matchAtoms_plus _ _ _).2 ⟨b, _, rfl, hb, fun x hx => by simp [hpb x hx], ?_⟩
    refine (matchAtoms_lit _ _ _).2 ⟨_, rfl, ?_⟩
    refine (matchAtoms_plus _ _ _).2 ⟨c, [], by simp, hc, fun x hx => by simp [hpc x hx], ?_⟩
    exact (matchAtoms_nil _).2 rfl

theorem drop_of_getElem (v : List Char) (k : Nat) (x : Char) (h : v[k]? = some x) :
    v.drop k = x :: v.drop (k + 1) := by
  obtain ⟨hk, hx⟩ := List.getElem?_eq_some_iff.1 h
  rw [List.drop_eq_getElem_cons hk, hx]

/-- The e-mail pattern in terms of positions. -/
theorem emailPattern_spec (v : List Char) :
    matchAtoms emailPattern v = true ↔ SpecValidEmail v := by
  rw [emailPattern_iff]
  unfold SpecValidEmail
  constructor
  · rintro ⟨a, b, c, rfl, ha, hb, hc, hpa, hpb, hpc⟩
    have hla : 1 ≤ a.length := List.length_pos.2 ha
    have hlb : 1 ≤ b.length := List.length_pos.2 hb
    have hlc : 1 ≤ c.length := List.length_pos.2 hc
    refine ⟨?_, a.length, a.length + 1 + b.length, hla, ?_, by omega, ?_, ?_⟩
    · intro x hx
      simp only [List.mem_append, List.mem_cons] at hx
      rcases hx with hx | rfl | hx | rfl | hx
      · exact hpa x hx
      · decide
      · exact hpb x hx
      · decide
      · exact hpc x hx
    · rw [List.getElem?_append_right (Nat.le_refl _)]
      simp
    · simp only [List.length_append, List.length_cons]
      omega
    · rw [List.getElem?_append_right (by omega)]
      have e : a.length + 1 + b.length - a.length = (b.length) + 1 := by omega
      rw [e, List.getElem?_cons_succ, List.getElem?_append_right (Nat.le_refl _)]
      simp
  · rintro ⟨hsp, i, j, hi, hat, hij, hjl, hdot⟩
    have hd1 := drop_of_getElem v i '@' hat
    have hd2 := drop_of_getElem v j '.' hdot
    have hsplit : v.drop (i + 1)
        = (v.drop (i + 1)).take (j - (i + 1)) ++ '.' :: v.drop (j + 1) := by
      have h1 := (List.take_append_drop (j - (i + 1)) (v.drop (i + 1))).symm
      rw [List.drop_drop] at h1
      have e : i + 1 + (j - (i + 1)) = j := by omega
      rw [e, hd2] at h1
      exact h1
    refine ⟨v.take i, (v.drop (i + 1)).take (j - (i + 1)), v.drop (j + 1), ?_, ?_, ?_, ?_,
      ?_, ?_, ?_⟩
    · rw [← hsplit, ← hd1, List.take_append_drop]
    · intro h
      have := congrArg List.length h
      rw [List.length_take] at this
      simp only [List.length_nil] at this
      omega
    · intro h
      have := congrArg List.length h
      rw [List.length_take, List.length_drop] at this
      simp only [List.length_nil] at this
      omega
    · intro h
      have := congrArg List.length h
      rw [List.length_drop] at this
      simp only [List.length_nil] at this
      omega
    · intro x hx
      exact hsp x (List.mem_of_mem_take hx)
    · intro x hx
      exact hsp x (List.mem_of_mem_drop (List.mem_of_mem_take hx))
    · intro x hx
      exact hsp x (List.mem_of_mem_drop hx)

/-! ## The preview overlay -/

namespace Collection

theorem openPreview_first (card : PreviewCard) :
    openPreview card previewStart = ⟨[fillOverlay card freshOverlay], some 0⟩ := rfl

theorem openPreview_again (card : PreviewCard) (o : Overlay) :
    openPreview card ⟨[o], some 0⟩ = ⟨[fillOverlay card o], some 0⟩ := rfl

theorem closePreview_start : closePreview previewStart = previewStart := rfl

theorem closePreview_one (o : Overlay) :
    closePreview ⟨[o], some 0⟩ = ⟨[hideOverlay o], some 0⟩ := rfl

theorem previewStep_one (st : PreviewState) (call : PreviewCall) (h : OneOverlay st) :
    OneOverlay (previewStep st call) := by
  obtain ⟨o, rfl⟩ := h
  cases call with
  | openPreview card => exact ⟨_, openPreview_again card o⟩
  | closePreview => exact ⟨_, closePreview_one o⟩

theorem foldl_previewStep_one (calls : List PreviewCall) :
    ∀ st, OneOverlay st → OneOverlay (calls.foldl previewStep st) := by
  induction calls with
  | nil => intro st h; exact h
  | cons call calls ih =>
    intro st h
    exact ih _ (previewStep_one st call h)

/-- From the start, a sequence of calls leaves one overlay if it holds an
`openPreview`, and leaves the start state otherwise. -/
theorem foldl_previewStep_start (calls : List PreviewCall) :
    ((∃ card, PreviewCall.openPreview card ∈ calls) →
      OneOverlay (calls.foldl previewStep previewStart)) ∧
    ((¬ ∃ card, PreviewCall.openPreview card ∈ calls) →
      calls.foldl previewStep previewStart = previewStart) := by
  induction calls with
  | nil =>
    refine ⟨?_, fun _ => rfl⟩
    rintro ⟨card, h⟩
    cases h
  | cons call calls ih =>
    cases call with
    | openPreview card =>
      refine ⟨fun _ => ?_, fun h => absurd ⟨card, List.mem_cons_self _ _⟩ h⟩
      exact foldl_previewStep_one calls _ ⟨_, openPreview_first card⟩
    | closePreview =>
      have e : (PreviewCall.closePreview :: calls).foldl previewStep previewStart
          = calls.foldl previewStep previewStart := rfl
      rw [e]
      refine ⟨?_, ?_⟩
      · rintro ⟨card, h⟩
        rcases List.mem_cons.1 h with h | h
        · cases h
        · exact ih.1 ⟨card, h⟩
      · intro h
        exact ih.2 (fun ⟨card, hc⟩ => h ⟨card, List.mem_cons_of_mem _ hc⟩)

end Collection

/-! ## Readable review texts -/

namespace Reviews

/-- A counter that shows a whole number up to `2^53` is read as that number. -/
theorem textNumber_of_shows (t : NumText) (n : Nat) (hs : CounterShows t n)
    (hn : n ≤ 2 ^ 53) : textNumber t = JsNumber.fin n := by
  cases t with
  | num x => exact hs
  | text s =>
    obtain ⟨_, hd, hm⟩ := hs
    unfold textNumber toNumber
    simp only [hd, if_true]
    unfold Newpage.toNumber
    rw [hm, roundDouble_exact n hn, orZero_fin]

theorem readableList_of_perm (l1 l2 : List Review) (hp : l1.Perm l2)
    (h : readableList l2 = true) : readableList l1 = true := by
  unfold readableList at h ⊢
  rw [List.all_eq_true] at h ⊢
  intro n hn
  exact h n (hp.mem_iff.1 hn)

theorem readableList_map_setDisplay (pg : Page) (l : List Review)
    (h : readableList l = true) : readableList (l.map (setDisplay pg)) = true := by
  unfold readableList at h ⊢
  rw [List.all_eq_true] at h ⊢
  intro n hn
  obtain ⟨m, hm, rfl⟩ := List.mem_map.1 hn
  exact h m hm

/-- The filter and the sort leave a readable list readable. -/
theorem readableList_applyFiltersAndSort (pg : Page) (h : readableList pg.list = true) :
    readableList (applyFiltersAndSort pg).list = true :=
  readableList_of_perm _ _ (applyFiltersAndSort_perm pg) (readableList_map_setDisplay pg _ h)

theorem readableReview_newReview (rating : String) (h : readable rating = true) :
    readableReview (newReview rating) = true := by
  unfold readableReview newReview
  simp only [Option.all_some, h, Option.all_none, Bool.and_self, Bool.true_and]
  decide

theorem readableReview_cloneReview (n : Review) (h : readableReview n = true) :
    readableReview (cloneReview n) = true := by
  unfold readableReview at h ⊢
  unfold cloneReview
  simp only [Bool.and_eq_true] at h ⊢
  refine ⟨h.1, ?_⟩
  cases hh : n.helpful with
  | none => rfl
  | some b =>
    cases hb : b.badge with
    | none => simp [hb]
    | some t =>
      have hz : faithfulText (NumText.text "0") = true := by decide
      simp [hb, hz]

theorem loadMoreClones_mem (l : List Review) (n : Review) (h : n ∈ loadMoreClones l) :
    n ∈ l := by
  unfold loadMoreClones at h
  obtain ⟨i, _, hi⟩ := List.mem_filterMap.1 h
  obtain ⟨hlt, he⟩ := List.getElem?_eq_some_iff.1 hi
  rw [← he]
  exact List.getElem_mem _

theorem readableList_loadMore (l : List Review) (h : readableList l = true) :
    readableList (l ++ (loadMoreClones l).map cloneReview) = true := by
  unfold readableList at h ⊢
  rw [List.all_eq_true] at h ⊢
  intro n hn
  rcases List.mem_append.1 hn with hn | hn
  · exact h n hn
  · obtain ⟨m, hm, rfl⟩ := List.mem_map.1 hn
    exact readableReview_cloneReview m (h m (loadMoreClones_mem l m hm))

end Reviews

namespace Reviews

theorem readableList_insert (rating : String) (l : List Review)
    (hnew : readable rating = true) (h : readableList l = true) :
    readableList (newReview rating :: l) = true := by
  unfold readableList at h ⊢
  rw [List.all_cons, readableReview_newReview rating hnew, h]
  rfl

end Reviews

/-! ## The order handlers as written -/

/-- The handlers of `gifts-1.js` as they are written, which run only in a script that
parses.  `handleOrderClick` is applied for the package `Silver`, then for the package
`Gold`, and the form is filled in.  Each call creates new function objects, so
`removeEventListener` finds nothing to remove: the form carries two submit handlers and
each add-on checkbox two change handlers.  One submission runs both handlers and opens
two addresses, the first for `Silver` and the second for `Gold`. -/
theorem order_clicks_stack_handlers :
    Gifts.twoClicks.submitListeners
      = [⟨0, "Silver", JsNumber.fin 20000, Option.none⟩,
         ⟨1, "Gold", JsNumber.fin 50000, Option.none⟩] ∧
    Gifts.twoClicks.addOns.map (fun cb => cb.changeListeners.length) = [2, 2] ∧
    (Gifts.submitForm Gifts.plainCurrency Gifts.twoClicks).opened
      = [Collection.openWhatsApp "2348136754060"
          ("Hello, I would like to order: Silver | Buyer: Ada (08030000000) | " ++
            "Recipient: Bola | Address: 12 Allen Avenue | Total: ₦20000 | " ++
            "Please confirm availability and delivery fee. Thank you."),
         Collection.openWhatsApp "2348136754060"
          ("Hello, I would like to order: Gold | Buyer: Ada (08030000000) | " ++
            "Recipient: Bola | Address: 12 Allen Avenue | Total: ₦50000 | " ++
            "Please confirm availability and delivery fee. Thank you.")] ∧
    (Gifts.submitForm Gifts.plainCurrency Gifts.twoClicks).opened.length = 2 ∧
    (Gifts.submitForm Gifts.plainCurrency Gifts.twoClicks).submitListeners = [] := by
  refine ⟨by decide, by decide, ?_, ?_, ?_⟩
  · rfl
  · rfl
  · decide

/-! ## The claims -/

/-- C1 (as amended): for every string whose digit characters denote an integer of at
most `2^53`, both versions of `parsePrice` return exactly that integer, and for every
string without a digit (the empty string included) they return 0. -/
theorem parsePrice_decimalValue (s : String) :
    (decimalValue s ≤ 2 ^ 53 →
      Agbada.parsePrice s = JsNumber.fin (decimalValue s) ∧
      Collection.parsePrice s = JsNumber.fin (decimalValue s)) ∧
    ((∀ c ∈ s.data, isDigit c = false) →
      Agbada.parsePrice s = JsNumber.fin 0 ∧ Collection.parsePrice s = JsNumber.fin 0) := by
  have key : decimalValue s ≤ 2 ^ 53 →
      Agbada.parsePrice s = JsNumber.fin (decimalValue s) ∧
      Collection.parsePrice s = JsNumber.fin (decimalValue s) := by
    intro h
    by_cases hs : s = ""
    · subst hs; exact ⟨rfl, rfl⟩
    · constructor
      · unfold Agbada.parsePrice
        rw [if_neg hs]
        by_cases hd : stripNonDigits s = []
        · have h0 : decimalValue s = 0 := by rw [← mathInt_strip, hd]; rfl
          simp only [hd, if_true, h0]; rfl
        · simp only [hd, if_false]
          unfold parseInt10
          rw [mathInt_strip, roundDouble_exact _ h]
      · unfold Collection.parsePrice
        rw [if_neg hs]
        unfold toNumber
        rw [mathInt_strip, roundDouble_exact _ h, orZero_fin]
  refine ⟨key, fun hno => ?_⟩
  have h0 := decimalValue_of_no_digit s hno
  have := key (by rw [h0]; exact Nat.zero_le _)
  rwa [h0] at this

/-- Witness for C1: the price text `₦12,500` parses to 12500 and the text `N/A` to 0. -/
theorem parsePrice_decimalValue_witness :
    (Agbada.parsePrice "₦12,500" = JsNumber.fin (decimalValue "₦12,500") ∧
      Collection.parsePrice "₦12,500" = JsNumber.fin (decimalValue "₦12,500")) ∧
    decimalValue "₦12,500" = 12500 ∧
    (Agbada.parsePrice "N/A" = JsNumber.fin 0 ∧ Collection.parsePrice "N/A" = JsNumber.fin 0) :=
  ⟨(parsePrice_decimalValue "₦12,500").1 (by decide), by decide,
    (parsePrice_decimalValue "N/A").2 (by decide)⟩

/-- Counterexample to C1 as stated: the digits of `9007199254740993` denote `2^53 + 1`,
which no double holds; both versions of `parsePrice` return `2^53`. -/
theorem parsePrice_rounds_counterexample :
    decimalValue "9007199254740993" = 9007199254740993 ∧
    Agbada.parsePrice "9007199254740993" = JsNumber.fin 9007199254740992 ∧
    Collection.parsePrice "9007199254740993" = JsNumber.fin 9007199254740992 := by
  decide

/-- C2 (as amended): in mode `price-low` the run of `applyFilters` leaves the visible
grid cells in non-decreasing order of parsed price, in mode `price-high` in
non-increasing order; in every mode the visible cells after the run are a permutation of
the cells the active filter selects (the array `visibleCols`), each once, and they are a
permutation of the cells visible before the run when the grid already showed the cells
of the active filter; the row holds the same product cards as before.  The sort handler
of the Agbada page orders its columns, and with them the visible ones, in the same way
and keeps every child of the grid. -/
theorem applyFilters_price_order (lower : String → String) (c : Collection.Container)
    (grid : List Agbada.GridCol) :
    (Collection.sortVal c = "price-low" →
      (Collection.visibleCells (Collection.applyFilters lower c)).Pairwise
        (fun a b => JsNumber.le (Collection.priceOfCol a) (Collection.priceOfCol b))) ∧
    (Collection.sortVal c = "price-high" →
      (Collection.visibleCells (Collection.applyFilters lower c)).Pairwise
        (fun a b => JsNumber.le (Collection.priceOfCol b) (Collection.priceOfCol a))) ∧
    (Collection.visibleCells (Collection.applyFilters lower c)).Perm
      (Collection.selectedCols lower c) ∧
    (Collection.Filtered lower c →
      (Collection.visibleCells (Collection.applyFilters lower c)).Perm
        (Collection.visibleCells c)) ∧
    ((Collection.getColumns (Collection.applyFilters lower c)).map Collection.Col.card).Perm
      ((Collection.getColumns c).map Collection.Col.card) ∧
    (Agbada.visibleCols (Agbada.sortChange "price-low" grid)).Pairwise
      (fun a b => JsNumber.le (Agbada.priceOfCol a) (Agbada.priceOfCol b)) ∧
    (Agbada.visibleCols (Agbada.sortChange "price-high" grid)).Pairwise
      (fun a b => JsNumber.le (Agbada.priceOfCol b) (Agbada.priceOfCol a)) ∧
    (∀ val, (Agbada.sortChange val grid).Perm grid ∧
      (Agbada.visibleCols (Agbada.sortChange val grid)).Perm (Agbada.visibleCols grid)) := by
  refine ⟨?_, ?_, ?_, ?_, Collection.applyFilters_cards lower c,
    Agbada.visibleCols_low_sorted grid,
    Agbada.visibleCols_high_sorted grid,
    fun val => ⟨Agbada.sortChange_perm val grid, Agbada.visibleCols_perm val grid⟩⟩
  · intro hv
    rw [Collection.visibleCells_applyFilters, hv]
    exact Collection.sortMapped_low_sorted _
  · intro hv
    rw [Collection.visibleCells_applyFilters, hv]
    exact Collection.sortMapped_high_sorted _
  · rw [Collection.visibleCells_applyFilters]
    exact Collection.sortMapped_col_perm _ _
  · intro hf
    rw [Collection.visibleCells_of_filtered lower c hf, Collection.visibleCells_applyFilters]
    exact Collection.sortMapped_col_perm _ _

/-- Witness for C2 (as amended): the sample grid in mode `price-low`, all three cards
shown. -/
theorem applyFilters_price_order_witness :
    (Collection.visibleCells
        (Collection.applyFilters Collection.asciiLower Collection.sampleContainer)).Pairwise
      (fun a b => JsNumber.le (Collection.priceOfCol a) (Collection.priceOfCol b)) ∧
    (Collection.visibleCells
        (Collection.applyFilters Collection.asciiLower Collection.sampleContainer)).map
      Collection.priceOfCol = [JsNumber.fin 100, JsNumber.fin 200, JsNumber.fin 300] ∧
    (Collection.visibleCells
        (Collection.applyFilters Collection.asciiLower Collection.sampleContainer)).Perm
      (Collection.selectedCols Collection.asciiLower Collection.sampleContainer) ∧
    (Agbada.visibleCols (Agbada.sortChange "price-high" Agbada.sampleGrid)).map Agbada.priceOfCol
      = [JsNumber.fin 60000, JsNumber.fin 45000] :=
  have h := applyFilters_price_order Collection.asciiLower Collection.sampleContainer
    Agbada.sampleGrid
  ⟨h.1 (by decide), by decide, h.2.2.1, by decide⟩

/-- C2 as stated fails on the sample grid, whose third child is a hidden product column
that the active filter `all` selects: two cells are visible before the run of
`applyFilters` and three after it, so the visible cells after the run are no permutation
of those before it. -/
theorem applyFilters_price_order_counterexample :
    Collection.sortVal Collection.sampleContainer = "price-low" ∧
    Collection.activeFilter Collection.sampleContainer = "all" ∧
    (Collection.visibleCells Collection.sampleContainer).map Collection.priceOfCol
      = [JsNumber.fin 300, JsNumber.fin 200] ∧
    (Collection.visibleCells
        (Collection.applyFilters Collection.asciiLower Collection.sampleContainer)).map
      Collection.priceOfCol = [JsNumber.fin 100, JsNumber.fin 200, JsNumber.fin 300] ∧
    ¬ (Collection.visibleCells
        (Collection.applyFilters Collection.asciiLower Collection.sampleContainer)).Perm
      (Collection.visibleCells Collection.sampleContainer) := by
  refine ⟨by decide, by decide, by decide, by decide, ?_⟩
  intro h
  exact absurd h.length_eq (by decide)

/-- C3 (as amended): in mode `new` the visible cells after `applyFilters` of the
generalised controller are the visible cells whose card carries `data-new="true"` or
`data-newest="true"`, in the order they had, followed by the other visible cells, in the
order they had: a stable partition.  The sort handler of the Agbada page partitions its
columns, and with them the visible ones, in the same stable way, but on the one flag it
reads, `data-newest="true"`. -/
theorem sort_new_stable_partition (lower : String → String) (c : Collection.Container)
    (grid : List Agbada.GridCol) (h : Collection.sortVal c = "new") :
    Collection.visibleCells (Collection.applyFilters lower c)
      = (Collection.selectedCols lower c).filter Collection.isNewCol
        ++ (Collection.selectedCols lower c).filter (fun col => !Collection.isNewCol col) ∧
    (∀ col, Collection.isNewCol col = true ↔
      ∃ card, col.card = some card ∧
        (card.dataNew = some "true" ∨ card.dataNewest = some "true")) ∧
    Agbada.visibleCols (Agbada.sortChange "new" grid)
      = (Agbada.visibleCols grid).filter Agbada.isNewestCol
        ++ (Agbada.visibleCols grid).filter (fun col => !Agbada.isNewestCol col) ∧
    (∀ col, Agbada.isNewestCol col = true ↔
      ∃ card, col.card = some card ∧ card.dataNewest = some "true") := by
  refine ⟨?_, ?_, ?_, ?_⟩
  · rw [Collection.visibleCells_applyFilters, h]
    have hE : ∀ l, Collection.sortMapped "new" l
        = jsSort (fun a b => boolNum b.isNew - boolNum a.isNew) l := by
      intro l; unfold Collection.sortMapped
      rw [if_neg (by decide), if_neg (by decide), if_pos rfl]
    rw [hE, jsSort_flag Collection.Mapped.isNew, List.map_append,
      Collection.map_col_filter, Collection.map_col_filter]
    rfl
  · intro col
    unfold Collection.isNewCol Collection.toMapped
    cases hc : col.card with
    | none => simp
    | some card => simp [Collection.isNewCard]
  · unfold Agbada.visibleCols
    rw [Agbada.cols_sortChange]
    have hE : ∀ l, Agbada.sortMapped "new" l
        = jsSort (fun a b => boolNum b.newest - boolNum a.newest) l := by
      intro l; unfold Agbada.sortMapped
      rw [if_neg (by decide), if_neg (by decide), if_pos rfl]
    rw [hE, jsSort_flag Agbada.Mapped.newest, List.map_append,
      Agbada.grid_map_col_filter, Agbada.grid_map_col_filter, List.filter_append]
    have key : ∀ f : Agbada.GridCol → Bool,
        ((grid.filter (fun col => col.colClass)).filter f).filter Agbada.cardShown
          = ((grid.filter (fun col => col.colClass)).filter Agbada.cardShown).filter f :=
      fun f => filter_swap _ _ _
    rw [key, key]
    rfl
  · intro col
    unfold Agbada.isNewestCol Agbada.toMapped
    cases hc : col.card with
    | none => simp
    | some card => simp

/-- Witness for C3 (as amended): the sample grid in mode `new`; the cards flagged through
`data-new` and through `data-newest` come first, in their document order. -/
theorem sort_new_stable_partition_witness :
    (Collection.visibleCells (Collection.applyFilters Collection.asciiLower
      ⟨Collection.sampleContainer.row, Collection.sampleContainer.filterBtns, some "new"⟩)).map
        Collection.priceOfCol = [JsNumber.fin 100, JsNumber.fin 200, JsNumber.fin 300] ∧
    Collection.visibleCells (Collection.applyFilters Collection.asciiLower
      ⟨Collection.sampleContainer.row, Collection.sampleContainer.filterBtns, some "new"⟩)
      = (Collection.selectedCols Collection.asciiLower
          ⟨Collection.sampleContainer.row, Collection.sampleContainer.filterBtns,
            some "new"⟩).filter Collection.isNewCol
        ++ (Collection.selectedCols Collection.asciiLower
          ⟨Collection.sampleContainer.row, Collection.sampleContainer.filterBtns,
            some "new"⟩).filter (fun col => !Collection.isNewCol col) :=
  ⟨by decide,
    (sort_new_stable_partition Collection.asciiLower
      ⟨Collection.sampleContainer.row, Collection.sampleContainer.filterBtns, some "new"⟩
      Agbada.sampleGrid (by decide)).1⟩

/-- C3 as stated fails on the Agbada page for a card flagged by `data-new` alone: of two
cards, the first without a flag and the second with `data-new="true"`, the sort in mode
`new` leaves the unflagged card first, since the Agbada script reads `data-newest` only;
the generalised controller puts the flagged card first. -/
theorem sort_new_counterexample :
    Agbada.dataNewGrid.map Agbada.priceOfCol = [JsNumber.fin 300, JsNumber.fin 200] ∧
    Collection.isNewCard ⟨some "men", Option.none, some "₦200", some "true", Option.none⟩
      = true ∧
    Agbada.dataNewGrid.map Agbada.isNewestCol = [false, false] ∧
    (Agbada.visibleCols (Agbada.sortChange "new" Agbada.dataNewGrid)).map Agbada.priceOfCol
      = [JsNumber.fin 300, JsNumber.fin 200] ∧
    (Collection.visibleCells
        (Collection.applyFilters Collection.asciiLower Collection.dataNewContainer)).map
      Collection.priceOfCol = [JsNumber.fin 200, JsNumber.fin 300] := by
  refine ⟨?_, ?_, ?_, ?_, ?_⟩ <;> decide

/-- C4: when the parsed prices of the visible grid cells are pairwise distinct, the
order of the visible cells after a sort in mode `price-high` is exactly the reverse of
their order after a sort in mode `price-low`, whether both sorts start from the same
grid or the second follows the first; the same holds for the sort handler of the Agbada
page. -/
theorem price_high_reverses_price_low (lower : String → String) (c : Collection.Container)
    (grid : List Agbada.GridCol)
    (hsel : c.sortSelect.isSome = true)
    (hd : ((Collection.selectedCols lower c).map Collection.priceOfCol).Nodup)
    (hda : ((Agbada.visibleCols grid).map Agbada.priceOfCol).Nodup) :
    Collection.visibleCells (Collection.sortChange lower "price-high" c)
      = (Collection.visibleCells (Collection.sortChange lower "price-low" c)).reverse ∧
    Collection.visibleCells
        (Collection.sortChange lower "price-high" (Collection.sortChange lower "price-low" c))
      = (Collection.visibleCells (Collection.sortChange lower "price-low" c)).reverse ∧
    Agbada.visibleCols (Agbada.sortChange "price-high" grid)
      = (Agbada.visibleCols (Agbada.sortChange "price-low" grid)).reverse ∧
    Agbada.visibleCols (Agbada.sortChange "price-high" (Agbada.sortChange "price-low" grid))
      = (Agbada.visibleCols (Agbada.sortChange "price-low" grid)).reverse := by
  have hlow : (Collection.visibleCells (Collection.sortChange lower "price-low" c)).Perm
      (Collection.selectedCols lower c) := by
    rw [Collection.visibleCells_sortChange lower _ c hsel]
    exact Collection.sortMapped_col_perm _ _
  have hlowS :
      (Collection.visibleCells (Collection.sortChange lower "price-low" c)).reverse.Pairwise
      (fun a b => JsNumber.le (Collection.priceOfCol b) (Collection.priceOfCol a)) := by
    rw [Collection.visibleCells_sortChange lower _ c hsel]
    exact List.pairwise_reverse.2 (Collection.sortMapped_low_sorted _)
  have hsel2 := Collection.sortChange_sortSelect lower "price-low" c hsel
  refine ⟨?_, ?_, ?_, ?_⟩
  · apply eq_of_perm_of_desc Collection.priceOfCol
    · rw [Collection.visibleCells_sortChange lower _ c hsel]
      exact (Collection.sortMapped_col_perm _ _).trans
        (hlow.symm.trans (List.reverse_perm _).symm)
    · rw [Collection.visibleCells_sortChange lower _ c hsel]
      exact ((Collection.sortMapped_col_perm _ _).map _).nodup_iff.2 hd
    · rw [Collection.visibleCells_sortChange lower _ c hsel]
      exact Collection.sortMapped_high_sorted _
    · exact hlowS
  · apply eq_of_perm_of_desc Collection.priceOfCol
    · rw [Collection.visibleCells_sortChange lower _ _ hsel2,
        Collection.selectedCols_sortChange lower _ c hsel]
      exact (Collection.sortMapped_col_perm _ _).trans (List.reverse_perm _).symm
    · rw [Collection.visibleCells_sortChange lower _ _ hsel2,
        Collection.selectedCols_sortChange lower _ c hsel]
      exact (((Collection.sortMapped_col_perm _ _).trans hlow).map _).nodup_iff.2 hd
    · rw [Collection.visibleCells_sortChange lower _ _ hsel2]
      exact Collection.sortMapped_high_sorted _
    · exact hlowS
  · apply eq_of_perm_of_desc Agbada.priceOfCol
    · exact (Agbada.visibleCols_perm _ grid).trans
        ((Agbada.visibleCols_perm _ grid).symm.trans (List.reverse_perm _).symm)
    · exact ((Agbada.visibleCols_perm _ grid).map _).nodup_iff.2 hda
    · exact Agbada.visibleCols_high_sorted grid
    · exact List.pairwise_reverse.2 (Agbada.visibleCols_low_sorted grid)
  · apply eq_of_perm_of_desc Agbada.priceOfCol
    · exact (Agbada.visibleCols_perm _ _).trans (List.reverse_perm _).symm
    · exact (((Agbada.visibleCols_perm _ _).trans (Agbada.visibleCols_perm _ grid)).map
        _).nodup_iff.2 hda
    · exact Agbada.visibleCols_high_sorted _
    · exact List.pairwise_reverse.2 (Agbada.visibleCols_low_sorted grid)

/-- Witness for C4: the sample grid (prices 300, 100, 200) and the sample Agbada grid
(visible prices 45000 and 60000). -/
theorem price_high_reverses_price_low_witness :
    Collection.visibleCells
        (Collection.sortChange Collection.asciiLower "price-high" Collection.sampleContainer)
      = (Collection.visibleCells (Collection.sortChange Collection.asciiLower "price-low"
          Collection.sampleContainer)).reverse ∧
    (Collection.visibleCells (Collection.sortChange Collection.asciiLower "price-high"
        Collection.sampleContainer)).map Collection.priceOfCol
      = [JsNumber.fin 300, JsNumber.fin 200, JsNumber.fin 100] ∧
    Agbada.visibleCols (Agbada.sortChange "price-high" Agbada.sampleGrid)
      = (Agbada.visibleCols (Agbada.sortChange "price-low" Agbada.sampleGrid)).reverse :=
  have h := price_high_reverses_price_low Collection.asciiLower Collection.sampleContainer
    Agbada.sampleGrid (by decide) (by decide) (by decide)
  ⟨h.1, by decide, h.2.2.1⟩

/-- C5: after a click on a filter control whose tag is `all`, every product column of
the generalised controller has display `''` (so not `'none'`) whatever it was before,
and the grid holds the same cards; after such a click on the Agbada page every product
card has display `''` and has lost the class `d-none`, and the cards are the same. -/
theorem filter_all_shows_every_card (lower : String → String) (c : Collection.Container)
    (pg : Agbada.Page) (i j : Nat) (btn btn2 : FilterButton)
    (hb : c.filterBtns[i]? = some btn) (ha : btn.dataFilter = "all")
    (hb2 : pg.filterButtons[j]? = some btn2) (ha2 : btn2.dataFilter = "all") :
    (∀ col ∈ Collection.getColumns (Collection.filterClick lower i c),
      col.display = "" ∧ col.display ≠ "none") ∧
    ((Collection.getColumns (Collection.filterClick lower i c)).map Collection.Col.card).Perm
      ((Collection.getColumns c).map Collection.Col.card) ∧
    (∀ p ∈ (Agbada.filterClick j pg).products,
      p.display = "" ∧ p.display ≠ "none" ∧ p.dNone = false) ∧
    (Agbada.filterClick j pg).products
      = pg.products.map (fun p => { p with display := "", dNone := false }) := by
  refine ⟨?_, Collection.filterClick_cards lower i c, ?_, ?_⟩
  · intro col hcol
    have hd := Collection.filterClick_display lower i c btn hb col hcol
    have hcolumn : Collection.isColumn col = true := by
      unfold Collection.getColumns at hcol
      split at hcol
      · exact (List.mem_filter.1 hcol).2
      · simp at hcol
    rw [ha, Collection.matchesFilter_all lower col hcolumn] at hd
    simp only [if_true] at hd
    rw [hd]
    exact ⟨rfl, by decide⟩
  · intro p hp
    rw [Agbada.filterClick_products j pg btn2 hb2, ha2] at hp
    obtain ⟨q, _, rfl⟩ := List.mem_map.1 hp
    rw [Agbada.applyFilter_all]
    have hne : ("" : String) ≠ "none" := by decide
    exact ⟨rfl, hne, rfl⟩
  · rw [Agbada.filterClick_products j pg btn2 hb2, ha2]
    exact List.map_congr_left (fun p _ => Agbada.applyFilter_all p)

/-- Witness for C5: a click on the control `all` of the sample grid, whose second
product column was hidden, and of the sample Agbada page, whose second card was hidden. -/
theorem filter_all_shows_every_card_witness :
    (∀ col ∈ Collection.getColumns
        (Collection.filterClick Collection.asciiLower 0 Collection.sampleContainer),
      col.display = "" ∧ col.display ≠ "none") ∧
    (∀ p ∈ (Agbada.filterClick 0 Agbada.samplePage).products,
      p.display = "" ∧ p.display ≠ "none" ∧ p.dNone = false) :=
  have h := filter_all_shows_every_card Collection.asciiLower Collection.sampleContainer
    Agbada.samplePage 0 0 ⟨"all", true⟩ ⟨"all", true⟩ (by decide) (by decide) (by decide)
    (by decide)
  ⟨h.1, h.2.2.1⟩

/-- C6 (as amended): after a click on a filter control whose tag `t` is not `all`, a
product column of the generalised controller is visible exactly when the lower-cased
`t` is among the lower-cased pieces of the card's `data-category`, and hidden
otherwise; on the Agbada page, when `t` is not empty, a card is visible exactly when `t`
is among the non-empty pieces of its `data-category`, and hidden otherwise, while a
control with an empty tag shows every card. -/
theorem filter_tag_visibility (lower : String → String) (c : Collection.Container)
    (pg : Agbada.Page) (i j : Nat) (btn btn2 : FilterButton)
    (hb : c.filterBtns[i]? = some btn) (ht : btn.dataFilter ≠ "all")
    (hb2 : pg.filterButtons[j]? = some btn2) (ht2 : btn2.dataFilter ≠ "all") :
    (∀ col ∈ Collection.getColumns (Collection.filterClick lower i c),
      ∀ card, col.card = some card →
        (col.display ≠ "none" ↔ lower btn.dataFilter ∈ Collection.cats lower card) ∧
        (col.display = "none" ↔ lower btn.dataFilter ∉ Collection.cats lower card)) ∧
    ((Collection.getColumns (Collection.filterClick lower i c)).map Collection.Col.card).Perm
      ((Collection.getColumns c).map Collection.Col.card) ∧
    (Agbada.filterClick j pg).products
      = pg.products.map (Agbada.applyFilter btn2.dataFilter) ∧
    (btn2.dataFilter ≠ "" → ∀ p : Agbada.Product,
      ((Agbada.applyFilter btn2.dataFilter p).display ≠ "none"
        ↔ btn2.dataFilter ∈ Agbada.cats p) ∧
      ((Agbada.applyFilter btn2.dataFilter p).display = "none"
        ↔ btn2.dataFilter ∉ Agbada.cats p)) ∧
    (btn2.dataFilter = "" → ∀ p : Agbada.Product,
      (Agbada.applyFilter btn2.dataFilter p).display = "") := by
  refine ⟨?_, Collection.filterClick_cards lower i c,
    Agbada.filterClick_products j pg btn2 hb2, ?_, ?_⟩
  · intro col hcol card hcard
    have hd := Collection.filterClick_display lower i c btn hb col hcol
    have hm : Collection.matchesFilter lower btn.dataFilter col
        = decide (lower btn.dataFilter ∈ Collection.cats lower card) := by
      unfold Collection.matchesFilter
      rw [hcard]
      simp [ht]
    rw [hm] at hd
    by_cases hin : lower btn.dataFilter ∈ Collection.cats lower card
    · simp only [hin, decide_True, if_true] at hd
      rw [hd]
      exact ⟨⟨fun _ => hin, fun _ => empty_ne_none⟩,
        ⟨fun h => absurd h empty_ne_none, fun h => absurd hin h⟩⟩
    · simp only [hin, decide_False, Bool.false_eq_true, if_false] at hd
      rw [hd]
      exact ⟨⟨fun h => absurd rfl h, fun h => absurd h hin⟩, ⟨fun _ => hin, fun _ => rfl⟩⟩
  · intro hne p
    have hd := (Agbada.applyFilter_display btn2.dataFilter p).1
    have hs : Agbada.shows btn2.dataFilter p = decide (btn2.dataFilter ∈ Agbada.cats p) := by
      unfold Agbada.shows
      simp [hne, ht2]
    rw [hs] at hd
    by_cases hin : btn2.dataFilter ∈ Agbada.cats p
    · simp only [hin, decide_True, if_true] at hd
      rw [hd]
      exact ⟨⟨fun _ => hin, fun _ => empty_ne_none⟩,
        ⟨fun h => absurd h empty_ne_none, fun h => absurd hin h⟩⟩
    · simp only [hin, decide_False, Bool.false_eq_true, if_false] at hd
      rw [hd]
      exact ⟨⟨fun h => absurd rfl h, fun h => absurd h hin⟩, ⟨fun _ => hin, fun _ => rfl⟩⟩
  · intro he p
    have hd := (Agbada.applyFilter_display btn2.dataFilter p).1
    have hs : Agbada.shows btn2.dataFilter p = true := by
      unfold Agbada.shows
      simp [he]
    rw [hs] at hd
    simpa using hd

/-- Witness for C6: a click on the control `Men` of the sample grid and on the control
`royal` of the sample Agbada page. -/
theorem filter_tag_visibility_witness :
    (Collection.getColumns
        (Collection.filterClick Collection.asciiLower 1 Collection.sampleContainer)).map
      Collection.Col.display = ["none", "", ""] ∧
    (Agbada.filterClick 1 Agbada.samplePage).products.map Agbada.Product.display
      = ["none", "", "none"] ∧
    (Agbada.filterClick 1 Agbada.samplePage).products
      = Agbada.samplePage.products.map (Agbada.applyFilter "royal") :=
  ⟨by decide, by decide,
    (filter_tag_visibility Collection.asciiLower Collection.sampleContainer Agbada.samplePage
      1 1 ⟨"Men", false⟩ ⟨"royal", false⟩ (by decide) (by decide) (by decide)
      (by decide)).2.2.1⟩

/-- Counterexample to C6 as stated: in the generalised controller the control `Men`
shows a card whose tag list is `men`, which does not contain `Men`; on the Agbada page
a control with an empty tag shows a card whose tag list `royal` does not contain the
empty tag. -/
theorem filter_tag_counterexample :
    "Men" ∉ splitWs "men" ∧
    (Collection.getColumns (Collection.filterClick Collection.asciiLower 0
      ⟨some [⟨true, some ⟨some "men", Option.none, Option.none, Option.none, Option.none⟩,
        "none"⟩], [⟨"Men", false⟩], Option.none⟩)).map Collection.Col.display = [""] ∧
    "" ∉ Agbada.cats ⟨some "royal", Option.none, Option.none, "none", true⟩ ∧
    (Agbada.filterClick 0 ⟨[⟨"", false⟩],
      [⟨some "royal", Option.none, Option.none, "none", true⟩]⟩).products.map
        Agbada.Product.display = [""] := by
  decide

/-- C7: when the card has a size selector whose value is empty, the order handlers of
the Agbada page, of the casual-wear page and of the generalised controller open no
address (no call of `window.open`, no navigation), and the size selector carries
`is-invalid` when the handler returns; only the removal of the class is scheduled. -/
theorem order_without_size_aborts (btn : OrderBtn) (card card2 : OrderCard)
    (sel sel2 : SizeSelect)
    (hsel : Agbada.sizeSelectOf card = some sel) (hv : sel.value = "")
    (hsel2 : card2.sizeSelect = some sel2) (hv2 : sel2.value = "") :
    (Agbada.orderClick btn card).effects.opened = [] ∧
    Agbada.sizeSelectOf (Agbada.orderClick btn card).card
      = some { sel with invalid := true, focused := true } ∧
    (Casual.orderClick btn card).effects.opened = [] ∧
    Agbada.sizeSelectOf (Casual.orderClick btn card).card
      = some { sel with invalid := true, focused := true } ∧
    (Collection.orderClick btn card2).effects.opened = [] ∧
    (Collection.orderClick btn card2).card.sizeSelect = some { sel2 with invalid := true } := by
  have hsize : Agbada.sizeOf card = "" := by
    unfold Agbada.sizeOf; rw [hsel]; simp only []; rw [hv]; exact trim_empty
  refine ⟨?_, ?_, ?_, ?_, ?_, ?_⟩
  · unfold Agbada.orderClick; rw [hsel]; simp only [hsize, if_true]
  · unfold Agbada.orderClick; rw [hsel]; simp only [hsize, if_true]
    exact sizeSelectOf_storeSize card _
  · unfold Casual.orderClick; rw [hsel]; simp only [hsize, if_true]
  · unfold Casual.orderClick; rw [hsel]; simp only [hsize, if_true]
    exact sizeSelectOf_storeSize card _
  · unfold Collection.orderClick; rw [hsel2]; simp only [hv2, if_true]
  · unfold Collection.orderClick; rw [hsel2]; simp only [hv2, if_true]

/-- Witness for C7: an order click on the sample card on which no size is chosen. -/
theorem order_without_size_aborts_witness :
    (Agbada.orderClick ⟨Option.none⟩ sampleCardNoSize).effects.opened = [] ∧
    Agbada.sizeSelectOf (Agbada.orderClick ⟨Option.none⟩ sampleCardNoSize).card
      = some ⟨"", true, true⟩ ∧
    (Collection.orderClick ⟨Option.none⟩ sampleCardNoSize).effects.opened = [] ∧
    (Collection.orderClick ⟨Option.none⟩ sampleCardNoSize).card.sizeSelect
      = some ⟨"", true, false⟩ :=
  have h := order_without_size_aborts ⟨Option.none⟩ sampleCardNoSize sampleCardNoSize
    ⟨"", false, false⟩ ⟨"", false, false⟩ (by decide) (by decide) (by decide) (by decide)
  ⟨h.1, h.2.1, h.2.2.2.2.1, h.2.2.2.2.2⟩

/-- C8 (as amended): for a valid card the order handler opens the one address
`'https://wa.me/' + P + '?text=' + E`, where `E` is the encoding of a message that
contains the title read from the card.  On the Agbada page `P` is the encoding of the
`data-phone` override as it is written when one is set and non-empty, and else of the
default contact `2348136754060`; it is the number itself when that consists of digits.
On the casual-wear page `P` is the normalised override (or default), a string of
digits: the digits of the override unchanged when they are at least 10 and do not begin
with `0`, and the default contact without an override. -/
theorem order_url (btn : OrderBtn) (card : OrderCard) (h : ValidCard card) :
    (Agbada.orderClick btn card).effects.opened
      = ["https://wa.me/" ++ encodeURIComponent (phoneOf btn defaultPhone) ++ "?text="
          ++ encodeURIComponent (Agbada.orderMessage card)] ∧
    ((∀ ch ∈ (phoneOf btn defaultPhone).data, isDigit ch = true) →
      encodeURIComponent (phoneOf btn defaultPhone) = phoneOf btn defaultPhone) ∧
    (Agbada.titleOf card).data <:+: (Agbada.orderMessage card).data ∧
    (Casual.orderClick btn card).effects.opened
      = ["https://wa.me/" ++ Casual.contactOf btn ++ "?text="
          ++ encodeURIComponent (Casual.orderMessage card)] ∧
    (∀ ch ∈ (Casual.contactOf btn).data, isDigit ch = true) ∧
    (Casual.titleOf card).data <:+: (Casual.orderMessage card).data ∧
    (∀ p, btn.dataPhone = some p → 10 ≤ (stripNonDigits p).length →
      (stripNonDigits p).head? ≠ some '0' → Casual.contactOf btn = String.mk (stripNonDigits p)) ∧
    (btn.dataPhone = Option.none ∨ btn.dataPhone = some "" →
      phoneOf btn defaultPhone = "2348136754060" ∧ Casual.contactOf btn = "2348136754060") := by
  refine ⟨?_, encodeURIComponent_digits _, ?_, ?_, contactOf_digits btn, ?_, ?_, ?_⟩
  · rw [agbada_orderClick_valid btn card h]; rfl
  · obtain ⟨mid, hmid, _, _⟩ := agbada_orderParts_shape (Agbada.titleOf card)
      (Agbada.variantOf card) (Agbada.sizeOf card) (Agbada.priceOf card) (Agbada.customOf card)
    have hparts : Agbada.partsOf card
        = ("Hello, I am interested in: " ++ Agbada.titleOf card)
          :: (mid ++ [Agbada.closing]) := hmid
    obtain ⟨rest, hr⟩ := join_cons_eq " | " ("Hello, I am interested in: " ++ Agbada.titleOf card)
      (mid ++ [Agbada.closing])
    unfold Agbada.orderMessage
    rw [hparts, hr]
    exact infix_of_greeting _ _
  · rw [casual_orderClick_valid btn card h]
    exact casual_open_contact btn card
  · obtain ⟨⟨rest, hr⟩, _⟩ := casual_message_shape card
    rw [hr]
    exact infix_of_greeting _ _
  · intro p hp hlen hhead
    have hne : p ≠ "" := by
      intro he; subst he
      have : (stripNonDigits "").length = 0 := by decide
      omega
    have hph : phoneOf btn "2348136754060" = p := by
      unfold phoneOf; rw [hp]; simp [hne]
    have hnil : stripNonDigits p ≠ [] := by
      intro he; rw [he] at hlen; simp at hlen
    unfold Casual.contactOf Casual.normalizePhone
    rw [hph]
    simp [hne, hnil, hlen, hhead]
  · intro hnone
    have hph : phoneOf btn defaultPhone = "2348136754060" := by
      unfold phoneOf
      rcases hnone with h1 | h1 <;> rw [h1] <;> rfl
    refine ⟨hph, ?_⟩
    unfold Casual.contactOf
    have hph2 : phoneOf btn "2348136754060" = "2348136754060" := hph
    rw [hph2]
    decide

/-- Witness for C8: an order click on the sample card through a control whose override
is a plain international number. -/
theorem order_url_witness :
    (Agbada.orderClick ⟨some "2348012345678"⟩ sampleCard).effects.opened
      = ["https://wa.me/" ++ encodeURIComponent (phoneOf ⟨some "2348012345678"⟩ defaultPhone)
          ++ "?text=" ++ encodeURIComponent (Agbada.orderMessage sampleCard)] ∧
    encodeURIComponent (phoneOf ⟨some "2348012345678"⟩ defaultPhone) = "2348012345678" ∧
    Casual.contactOf ⟨some "2348012345678"⟩ = "2348012345678" :=
  have h := order_url ⟨some "2348012345678"⟩ sampleCard (by decide)
  ⟨h.1, h.2.1 (by decide), h.2.2.2.2.2.2.1 "2348012345678" rfl (by decide) (by decide)⟩

/-- Counterexample to C8 as stated: on the Agbada page the override `+234 813 675 4060`
goes into the address encoded as it is written, `%2B234%20813%20675%204060`, not as its
digits `2348136754060`; on the casual-wear page the override `0813 675 4060`, whose
digits are `08136754060`, gives the contact `2348136754060`. -/
theorem order_url_counterexample :
    (Agbada.orderClick ⟨some "+234 813 675 4060"⟩ sampleCard).effects.opened
      = ["https://wa.me/%2B234%20813%20675%204060?text="
          ++ encodeURIComponent (Agbada.orderMessage sampleCard)] ∧
    String.mk (stripNonDigits "+234 813 675 4060") = "2348136754060" ∧
    (Casual.orderClick ⟨some "0813 675 4060"⟩ sampleCard).effects.opened
      = ["https://wa.me/2348136754060?text="
          ++ encodeURIComponent (Casual.orderMessage sampleCard)] ∧
    String.mk (stripNonDigits "0813 675 4060") = "08136754060" := by
  refine ⟨?_, by decide, ?_, by decide⟩
  · rw [agbada_orderClick_valid _ _ (by decide)]
    have hp : "https://wa.me/"
        ++ encodeURIComponent (phoneOf ⟨some "+234 813 675 4060"⟩ defaultPhone) ++ "?text="
        = "https://wa.me/%2B234%20813%20675%204060?text=" := by decide
    simp only [Agbada.openWhatsApp, hp]
  · rw [casual_orderClick_valid _ _ (by decide), casual_open_contact]
    have hp : "https://wa.me/" ++ Casual.contactOf ⟨some "0813 675 4060"⟩ ++ "?text="
        = "https://wa.me/2348136754060?text=" := by decide
    simp only [hp]

/-- C9: for a valid card the Agbada order handler opens one address, built from the
message `parts.join(' | ')`; the parts are, in this order, the greeting naming the
title, `Variant: v` exactly when the variant is non-empty, `Size: s` exactly when the
size is non-empty, `Price: p` exactly when the price is non-empty,
`Measurements/Notes: c` exactly when the notes are non-empty, and the closing request.
So the first part is the greeting, the last is the closing request, there are between
2 and 6 parts, and the message begins with the greeting and ends with the closing
request. -/
theorem agbada_order_message (btn : OrderBtn) (card : OrderCard) (h : ValidCard card) :
    (Agbada.orderClick btn card).effects.opened
      = [Agbada.openWhatsApp (phoneOf btn defaultPhone) (join " | " (Agbada.partsOf card))] ∧
    Agbada.partsOf card
      = Agbada.specFragments (Agbada.titleOf card) (Agbada.variantOf card)
          (Agbada.sizeOf card) (Agbada.priceOf card) (Agbada.customOf card) ∧
    (Agbada.partsOf card).head? = some ("Hello, I am interested in: " ++ Agbada.titleOf card) ∧
    (Agbada.partsOf card).getLast? = some Agbada.closing ∧
    2 ≤ (Agbada.partsOf card).length ∧ (Agbada.partsOf card).length ≤ 6 ∧
    (∃ rest, Agbada.orderMessage card
      = ("Hello, I am interested in: " ++ Agbada.titleOf card) ++ rest) ∧
    (∃ front, Agbada.orderMessage card = front ++ Agbada.closing) := by
  obtain ⟨mid, hmid, hlen, _⟩ := agbada_orderParts_shape (Agbada.titleOf card)
    (Agbada.variantOf card) (Agbada.sizeOf card) (Agbada.priceOf card) (Agbada.customOf card)
  have hparts : Agbada.partsOf card
      = ("Hello, I am interested in: " ++ Agbada.titleOf card) :: (mid ++ [Agbada.closing]) :=
    hmid
  refine ⟨?_, ?_, ?_, ?_, ?_, ?_, ?_, ?_⟩
  · rw [agbada_orderClick_valid btn card h]; rfl
  · unfold Agbada.partsOf Agbada.orderParts Agbada.specFragments
    by_cases hv : Agbada.variantOf card = "" <;> by_cases hs : Agbada.sizeOf card = "" <;>
      by_cases hp : Agbada.priceOf card = "" <;> by_cases hc : Agbada.customOf card = "" <;>
      simp [hv, hs, hp, hc]
  · rw [hparts]; rfl
  · rw [hparts, ← List.cons_append, List.getLast?_concat]
  · rw [hparts]; simp
  · rw [hparts]; simp; omega
  · unfold Agbada.orderMessage
    rw [hparts]
    exact join_cons_eq _ _ _
  · unfold Agbada.orderMessage
    rw [hparts, ← List.cons_append]
    exact join_concat_eq _ _ _

/-- Witness for C9: the sample card with size `XL`, a colour and a note gives all six
parts. -/
theorem agbada_order_message_witness :
    Agbada.partsOf sampleCard
      = ["Hello, I am interested in: Royal Agbada", "Variant: Blue", "Size: XL",
         "Price: ₦45,000", "Measurements/Notes: sleeve 25in", Agbada.closing] ∧
    (Agbada.orderClick ⟨Option.none⟩ sampleCard).effects.opened
      = [Agbada.openWhatsApp (phoneOf ⟨Option.none⟩ defaultPhone)
          (join " | " (Agbada.partsOf sampleCard))] :=
  ⟨by decide, (agbada_order_message ⟨Option.none⟩ sampleCard (by decide)).1⟩

/-- C10: when `normalizePhone` fails on the number, `openWhatsApp` of the casual-wear
script still builds one address, and it is `https://wa.me/2348136754060` followed by
the text parameter (`?text=` and the encoded trimmed message, or nothing for a blank
message); it logs one warning.  In particular an order click on a valid card through a
control with a malformed override opens
`https://wa.me/2348136754060?text=` followed by the encoded order message. -/
theorem casual_fallback_url (phone message : String) (btn : OrderBtn) (card : OrderCard)
    (h : Casual.normalizePhone phone = Option.none) :
    (Casual.openWhatsApp phone message).opened
      = ["https://wa.me/2348136754060"
          ++ (if encodeURIComponent (trim message) = "" then ""
              else "?text=" ++ encodeURIComponent (trim message))] ∧
    (Casual.openWhatsApp phone message).warnings
      = ["Invalid phone provided for WhatsApp; using fallback: 2348136754060"] ∧
    (ValidCard card → Casual.normalizePhone (phoneOf btn "2348136754060") = Option.none →
      (Casual.orderClick btn card).effects.opened
        = ["https://wa.me/2348136754060?text="
            ++ encodeURIComponent (Casual.orderMessage card)]) := by
  refine ⟨?_, ?_, ?_⟩
  · unfold Casual.openWhatsApp
    rw [h]
    rfl
  · unfold Casual.openWhatsApp
    rw [h]
  · intro hv hn
    rw [casual_orderClick_valid btn card hv, casual_open_contact]
    have hc : Casual.contactOf btn = "2348136754060" := by
      unfold Casual.contactOf; rw [hn]
    rw [hc]
    rfl

/-- Witness for C10: the override `12345` is too short to normalise. -/
theorem casual_fallback_url_witness :
    Casual.normalizePhone "12345" = Option.none ∧
    (Casual.openWhatsApp "12345" "hi there").opened
      = ["https://wa.me/2348136754060?text=hi%20there"] ∧
    (Casual.orderClick ⟨some "12345"⟩ sampleCard).effects.opened
      = ["https://wa.me/2348136754060?text="
          ++ encodeURIComponent (Casual.orderMessage sampleCard)] :=
  have h := casual_fallback_url "12345" "hi there" ⟨some "12345"⟩ sampleCard (by decide)
  ⟨by decide, h.1.trans (by decide), h.2.2 (by decide) (by decide)⟩

/-- Claim C11, at a grid on which it fails.  The row holds a `men` cell followed by a
`women` cell, the control `men` is active and the sort mode is the default `popular`.
After `applyFilters` of `wrapperSets.js` the hidden `women` cell comes first and the
`men` cell second: the visible cell has been re-appended behind the hidden one.  The
same happens to the two cards of a grid under `applyFilters` of `Geleset.js`. -/
theorem popular_reorders_cells :
    Collection.sortVal Collection.popularContainer = "popular" ∧
    Collection.popularContainer.row
      = some [⟨true, some ⟨some "men", some "300", Option.none, Option.none, Option.none⟩, ""⟩,
              ⟨true, some ⟨some "women", some "200", Option.none, Option.none, Option.none⟩, ""⟩] ∧
    (Collection.applyFilters Collection.asciiLower Collection.popularContainer).row
      = some [⟨true, some ⟨some "women", some "200", Option.none, Option.none, Option.none⟩, "none"⟩,
              ⟨true, some ⟨some "men", some "300", Option.none, Option.none, Option.none⟩, ""⟩] ∧
    Geleset.sortVal Geleset.popularPage = "popular" ∧
    (Geleset.getProducts Geleset.popularPage.grid).map (fun p => p.card.category)
      = [some "men", some "women"] ∧
    (Geleset.getProducts
        (Geleset.applyFilters Collection.asciiLower Geleset.popularPage).grid).map
        (fun p => p.card.category)
      = [some "women", some "men"] := by
  refine ⟨rfl, rfl, ?_, rfl, rfl, ?_⟩ <;> decide

/-- Claim C12, at a grid on which it fails.  Each of the two cards sits in its own
wrapper.  After `applyFilters` of `Geleset.js` in the mode `price-low` both wrappers are
empty and the two cards are children of the grid itself, behind the wrappers: the sort
has re-appended the card nodes, not their wrappers. -/
theorem geleset_sort_moves_cards_out :
    Geleset.wrappedPage.grid
      = [Geleset.Node.wrapper
          [⟨⟨some "men", some "300", Option.none, Option.none, Option.none⟩, "", Option.none⟩],
         Geleset.Node.wrapper
          [⟨⟨some "women", some "200", Option.none, Option.none, Option.none⟩, "", Option.none⟩]] ∧
    (Geleset.applyFilters Collection.asciiLower Geleset.wrappedPage).grid
      = [Geleset.Node.wrapper [], Geleset.Node.wrapper [],
         Geleset.Node.card
          ⟨⟨some "women", some "200", Option.none, Option.none, Option.none⟩, "", Option.none⟩,
         Geleset.Node.card
          ⟨⟨some "men", some "300", Option.none, Option.none, Option.none⟩, "", Option.none⟩] := by
  refine ⟨rfl, ?_⟩
  decide

/-- C13: for every run of filter clicks that ends with a click on an existing control,
the generalised controller shows the same cards (as a multiset) as after that last
click alone, the grid still holds every card, and each product column is visible exactly
when it matches the tag of the last control; on the Agbada page the cards after the run
are, one by one, those after the last click alone. -/
theorem filter_clicks_last_wins (lower : String → String) (c : Collection.Container)
    (is : List Nat) (i : Nat) (btn : FilterButton) (hb : c.filterBtns[i]? = some btn)
    (pg : Agbada.Page) (js : List Nat) (j : Nat) (btn2 : FilterButton)
    (hb2 : pg.filterButtons[j]? = some btn2) :
    (Collection.visibleCards (Collection.filterClicks lower (is ++ [i]) c)).Perm
      (Collection.visibleCards (Collection.filterClick lower i c)) ∧
    (Collection.cardsOf (Collection.filterClicks lower (is ++ [i]) c)).Perm
      (Collection.cardsOf c) ∧
    (∀ col ∈ Collection.getColumns (Collection.filterClicks lower (is ++ [i]) c),
      col.display = if Collection.matchesFilter lower btn.dataFilter col then "" else "none") ∧
    (Agbada.filterClicks (js ++ [j]) pg).products = (Agbada.filterClick j pg).products := by
  obtain ⟨_, h2, _, h4⟩ := Collection.filterClicks_frame lower is c
  obtain ⟨b1, hb1, hd1⟩ := getElem_of_map_dataFilter _ _ h2 i btn hb
  refine ⟨?_, Collection.filterClicks_frame lower (is ++ [i]) c |>.2.2.2, ?_, ?_⟩
  · rw [Collection.filterClicks_append]
    refine (Collection.visibleCards_filterClick lower i _ b1 hb1).trans ?_
    rw [hd1]
    exact (h4.filter _).trans (Collection.visibleCards_filterClick lower i c btn hb).symm
  · rw [Collection.filterClicks_append]
    intro col hcol
    have hd := Collection.filterClick_display lower i _ b1 hb1 col hcol
    rwa [hd1] at hd
  · obtain ⟨g1, g2⟩ := Agbada.page_filterClicks_frame js pg
    obtain ⟨b3, hb3, hd3⟩ := getElem_of_map_dataFilter _ _ g1 j btn2 hb2
    rw [Agbada.page_filterClicks_append, Agbada.filterClick_products j _ b3 hb3,
      Agbada.filterClick_products j pg btn2 hb2, hd3]
    exact g2 btn2.dataFilter

/-- Witness for C13: on the sample grid and the sample Agbada page, a click on the
second control followed by a click on the control `all`. -/
theorem filter_clicks_last_wins_witness :
    (Collection.visibleCards
        (Collection.filterClicks Collection.asciiLower ([1] ++ [0]) Collection.sampleContainer)).Perm
      (Collection.visibleCards
        (Collection.filterClick Collection.asciiLower 0 Collection.sampleContainer)) ∧
    (Agbada.filterClicks ([1] ++ [0]) Agbada.samplePage).products
      = (Agbada.filterClick 0 Agbada.samplePage).products :=
  have h := filter_clicks_last_wins Collection.asciiLower Collection.sampleContainer [1] 0
    ⟨"all", true⟩ (by decide) Agbada.samplePage [1] 0 ⟨"all", true⟩ (by decide)
  ⟨h.1, h.2.2.2⟩

/-- C14: after a click on an existing filter control (whatever clicks came before, and
whatever marks the controls carried at the start), the clicked control is marked active
and no other control of the controller is, on the generalised controller and on the
Agbada page alike; so at most one control is marked active. -/
theorem click_marks_one_control (lower : String → String) (c : Collection.Container)
    (row : List Collection.Col) (hrow : c.row = some row) (is : List Nat) (i : Nat)
    (hi : i < c.filterBtns.length)
    (pg : Agbada.Page) (js : List Nat) (j : Nat) (hj : j < pg.filterButtons.length) :
    (∀ k b, (Collection.filterClicks lower (is ++ [i]) c).filterBtns[k]? = some b →
      (b.active = true ↔ k = i)) ∧
    (∃ b, (Collection.filterClicks lower (is ++ [i]) c).filterBtns[i]? = some b ∧
      b.active = true) ∧
    (∀ k b, (Agbada.filterClicks (js ++ [j]) pg).filterButtons[k]? = some b →
      (b.active = true ↔ k = j)) ∧
    (∃ b, (Agbada.filterClicks (js ++ [j]) pg).filterButtons[j]? = some b ∧
      b.active = true) := by
  obtain ⟨h1, h2, _, _⟩ := Collection.filterClicks_frame lower is c
  have hlen := length_of_map_dataFilter _ _ h2
  have hi1 : i < (Collection.filterClicks lower is c).filterBtns.length := by rw [hlen]; exact hi
  have hrow1 : ∃ r, (Collection.filterClicks lower is c).row = some r := by
    rw [hrow] at h1
    exact Option.isSome_iff_exists.1 h1
  obtain ⟨r, hr⟩ := hrow1
  have hbt := Collection.filterClick_btns lower i _ r hr hi1
  obtain ⟨g1, _⟩ := Agbada.page_filterClicks_frame js pg
  have hj1 : j < (Agbada.filterClicks js pg).filterButtons.length := by
    rw [length_of_map_dataFilter _ _ g1]; exact hj
  have hbt2 := Agbada.page_filterClick_btns j _ hj1
  rw [Collection.filterClicks_append, Agbada.page_filterClicks_append, hbt, hbt2]
  refine ⟨fun k b hk => activate_active _ i hi1 k b hk, ?_,
    fun k b hk => activate_active _ j hj1 k b hk, ?_⟩
  · have hl : i < (activate i (Collection.filterClicks lower is c).filterBtns).length := by
      rw [activate_length]; exact hi1
    exact ⟨_, List.getElem?_eq_getElem hl,
      (activate_active _ i hi1 i _ (List.getElem?_eq_getElem hl)).2 rfl⟩
  · have hl : j < (activate j (Agbada.filterClicks js pg).filterButtons).length := by
      rw [activate_length]; exact hj1
    exact ⟨_, List.getElem?_eq_getElem hl,
      (activate_active _ j hj1 j _ (List.getElem?_eq_getElem hl)).2 rfl⟩

/-- Witness for C14: on the sample grid and the sample Agbada page, whose control `all`
is marked at the start, a click on the second control. -/
theorem click_marks_one_control_witness :
    (∀ k b, (Collection.filterClicks Collection.asciiLower ([] ++ [1])
        Collection.sampleContainer).filterBtns[k]? = some b → (b.active = true ↔ k = 1)) ∧
    (∀ k b, (Agbada.filterClicks ([] ++ [1]) Agbada.samplePage).filterButtons[k]? = some b →
      (b.active = true ↔ k = 1)) :=
  have h := click_marks_one_control Collection.asciiLower Collection.sampleContainer _ rfl
    [] 1 (by decide) Agbada.samplePage [] 1 (by decide)
  ⟨h.1, h.2.2.1⟩

/-- C15 (as amended): `safeLoadMore` appends to the end of the row the copies of the
first `min(4, n)` product columns, `n` being the number of columns holding a card (none
when `n = 0`).  In every appended cell no element below the wrapper carries an `id` and
every size select is empty; the wrapper itself keeps the `id` of the column it copies. -/
theorem safeLoadMore_appends_clones (row : List Collection.Cell) :
    Collection.safeLoadMore row
      = row ++ ((Collection.cellColumns row).take 4).map Collection.cloneCol ∧
    (((Collection.cellColumns row).take 4).map Collection.cloneCol).length
      = min 4 (Collection.cellColumns row).length ∧
    (∀ cl ∈ ((Collection.cellColumns row).take 4).map Collection.cloneCol,
      ∀ el ∈ cl.inner, el.id = Option.none ∧ (el.sizeSelect = true → el.value = "")) ∧
    (∀ col : Collection.Cell, (Collection.cloneCol col).id = col.id ∧
      (Collection.cloneCol col).col = col.col ∧
      (Collection.cloneCol col).inner.length = col.inner.length) := by
  refine ⟨?_, ?_, ?_, ?_⟩
  · unfold Collection.safeLoadMore
    simp only []
    split
    · rename_i h
      rw [h]; simp
    · congr 2
      rw [Nat.min_def]
      split
      · rfl
      · rename_i h
        rw [List.take_of_length_le (Nat.le_of_lt (Nat.lt_of_not_le h)), List.take_length]
  · rw [List.length_map, List.length_take]
  · intro cl hcl el hel
    obtain ⟨col, _, rfl⟩ := List.mem_map.1 hcl
    unfold Collection.cloneCol Collection.resetSizes Collection.removeIds at hel
    simp only [List.map_map] at hel
    obtain ⟨e0, _, rfl⟩ := List.mem_map.1 hel
    simp only [Function.comp]
    split
    · exact ⟨rfl, fun _ => rfl⟩
    · rename_i hs
      exact ⟨rfl, fun h => absurd h hs⟩
  · intro col
    unfold Collection.cloneCol Collection.resetSizes Collection.removeIds
    simp

/-- C15 as stated fails on the sample row: the first appended cell copies a column
whose wrapper carries the id `first`, and the copy carries it too (the ids below the
wrapper are gone and the size select is empty). -/
theorem safeLoadMore_keeps_wrapper_id :
    Collection.safeLoadMore Collection.sampleCells
      = Collection.sampleCells ++
        [⟨⟨true, some ⟨some "men", some "300", Option.none, Option.none, Option.none⟩, ""⟩,
            some "first", [⟨Option.none, false, ""⟩, ⟨Option.none, true, ""⟩]⟩,
         ⟨⟨true, some ⟨some "women", some "200", Option.none, Option.none, Option.none⟩, "none"⟩,
            Option.none, [⟨Option.none, true, ""⟩]⟩] := by
  decide

/-- C16 (as amended): once the delayed load-more action has run, the control of the
generalised controller is enabled and shows its saved text, whatever the grid holds;
the control of `iro-and-buba.js` is enabled exactly when the grid holds a product column
and otherwise is disabled and shows `No more items`; the control of `Geleset.js` is
enabled when the grid holds a product card and otherwise keeps its `disabled` state and
shows `No more items`. -/
theorem load_more_control_after_action (original : String) (c : Collection.LoadContainer)
    (row : List Collection.Cell) (btn : LoadBtn) (hrow : c.row = some row)
    (hbtn : c.loadMoreBtn = some btn) (pg : Iro.Page) (gp : Geleset.Page) (btn2 : LoadBtn)
    (hbtn2 : gp.loadMoreBtn = some btn2) :
    (Collection.loadMoreAction original c).loadMoreBtn = some ⟨false, original⟩ ∧
    (Collection.loadMoreAction original c).row = some (Collection.safeLoadMore row) ∧
    (Iro.loadMoreAction original pg).loadMoreBtn
      = (if Collection.cellColumns pg.row = [] then ⟨true, "No more items"⟩
         else ⟨false, original⟩) ∧
    (Geleset.loadMoreAction gp).loadMoreBtn
      = some (if Geleset.getProducts gp.grid = [] then ⟨btn2.disabled, "No more items"⟩
         else ⟨false, "Load more"⟩) := by
  refine ⟨?_, ?_, ?_, ?_⟩
  · unfold Collection.loadMoreAction; rw [hrow, hbtn]
  · unfold Collection.loadMoreAction; rw [hrow, hbtn]
  · unfold Iro.loadMoreAction
    simp only []
    split <;> rfl
  · unfold Geleset.loadMoreAction
    rw [hbtn2]
    simp only []
    split <;> rfl

/-- Witness for C16 (as amended): the sample row of the generalised controller, and the
pages of the two other scripts with an empty grid, after a click. -/
theorem load_more_control_after_action_witness :
    (Collection.loadMoreAction "Load more"
        (Collection.loadMoreClick Collection.sampleLoad)).loadMoreBtn
      = some ⟨false, "Load more"⟩ ∧
    (Collection.loadMoreAction "Load more"
        (Collection.loadMoreClick Collection.sampleLoad)).row
      = some (Collection.safeLoadMore Collection.sampleCells) :=
  have h := load_more_control_after_action "Load more"
    (Collection.loadMoreClick Collection.sampleLoad) Collection.sampleCells
    ⟨true, "Loading..."⟩ rfl rfl (Iro.loadMoreClick Iro.emptyPage)
    (Geleset.loadMoreClick Geleset.emptyPage) ⟨true, "Loading..."⟩ rfl
  ⟨h.1, h.2.1⟩

/-- C16 as stated fails on a grid without product cards: after the click and the
delayed action the controls of `Geleset.js` and of `iro-and-buba.js` are disabled and
show `No more items`, while that of the generalised controller is enabled. -/
theorem load_more_stays_disabled :
    Geleset.getProducts Geleset.emptyPage.grid = [] ∧
    (Geleset.loadMoreAction (Geleset.loadMoreClick Geleset.emptyPage)).loadMoreBtn
      = some ⟨true, "No more items"⟩ ∧
    (Iro.loadMoreAction "Load more" (Iro.loadMoreClick Iro.emptyPage)).loadMoreBtn
      = ⟨true, "No more items"⟩ ∧
    (Collection.loadMoreAction (Collection.loadMoreOriginal Collection.emptyLoad)
        (Collection.loadMoreClick Collection.emptyLoad)).loadMoreBtn
      = some ⟨false, "Load more"⟩ := by
  decide

/-- C17 (as amended): for a helpful control whose counter shows the whole number `n`
(as a decimal numeral, or as a number the script wrote).  If the control is not pressed
and `n < 2^53`, successive activations alternate the counter between `n + 1` and `n` and
the pressed state between true and false, and two activations restore both.  If the control is pressed and `1 ≤ n ≤ 2^53`, they alternate
the counter between `n - 1` and `n`, and two activations restore both.  A pressed
control showing 0 goes to 0 (not pressed) and then to 1 (pressed). -/
theorem helpful_toggle (h : Reviews.HelpfulBtn) (t : NumText) (n : Nat)
    (hb : h.badge = some t) (hs : Reviews.CounterShows t n) :
    (Reviews.pressed h = false → n < 2 ^ 53 →
      Reviews.shownCount (Reviews.helpfulClick h) = JsNumber.fin (n + 1) ∧
      Reviews.pressed (Reviews.helpfulClick h) = true ∧
      Reviews.shownCount (Reviews.helpfulClick (Reviews.helpfulClick h)) = JsNumber.fin n ∧
      Reviews.pressed (Reviews.helpfulClick (Reviews.helpfulClick h)) = false ∧
      Reviews.helpfulClick (Reviews.helpfulClick (Reviews.helpfulClick h))
        = Reviews.helpfulClick h) ∧
    (Reviews.pressed h = true → 1 ≤ n → n ≤ 2 ^ 53 →
      Reviews.shownCount (Reviews.helpfulClick h) = JsNumber.fin (n - 1) ∧
      Reviews.pressed (Reviews.helpfulClick h) = false ∧
      Reviews.shownCount (Reviews.helpfulClick (Reviews.helpfulClick h)) = JsNumber.fin n ∧
      Reviews.pressed (Reviews.helpfulClick (Reviews.helpfulClick h)) = true ∧
      Reviews.helpfulClick (Reviews.helpfulClick (Reviews.helpfulClick h))
        = Reviews.helpfulClick h) ∧
    (Reviews.pressed h = true → n = 0 →
      Reviews.shownCount (Reviews.helpfulClick h) = JsNumber.fin 0 ∧
      Reviews.pressed (Reviews.helpfulClick h) = false ∧
      Reviews.shownCount (Reviews.helpfulClick (Reviews.helpfulClick h)) = JsNumber.fin 1 ∧
      Reviews.pressed (Reviews.helpfulClick (Reviews.helpfulClick h)) = true) := by
  refine ⟨?_, ?_, ?_⟩
  · intro hp hlt
    have hn := Reviews.textNumber_of_shows t n hs (Nat.le_of_lt hlt)
    have e1 : Reviews.helpfulClick h = ⟨some "true", some (NumText.num (JsNumber.fin (n + 1)))⟩ := by
      rw [Reviews.helpfulClick_of_not_pressed h t hb hp, hn, Reviews.jsAdd_one n hlt]
    have e2 : Reviews.helpfulClick (Reviews.helpfulClick h)
        = ⟨some "false", some (NumText.num (JsNumber.fin n))⟩ := by
      rw [e1, Reviews.helpfulClick_of_pressed _ _ rfl (Reviews.pressed_true _)]
      show Reviews.HelpfulBtn.mk _ (some (NumText.num (maxZeroPred (JsNumber.fin (n + 1))))) = _
      rw [Reviews.maxZeroPred_succ n (Nat.le_of_lt hlt)]
    have e3 : Reviews.helpfulClick (Reviews.helpfulClick (Reviews.helpfulClick h))
        = ⟨some "true", some (NumText.num (JsNumber.fin (n + 1)))⟩ := by
      rw [e2, Reviews.helpfulClick_of_not_pressed _ _ rfl (Reviews.pressed_false _)]
      show Reviews.HelpfulBtn.mk _ (some (NumText.num (jsAdd (JsNumber.fin n) (JsNumber.fin 1)))) = _
      rw [Reviews.jsAdd_one n hlt]
    rw [e3, e2, e1]
    exact ⟨rfl, Reviews.pressed_true _, rfl, Reviews.pressed_false _, rfl⟩
  · intro hp h1 hle
    have hn := Reviews.textNumber_of_shows t n hs hle
    obtain ⟨m, rfl⟩ : ∃ m, n = m + 1 := ⟨n - 1, by omega⟩
    have hm : m < 2 ^ 53 := by omega
    have e1 : Reviews.helpfulClick h = ⟨some "false", some (NumText.num (JsNumber.fin m))⟩ := by
      rw [Reviews.helpfulClick_of_pressed h t hb hp, hn,
        Reviews.maxZeroPred_succ m (Nat.le_of_lt hm)]
    have e2 : Reviews.helpfulClick (Reviews.helpfulClick h)
        = ⟨some "true", some (NumText.num (JsNumber.fin (m + 1)))⟩ := by
      rw [e1, Reviews.helpfulClick_of_not_pressed _ _ rfl (Reviews.pressed_false _)]
      show Reviews.HelpfulBtn.mk _ (some (NumText.num (jsAdd (JsNumber.fin m) (JsNumber.fin 1)))) = _
      rw [Reviews.jsAdd_one m hm]
    have e3 : Reviews.helpfulClick (Reviews.helpfulClick (Reviews.helpfulClick h))
        = ⟨some "false", some (NumText.num (JsNumber.fin m))⟩ := by
      rw [e2, Reviews.helpfulClick_of_pressed _ _ rfl (Reviews.pressed_true _)]
      show Reviews.HelpfulBtn.mk _ (some (NumText.num (maxZeroPred (JsNumber.fin (m + 1))))) = _
      rw [Reviews.maxZeroPred_succ m (Nat.le_of_lt hm)]
    rw [e3, e2, e1]
    exact ⟨rfl, Reviews.pressed_false _, rfl, Reviews.pressed_true _, rfl⟩
  · intro hp h0
    subst h0
    have hn := Reviews.textNumber_of_shows t 0 hs (by decide)
    have e1 : Reviews.helpfulClick h = ⟨some "false", some (NumText.num (JsNumber.fin 0))⟩ := by
      rw [Reviews.helpfulClick_of_pressed h t hb hp, hn]
      rfl
    have e2 : Reviews.helpfulClick (Reviews.helpfulClick h)
        = ⟨some "true", some (NumText.num (JsNumber.fin 1))⟩ := by
      rw [e1, Reviews.helpfulClick_of_not_pressed _ _ rfl (Reviews.pressed_false _)]
      show Reviews.HelpfulBtn.mk _ (some (NumText.num (jsAdd (JsNumber.fin 0) (JsNumber.fin 1)))) = _
      rw [Reviews.jsAdd_one 0 (by decide)]
    rw [e2, e1]
    exact ⟨rfl, Reviews.pressed_false _, rfl, Reviews.pressed_true _⟩

/-- Witness for C17 (as amended): a control that is not pressed and shows 2, and a
pressed control that shows 7. -/
theorem helpful_toggle_witness :
    (Reviews.shownCount (Reviews.helpfulClick ⟨some "false", some (NumText.text "2")⟩)
        = JsNumber.fin 3 ∧
      Reviews.shownCount (Reviews.helpfulClick
        (Reviews.helpfulClick ⟨some "false", some (NumText.text "2")⟩)) = JsNumber.fin 2) ∧
    (Reviews.shownCount (Reviews.helpfulClick ⟨some "true", some (NumText.text "7")⟩)
        = JsNumber.fin 6 ∧
      Reviews.shownCount (Reviews.helpfulClick
        (Reviews.helpfulClick ⟨some "true", some (NumText.text "7")⟩)) = JsNumber.fin 7) :=
  have h1 := (helpful_toggle ⟨some "false", some (NumText.text "2")⟩ (NumText.text "2") 2
    rfl ⟨by decide, by decide, by decide⟩).1 (by decide) (by decide)
  have h2 := (helpful_toggle ⟨some "true", some (NumText.text "7")⟩ (NumText.text "7") 7
    rfl ⟨by decide, by decide, by decide⟩).2.1 (by decide) (by decide) (by decide)
  ⟨⟨h1.1, h1.2.2.1⟩, ⟨h2.1, h2.2.2.1⟩⟩

/-- C17 as stated fails for a pressed control that shows 0: the first activation leaves
0 and releases the control, the second gives 1, so two activations do not restore the
counter.  It also fails at `2^53`: from a control that is not pressed and shows
9007199254740992 the first activation leaves that number (the sum rounds), and the
second gives 9007199254740991. -/
theorem helpful_toggle_counterexample :
    Reviews.CounterShows (NumText.text "0") 0 ∧
    Reviews.CounterShows (NumText.text "9007199254740992") 9007199254740992 ∧
    Reviews.shownCount ⟨some "true", some (NumText.text "0")⟩ = JsNumber.fin 0 ∧
    Reviews.shownCount (Reviews.helpfulClick ⟨some "true", some (NumText.text "0")⟩)
      = JsNumber.fin 0 ∧
    Reviews.helpfulClick (Reviews.helpfulClick ⟨some "true", some (NumText.text "0")⟩)
      = ⟨some "true", some (NumText.num (JsNumber.fin 1))⟩ ∧
    Reviews.shownCount ⟨some "false", some (NumText.text "9007199254740992")⟩
      = JsNumber.fin 9007199254740992 ∧
    Reviews.helpfulClick ⟨some "false", some (NumText.text "9007199254740992")⟩
      = ⟨some "true", some (NumText.num (JsNumber.fin 9007199254740992))⟩ ∧
    Reviews.helpfulClick
        (Reviews.helpfulClick ⟨some "false", some (NumText.text "9007199254740992")⟩)
      = ⟨some "false", some (NumText.num (JsNumber.fin 9007199254740991))⟩ := by
  refine ⟨⟨by decide, by decide, by decide⟩, ⟨by decide, by decide, by decide⟩,
    ?_, ?_, ?_, ?_, ?_, ?_⟩ <;> decide

/-- C18 (as amended): on a page whose ratings and counters are readable (whole-number
numerals, or texts that are no numbers), a submission with non-empty trimmed name, a
readable rating and non-empty trimmed comment leaves the list with exactly one more
review node: the new node together with the old ones, each with its display set by the
filter; the list stays readable.  When the handler returns, the
hidden nodes come first and the visible nodes follow as sorted.  So the new node is the
first node of the list when the filter hides it, and also when the sort mode is `newest`
and no node is hidden; in the mode `newest` the visible nodes keep their order, the new
node before the old ones. -/
theorem valid_submission_adds_one (fmt : JsNumber → Nat → String) (form : Reviews.Form)
    (pg : Reviews.Page) (hn : trim (form.name.getD "") ≠ "") (hr : form.rating.getD "" ≠ "")
    (hc : trim (form.comment.getD "") ≠ "")
    (hp : Reviews.readableList pg.list = true)
    (hnew : Reviews.readable (form.rating.getD "") = true) :
    Reviews.readableList (Reviews.submit fmt form pg).page.list = true ∧
    (Reviews.submit fmt form pg).page.list.length = pg.list.length + 1 ∧
    (Reviews.submit fmt form pg).page.list.Perm
      ((Reviews.newReview (form.rating.getD "") :: pg.list).map (Reviews.setDisplay pg)) ∧
    (Reviews.submit fmt form pg).page.list
      = ((Reviews.newReview (form.rating.getD "") :: pg.list).filter
            (fun n => !Reviews.shows pg n)).map (Reviews.setDisplay pg)
        ++ jsSort (Reviews.compareBy (Reviews.sortBy pg))
            (((Reviews.newReview (form.rating.getD "") :: pg.list).filter
              (Reviews.shows pg)).map (Reviews.setDisplay pg)) ∧
    (Reviews.shows pg (Reviews.newReview (form.rating.getD "")) = false →
      (Reviews.submit fmt form pg).page.list.head?
        = some (Reviews.setDisplay pg (Reviews.newReview (form.rating.getD "")))) ∧
    (Reviews.sortBy pg = "newest" →
      (Reviews.submit fmt form pg).page.list
        = ((Reviews.newReview (form.rating.getD "") :: pg.list).filter
              (fun n => !Reviews.shows pg n)).map (Reviews.setDisplay pg)
          ++ ((Reviews.newReview (form.rating.getD "") :: pg.list).filter
              (Reviews.shows pg)).map (Reviews.setDisplay pg)) ∧
    (Reviews.sortBy pg = "newest" →
      (∀ n ∈ Reviews.newReview (form.rating.getD "") :: pg.list, Reviews.shows pg n = true) →
      (Reviews.submit fmt form pg).page.list
        = (Reviews.newReview (form.rating.getD "") :: pg.list).map (Reviews.setDisplay pg)) := by
  have e : (Reviews.submit fmt form pg).page.list
      = ((Reviews.newReview (form.rating.getD "") :: pg.list).filter
            (fun n => !Reviews.shows pg n)).map (Reviews.setDisplay pg)
        ++ jsSort (Reviews.compareBy (Reviews.sortBy pg))
            (((Reviews.newReview (form.rating.getD "") :: pg.list).filter
              (Reviews.shows pg)).map (Reviews.setDisplay pg)) := by
    rw [Reviews.submit_valid fmt form pg hn hr hc]
    exact Reviews.applyFiltersAndSort_list _
  have p : (Reviews.submit fmt form pg).page.list.Perm
      ((Reviews.newReview (form.rating.getD "") :: pg.list).map (Reviews.setDisplay pg)) := by
    rw [Reviews.submit_valid fmt form pg hn hr hc]
    exact Reviews.applyFiltersAndSort_perm _
  have enew : Reviews.sortBy pg = "newest" →
      (Reviews.submit fmt form pg).page.list
        = ((Reviews.newReview (form.rating.getD "") :: pg.list).filter
              (fun n => !Reviews.shows pg n)).map (Reviews.setDisplay pg)
          ++ ((Reviews.newReview (form.rating.getD "") :: pg.list).filter
              (Reviews.shows pg)).map (Reviews.setDisplay pg) := by
    intro hs
    rw [e, hs, jsSort_zero _ Reviews.compareBy_newest]
  refine ⟨?_, ?_, p, e, ?_, enew, ?_⟩
  · exact Reviews.readableList_of_perm _ _ p
      (Reviews.readableList_map_setDisplay pg _ (Reviews.readableList_insert _ _ hnew hp))
  · have hl := p.length_eq
    rw [List.length_map] at hl
    exact hl
  · intro hs
    rw [e, List.filter_cons_of_pos (by simp [hs])]
    rfl
  · intro hs hall
    rw [enew hs]
    have h1 : (Reviews.newReview (form.rating.getD "") :: pg.list).filter
        (fun n => !Reviews.shows pg n) = [] := by
      rw [List.filter_eq_nil_iff]
      intro n hmem
      simp [hall n hmem]
    have h2 : (Reviews.newReview (form.rating.getD "") :: pg.list).filter (Reviews.shows pg)
        = Reviews.newReview (form.rating.getD "") :: pg.list :=
      List.filter_eq_self.2 hall
    rw [h1, h2]
    rfl

/-- Witness for C18 (as amended): the sample form submitted on the sample page, whose
ratings are `5`, `4` and `4` and whose badges read `2`, `7`, `Verified` and `0`. -/
theorem valid_submission_adds_one_witness :
    (Reviews.submit Reviews.fixed1 Reviews.sampleForm Reviews.samplePage).page.list.length
      = Reviews.samplePage.list.length + 1 ∧
    (Reviews.submit Reviews.fixed1 Reviews.sampleForm Reviews.samplePage).page.list.Perm
      ((Reviews.newReview (Reviews.sampleForm.rating.getD "") :: Reviews.samplePage.list).map
        (Reviews.setDisplay Reviews.samplePage)) :=
  have h := valid_submission_adds_one Reviews.fixed1 Reviews.sampleForm Reviews.samplePage
    (by decide) (by decide) (by decide) (by decide) (by decide)
  ⟨h.2.1, h.2.2.1⟩

/-- C18 as stated fails on the sample page in the sort mode `highest`: after a valid
submission with the rating 3 the new node is the last node of the list, behind the
reviews rated 5, 4 and 4. -/
theorem valid_submission_counterexample :
    Reviews.readableList Reviews.highestPage.list = true ∧
    Reviews.readable (Reviews.threeForm.rating.getD "") = true ∧
    Reviews.sortBy Reviews.highestPage = "highest" ∧
    trim (Reviews.threeForm.name.getD "") ≠ "" ∧ Reviews.threeForm.rating.getD "" ≠ "" ∧
    trim (Reviews.threeForm.comment.getD "") ≠ "" ∧
    (Reviews.submit Reviews.fixed1 Reviews.threeForm Reviews.highestPage).page.list.map
        (fun n => n.dataRating)
      = [some "5", some "4", some "4", some "3"] ∧
    (Reviews.submit Reviews.fixed1 Reviews.threeForm Reviews.highestPage).page.list.head?
      ≠ some (Reviews.newReview "3") := by
  refine ⟨?_, ?_, ?_, ?_, ?_, ?_, ?_, ?_⟩ <;> decide

/-- C19: on a page whose ratings and counters are readable (whole-number numerals, or
texts that are no numbers), and for a readable new rating: after a valid submission the
displayed total is the number of review nodes,
one more than before, and the displayed average is the engine's one-decimal text of the
quotient of the sum of all ratings, hidden nodes included, by that number (`0.0` when
the sum is 0): with the sum `s` over `t` nodes before and the new rating `r`, it is the
text of `(r + s) / (t + 1)`.  After a load-more on a list that is not empty the displayed
total is the number of review nodes, three more than before, and the displayed average
is taken in the same way over all nodes of the extended list.  Sums are exact while they
stay within `2^53`. -/
theorem summary_after_mutation (fmt : JsNumber → Nat → String) (form : Reviews.Form)
    (pg : Reviews.Page) (hn : trim (form.name.getD "") ≠ "") (hr : form.rating.getD "" ≠ "")
    (hc : trim (form.comment.getD "") ≠ "")
    (hfin : ∀ n ∈ Reviews.newReview (form.rating.getD "") :: pg.list,
      Reviews.ratingOf n ≠ JsNumber.inf)
    (hsum : Reviews.ratingNat (Reviews.newReview (form.rating.getD ""))
      + (pg.list.map Reviews.ratingNat).sum ≤ 2 ^ 53)
    (lp : Reviews.Page) (btn : LoadBtn) (hbtn : lp.loadMoreBtn = some btn)
    (hne : lp.list ≠ [])
    (hp : Reviews.readableList pg.list = true)
    (hnew : Reviews.readable (form.rating.getD "") = true)
    (hlp : Reviews.readableList lp.list = true) :
    Reviews.readableList (Reviews.submit fmt form pg).page.list = true ∧
    Reviews.readableList (Reviews.loadMoreAction fmt lp).list = true ∧
    (Reviews.submit fmt form pg).page.totalText
      = NumText.num (JsNumber.fin (pg.list.length + 1)) ∧
    (Reviews.submit fmt form pg).page.list.length = pg.list.length + 1 ∧
    Reviews.computeStats pg.list
      = ⟨pg.list.length, JsNumber.fin (pg.list.map Reviews.ratingNat).sum⟩ ∧
    ((Reviews.submit fmt form pg).page.list.map Reviews.ratingNat).sum
      = Reviews.ratingNat (Reviews.newReview (form.rating.getD ""))
        + (pg.list.map Reviews.ratingNat).sum ∧
    (Reviews.submit fmt form pg).page.avgText
      = (if Reviews.ratingNat (Reviews.newReview (form.rating.getD ""))
            + (pg.list.map Reviews.ratingNat).sum = 0 then "0.0"
         else fmt (JsNumber.fin (Reviews.ratingNat (Reviews.newReview (form.rating.getD ""))
            + (pg.list.map Reviews.ratingNat).sum)) (pg.list.length + 1)) ∧
    (Reviews.loadMoreAction fmt lp).totalText
      = NumText.num (JsNumber.fin (lp.list.length + 3)) ∧
    (Reviews.loadMoreAction fmt lp).list.length = lp.list.length + 3 ∧
    (Reviews.loadMoreAction fmt lp).avgText
      = (if Reviews.avgIsZero (Reviews.computeStats
            (lp.list ++ (Reviews.loadMoreClones lp.list).map Reviews.cloneReview)) then "0.0"
         else fmt (Reviews.sumRatings
            (lp.list ++ (Reviews.loadMoreClones lp.list).map Reviews.cloneReview))
            (lp.list.length + 3)) := by
  have hsub := Reviews.submit_valid fmt form pg hn hr hc
  have hs1 := Reviews.sumRatings_exact _ hfin
    (by simp only [List.map_cons, List.sum_cons]; exact hsum)
  simp only [List.map_cons, List.sum_cons] at hs1
  have hs0 := Reviews.sumRatings_exact pg.list
    (fun n hm => hfin n (List.mem_cons_of_mem _ hm)) (by omega)
  have hla := Reviews.loadMoreAction_nonempty fmt lp btn hbtn hne
  have hlen : (lp.list ++ (Reviews.loadMoreClones lp.list).map Reviews.cloneReview).length
      = lp.list.length + 3 := by
    rw [List.length_append, List.length_map, Reviews.clones_length lp.list hne]
  refine ⟨?_, ?_, ?_, ?_, ?_, ?_, ?_, ?_, ?_, ?_⟩
  · rw [hsub]
    exact Reviews.readableList_applyFiltersAndSort _ (Reviews.readableList_insert _ _ hnew hp)
  · rw [hla]
    exact Reviews.readableList_applyFiltersAndSort _ (Reviews.readableList_loadMore _ hlp)
  · rw [hsub]; rfl
  · rw [hsub]
    have hl := (Reviews.applyFiltersAndSort_perm (Reviews.updateSummary fmt
      { pg with list := Reviews.newReview (form.rating.getD "") :: pg.list })).length_eq
    rw [List.length_map] at hl
    exact hl
  · unfold Reviews.computeStats
    rw [hs0]
  · rw [hsub]
    exact Reviews.sum_ratingNat_applyFiltersAndSort _
  · rw [hsub]
    show (if Reviews.avgIsZero (Reviews.computeStats
        (Reviews.newReview (form.rating.getD "") :: pg.list)) then "0.0"
      else fmt (Reviews.computeStats (Reviews.newReview (form.rating.getD "") :: pg.list)).sum
        (Reviews.computeStats (Reviews.newReview (form.rating.getD "") :: pg.list)).total) = _
    unfold Reviews.computeStats Reviews.avgIsZero
    rw [hs1]
    simp
  · rw [hla]
    show NumText.num (JsNumber.fin
      (lp.list ++ (Reviews.loadMoreClones lp.list).map Reviews.cloneReview).length) = _
    rw [hlen]
  · rw [hla]
    have hl := (Reviews.applyFiltersAndSort_perm (Reviews.updateSummary fmt
      { lp with
        list := lp.list ++ (Reviews.loadMoreClones lp.list).map Reviews.cloneReview })).length_eq
    rw [List.length_map] at hl
    exact hl.trans hlen
  · rw [hla]
    show (if Reviews.avgIsZero (Reviews.computeStats
        (lp.list ++ (Reviews.loadMoreClones lp.list).map Reviews.cloneReview)) then "0.0"
      else fmt (Reviews.computeStats
          (lp.list ++ (Reviews.loadMoreClones lp.list).map Reviews.cloneReview)).sum
        (Reviews.computeStats
          (lp.list ++ (Reviews.loadMoreClones lp.list).map Reviews.cloneReview)).total) = _
    unfold Reviews.computeStats
    simp only [hlen]

/-- Witness for C19: the sample form (rating 5) submitted on the sample page (ratings
5, 4 and 4, the second hidden) gives the total 4 and the average text `4.5`; a
load-more on the sample page gives the total 6. -/
theorem summary_after_mutation_witness :
    (Reviews.submit Reviews.fixed1 Reviews.sampleForm Reviews.samplePage).page.totalText
      = NumText.num (JsNumber.fin (3 + 1)) ∧
    (Reviews.submit Reviews.fixed1 Reviews.sampleForm Reviews.samplePage).page.avgText
      = "4.5" ∧
    (Reviews.loadMoreAction Reviews.fixed1 Reviews.samplePage).totalText
      = NumText.num (JsNumber.fin (3 + 3)) :=
  have h := summary_after_mutation Reviews.fixed1 Reviews.sampleForm Reviews.samplePage
    (by decide) (by decide) (by decide) (by decide) (by decide) Reviews.samplePage
    ⟨false, "Load more reviews"⟩ rfl (by decide) (by decide) (by decide) (by decide)
  ⟨h.2.2.1, h.2.2.2.2.2.2.1.trans (by decide), h.2.2.2.2.2.2.2.1⟩

/-- C20: when the trimmed name, the rating or the trimmed comment of a submission is
empty, the submit handler stops after flagging a field: the page is as before, so no
node is inserted and the list, the displayed total and the displayed average are
unchanged. -/
theorem invalid_submission_aborts (fmt : JsNumber → Nat → String) (form : Reviews.Form)
    (pg : Reviews.Page)
    (h : trim (form.name.getD "") = "" ∨ form.rating.getD "" = "" ∨
      trim (form.comment.getD "") = "") :
    (Reviews.submit fmt form pg).page = pg ∧
    (Reviews.submit fmt form pg).page.list = pg.list ∧
    (Reviews.submit fmt form pg).page.totalText = pg.totalText ∧
    (Reviews.submit fmt form pg).page.avgText = pg.avgText ∧
    (Reviews.submit fmt form pg).thanked = false ∧
    (Reviews.submit fmt form pg).flagged ≠ Option.none := by
  obtain ⟨h1, h2, h3⟩ := Reviews.submit_invalid fmt form pg h
  rw [h1]
  exact ⟨rfl, rfl, rfl, rfl, h2, h3⟩

/-- Witness for C20: the sample page and a form whose name is white space only. -/
theorem invalid_submission_aborts_witness :
    trim (Reviews.blankNameForm.name.getD "") = "" ∧
    (Reviews.submit Reviews.fixed1 Reviews.blankNameForm Reviews.samplePage).page
      = Reviews.samplePage ∧
    (Reviews.submit Reviews.fixed1 Reviews.blankNameForm Reviews.samplePage).flagged
      = some Reviews.Field.name :=
  have h := invalid_submission_aborts Reviews.fixed1 Reviews.blankNameForm Reviews.samplePage
    (Or.inl (by decide))
  ⟨by decide, h.1, by decide⟩

/-- C21 (as amended): on a list of reviews whose ratings and counters are readable
(whole-number numerals, or texts that are no numbers), after `applyFiltersAndSort` the
list holds the same review nodes and is readable again, and a node is visible exactly
when (the verified-only box is off or the review is
verified) and (the active filter is `all`, or is empty or does not start with a number,
or the numeric rating of the review equals the number the filter starts with); for a
filter that is a decimal numeral this number is its value.  The empty-state notice is
shown exactly when no review is visible. -/
theorem review_visibility (pg : Reviews.Page)
    (hp : Reviews.readableList pg.list = true) :
    Reviews.readableList (Reviews.applyFiltersAndSort pg).list = true ∧
    (Reviews.applyFiltersAndSort pg).list.Perm (pg.list.map (Reviews.setDisplay pg)) ∧
    (∀ n ∈ (Reviews.applyFiltersAndSort pg).list,
      (n.display ≠ "none" ↔
        (Reviews.verifiedOnly pg = false ∨ Reviews.verified n = true) ∧
          Reviews.FilterAdmits (Reviews.activeFilter pg) (Reviews.ratingOf n))) ∧
    (∀ (flt : String) (rating : JsNumber), flt.data ≠ [] →
      (∀ c ∈ flt.data, isDigit c = true) →
      (Reviews.FilterAdmits flt rating ↔ rating = roundDouble (mathInt flt.data))) ∧
    ((Reviews.applyFiltersAndSort pg).emptyDisplay = "" ↔
      ∀ n ∈ (Reviews.applyFiltersAndSort pg).list, n.display = "none") ∧
    ((Reviews.applyFiltersAndSort pg).emptyDisplay ≠ "" →
      (Reviews.applyFiltersAndSort pg).emptyDisplay = "none") := by
  have hread := Reviews.readableList_applyFiltersAndSort pg hp
  have hp := Reviews.applyFiltersAndSort_perm pg
  have hempty : (Reviews.applyFiltersAndSort pg).emptyDisplay
      = if (pg.list.map (Reviews.setDisplay pg)).filter (fun n => n.display ≠ "none") ≠ []
        then "none" else "" := rfl
  refine ⟨hread, hp, ?_, ?_, ?_, ?_⟩
  · intro n hn
    obtain ⟨m, _, rfl⟩ := List.mem_map.1 (hp.mem_iff.1 hn)
    have hd := Reviews.display_setDisplay pg m
    have hs := Reviews.shows_iff pg m
    have hv : Reviews.verified (Reviews.setDisplay pg m) = Reviews.verified m := rfl
    have hr : Reviews.ratingOf (Reviews.setDisplay pg m) = Reviews.ratingOf m := rfl
    rw [hv, hr, ← hs, ← hd]
    simp
  · intro flt rating hne hd
    have hparse := parseIntSigned_digits flt hne hd
    have hall : flt ≠ "all" := by
      intro he
      rw [he] at hd
      exact absurd (hd 'a' (by decide)) (by decide)
    have hnon : flt ≠ "" := by
      intro he
      rw [he] at hne
      exact hne rfl
    unfold Reviews.FilterAdmits
    rw [hparse]
    constructor
    · intro h
      rcases h with h | h | h | ⟨neg, x, he, hr, _⟩
      · exact absurd h hall
      · exact absurd h hnon
      · cases h
      · cases he
        exact hr
    · intro h
      exact Or.inr (Or.inr (Or.inr ⟨false, _, rfl, h, Or.inl rfl⟩))
  · rw [hempty]
    constructor
    · intro h n hn
      have hn2 := hp.mem_iff.1 hn
      by_cases hf : (pg.list.map (Reviews.setDisplay pg)).filter
          (fun n => n.display ≠ "none") ≠ []
      · rw [if_pos hf] at h
        exact absurd h (by decide)
      · have hnil := not_not.1 hf
        rw [List.filter_eq_nil_iff] at hnil
        have := hnil n hn2
        simpa using this
    · intro h
      have hnil : (pg.list.map (Reviews.setDisplay pg)).filter
          (fun n => n.display ≠ "none") = [] := by
        rw [List.filter_eq_nil_iff]
        intro n hn
        have := h n (hp.mem_iff.2 hn)
        simp [this]
      rw [hnil]
      simp
  · rw [hempty]
    intro h
    split
    · rfl
    · rename_i hf
      rw [if_neg hf] at h
      exact absurd rfl h

/-- Witness for C21 (as amended): the sample page with the rating filter `4` active
shows the two reviews rated 4 and hides the one rated 5, and the notice is hidden. -/
theorem review_visibility_witness :
    Reviews.readableList Reviews.fourPage.list = true ∧
    (Reviews.applyFiltersAndSort Reviews.fourPage).list.map
        (fun n => (n.dataRating, n.display))
      = [(some "5", "none"), (some "4", ""), (some "4", "")] ∧
    ((Reviews.applyFiltersAndSort Reviews.fourPage).emptyDisplay = "" ↔
      ∀ n ∈ (Reviews.applyFiltersAndSort Reviews.fourPage).list, n.display = "none") :=
  have h := review_visibility Reviews.fourPage (by decide)
  ⟨by decide, by decide, h.2.2.2.2.1⟩

/-- C21 as stated fails when the active filter control carries a tag that is no
number: with the control `top` active on the sample page (verified-only off), no
review is hidden, although the filter is not `all` and no rating equals it. -/
theorem review_visibility_counterexample :
    Reviews.readableList Reviews.topPage.list = true ∧
    Reviews.activeFilter Reviews.topPage = "top" ∧
    Reviews.verifiedOnly Reviews.topPage = false ∧
    (Reviews.applyFiltersAndSort Reviews.topPage).list.map
        (fun n => (n.dataRating, n.display))
      = [(some "5", ""), (some "4", ""), (some "4", "")] := by
  decide

/-- Claim C22, at an image on which it fails.  The sample image is marked lazy and has
both `data-src` and `data-srcset`.  Without the intersection facility `initLazy` of
`wrapperSets.js` copies `data-src` only: the image is marked loaded but has no `srcset`,
while the observer callback gives it both.  `setupLazyLoad` of `Agbada.js` copies both,
as its observer callback does.  In both scripts a second pass without the facility
changes nothing. -/
theorem lazy_fallback_skips_srcset (imgs : List Img) :
    Collection.initLazy false [sampleImg]
      = [⟨some "gown.jpg", Option.none, some "gown.jpg", some "gown.jpg 1x, gown-2x.jpg 2x",
          false, true, false⟩] ∧
    lazyLoad sampleImg
      = ⟨some "gown.jpg", some "gown.jpg 1x, gown-2x.jpg 2x", some "gown.jpg",
          some "gown.jpg 1x, gown-2x.jpg 2x", false, true, false⟩ ∧
    Agbada.setupLazyLoad false [sampleImg] = [lazyLoad sampleImg] ∧
    (∀ img : Img, img.observed = false → Agbada.lazyFallback img = lazyLoad img) ∧
    Collection.initLazy false (Collection.initLazy false imgs)
      = Collection.initLazy false imgs ∧
    Agbada.setupLazyLoad false (Agbada.setupLazyLoad false imgs)
      = Agbada.setupLazyLoad false imgs := by
  refine ⟨by decide, by decide, by decide, ?_, ?_, ?_⟩
  · intro img h
    unfold Agbada.lazyFallback lazyLoad
    have e : (copySrcset (copySrc img)).observed = img.observed := by
      unfold copySrcset copySrc
      repeat' split
      all_goals rfl
    rw [← h, ← e]
  · unfold Collection.initLazy
    simp only [Bool.false_eq_true, if_false, List.map_map]
    apply List.map_congr_left
    intro i _
    by_cases hi : i.isLazy = true
    · simp [hi, Collection.lazyFallback]
    · simp [hi]
  · unfold Agbada.setupLazyLoad
    simp only [Bool.false_eq_true, if_false, List.map_map]
    apply List.map_congr_left
    intro i _
    by_cases hi : i.isLazy = true
    · simp [hi, Agbada.lazyFallback]
    · simp [hi]

/-- C23: over every sequence of `openPreview` and `closePreview` calls of the generalised
controller the body holds at most one overlay created by the script: none, with
`previewOverlay` still `null`, when the sequence holds no `openPreview`, and exactly one
otherwise.  The first `openPreview` creates the overlay, a later one fills the same
overlay, `closePreview` hides it and keeps it, and `closePreview` before any
`openPreview` changes nothing. -/
theorem preview_single_overlay (calls : List Collection.PreviewCall)
    (card : Collection.PreviewCard) (o : Collection.Overlay) :
    (Collection.previewRun calls).body.length ≤ 1 ∧
    ((∃ c, Collection.PreviewCall.openPreview c ∈ calls) →
      Collection.OneOverlay (Collection.previewRun calls)) ∧
    ((¬ ∃ c, Collection.PreviewCall.openPreview c ∈ calls) →
      Collection.NoOverlay (Collection.previewRun calls)) ∧
    Collection.openPreview card Collection.previewStart
      = ⟨[Collection.fillOverlay card Collection.freshOverlay], some 0⟩ ∧
    Collection.openPreview card ⟨[o], some 0⟩ = ⟨[Collection.fillOverlay card o], some 0⟩ ∧
    Collection.closePreview ⟨[o], some 0⟩ = ⟨[Collection.hideOverlay o], some 0⟩ ∧
    (Collection.hideOverlay o).display = "none" ∧
    Collection.closePreview Collection.previewStart = Collection.previewStart := by
  obtain ⟨h1, h2⟩ := Collection.foldl_previewStep_start calls
  refine ⟨?_, h1, h2, rfl, rfl, rfl, rfl, rfl⟩
  by_cases h : ∃ c, Collection.PreviewCall.openPreview c ∈ calls
  · obtain ⟨o1, ho⟩ := h1 h
    unfold Collection.previewRun
    rw [ho]
    exact Nat.le_refl 1
  · unfold Collection.previewRun
    rw [h2 h]
    exact Nat.zero_le 1

/-- C24: both newsletter handlers accept a submission exactly when the trimmed value
holds no white space and has an `@` at a position `i ≥ 1` and a `.` at a position `j`
with `i + 2 ≤ j ≤ length - 2`; they then show the subscribed state.  For every other
value, the empty one included, they flag the input and show nothing. -/
theorem newsletter_accepts (form : Newsletter) (input : EmailInput)
    (hin : form.input = some input) :
    (SpecValidEmail (trim input.value).data →
      Agbada.newsletterSubmit form = ⟨subscribed form, [1600]⟩ ∧
      Script.newsletterSubmit form = ⟨subscribed form, [2200]⟩) ∧
    (¬ SpecValidEmail (trim input.value).data →
      Agbada.newsletterSubmit form
        = ⟨{ form with input := some { input with invalid := true, focused := true } },
            [1400]⟩ ∧
      Script.newsletterSubmit form
        = ⟨{ form with input := some { input with invalid := true } }, [1400]⟩) ∧
    ¬ SpecValidEmail "".data := by
  have hacc : emailAccepted (trim input.value) = true ↔
      SpecValidEmail (trim input.value).data := by
    unfold emailAccepted
    rw [Bool.and_eq_true, emailPattern_spec]
    constructor
    · exact fun h => h.2
    · intro h
      refine ⟨?_, h⟩
      have hne : trim input.value ≠ "" := by
        intro he
        rw [he] at h
        obtain ⟨_, i, j, _, _, _, hl, _⟩ := h
        have h0 : ("" : String).data.length = 0 := rfl
        rw [h0] at hl
        omega
      simpa using hne
  refine ⟨?_, ?_, ?_⟩
  · intro h
    have ha := hacc.2 h
    unfold Agbada.newsletterSubmit Script.newsletterSubmit
    rw [hin]
    simp [ha]
  · intro h
    have ha : emailAccepted (trim input.value) = false := by
      cases he : emailAccepted (trim input.value) with
      | false => rfl
      | true => exact absurd (hacc.1 he) h
    unfold Agbada.newsletterSubmit Script.newsletterSubmit
    rw [hin]
    simp [ha]
  · rintro ⟨_, i, j, _, _, _, hl, _⟩
    have h0 : ("" : String).data.length = 0 := rfl
    rw [h0] at hl
    omega

/-- Witness for C24: the value `ada@example.com` with spaces around it is accepted by
both handlers. -/
theorem newsletter_accepts_witness :
    Agbada.newsletterSubmit (sampleNewsletter " ada@example.com ")
      = ⟨subscribed (sampleNewsletter " ada@example.com "), [1600]⟩ ∧
    Script.newsletterSubmit (sampleNewsletter " ada@example.com ")
      = ⟨subscribed (sampleNewsletter " ada@example.com "), [2200]⟩ :=
  (newsletter_accepts (sampleNewsletter " ada@example.com ") ⟨" ada@example.com ", false, false⟩
    rfl).1 ⟨by decide, 3, 11, by decide, by decide, by decide, by decide, by decide⟩

/-- C25: for every input, `normalizePhone` returns `null` or a non-empty string of
digits that does not begin with `0`; it returns `null` exactly when the input holds
fewer than 10 digits; and an input of at least 10 digits that begins with `0` gives
`234` followed by the digits without their leading zeros. -/
theorem normalizePhone_result (raw : String) :
    (∀ normalized, Casual.normalizePhone raw = some normalized →
      normalized ≠ "" ∧ (∀ ch ∈ normalized.data, isDigit ch = true) ∧
      normalized.data.head? ≠ some '0') ∧
    (Casual.normalizePhone raw = Option.none ↔ (stripNonDigits raw).length < 10) ∧
    (10 ≤ (stripNonDigits raw).length → (stripNonDigits raw).head? = some '0' →
      Casual.normalizePhone raw
        = some ("234" ++ String.mk ((stripNonDigits raw).dropWhile (fun c => c == '0')))) := by
  obtain ⟨h1, h2, h3⟩ := normalizePhone_cases raw
  refine ⟨?_, ⟨?_, h3⟩, h2⟩
  · intro normalized hn
    refine ⟨?_, normalizePhone_digits raw normalized hn, ?_⟩
    · intro he
      subst he
      by_cases hl : 10 ≤ (stripNonDigits raw).length
      · by_cases hh : (stripNonDigits raw).head? = some '0'
        · rw [h2 hl hh] at hn
          have hd := congrArg String.data (Option.some.inj hn)
          simp at hd
        · rw [h1 hl hh] at hn
          have hd := congrArg String.data (Option.some.inj hn)
          simp only [] at hd
          rw [hd] at hl
          exact absurd hl (by decide)
      · rw [h3 (by omega)] at hn
        cases hn
    · by_cases hl : 10 ≤ (stripNonDigits raw).length
      · by_cases hh : (stripNonDigits raw).head? = some '0'
        · rw [h2 hl hh] at hn
          rw [← Option.some.inj hn]
          simp
        · rw [h1 hl hh] at hn
          rw [← Option.some.inj hn]
          exact hh
      · rw [h3 (by omega)] at hn
        cases hn
  · intro hn
    by_cases hl : 10 ≤ (stripNonDigits raw).length
    · by_cases hh : (stripNonDigits raw).head? = some '0'
      · rw [h2 hl hh] at hn; cases hn
      · rw [h1 hl hh] at hn; cases hn
    · omega

/-- Claim C26, at a run on which it fails.  Line 225 of `gifts-1.js` reads
`modal.style-1.cssText = ...`: behind the `-` stands the numeric literal `1.`, directly
followed by the identifier `cssText`, which the language forbids, so the script does not
parse and is never evaluated (with `style.cssText` in its place the line splits into
eight tokens).  On the page as shipped no order modal exists and no handler is attached:
after clicks on two order buttons and an attempt to fill in and submit the form the page
is as the markup gave it, the form carries no submit handler (not one), the checkboxes no
change handler, and no address is opened (not one). -/
theorem gifts_script_never_runs :
    Gifts.lexNumber "1.cssText".data = Option.none ∧
    Gifts.lexNumber "1300;".data = some [';'] ∧
    Gifts.lexTokens 40 "modal.style-1.cssText = 'x';".data = Option.none ∧
    Gifts.lexTokens 40 "modal.style.cssText = 'x';".data = some 8 ∧
    Gifts.scriptParses = false ∧
    Gifts.loadScript Gifts.markupSite = Gifts.markupSite ∧
    Gifts.shippedRun = Gifts.markupSite ∧
    Gifts.shippedRun.page.submitListeners = [] ∧
    Gifts.shippedRun.page.addOns.map (fun cb => cb.changeListeners.length) = [0, 0] ∧
    Gifts.shippedRun.page.opened = [] := by
  have hp : Gifts.scriptParses = false := by
    set_option maxRecDepth 100000 in decide
  have hl : Gifts.loadScript Gifts.markupSite = Gifts.markupSite := by
    unfold Gifts.loadScript
    rw [hp]
    rfl
  have hr : Gifts.shippedRun = Gifts.markupSite := by
    unfold Gifts.shippedRun
    rw [hl]
    decide
  refine ⟨by decide, by decide, by decide, by decide, hp, hl, hr, ?_, ?_, ?_⟩
  · rw [hr]; decide
  · rw [hr]; decide
  · rw [hr]; decide

/-- C27: the two versions of `parsePrice`, `parseInt(digits || '0', 10)` of `Agbada.js`
and `casualWears.js` and `Number(digits) || 0` of `wrapperSets.js`, return the same
number for every input string; on the empty string, on a string without digits and on
digits with leading zeros in particular. -/
theorem parsePrice_versions_agree (text : String) :
    Agbada.parsePrice text = Collection.parsePrice text ∧
    Agbada.parsePrice "" = JsNumber.fin 0 ∧ Collection.parsePrice "" = JsNumber.fin 0 ∧
    Agbada.parsePrice "n/a" = JsNumber.fin 0 ∧ Collection.parsePrice "n/a" = JsNumber.fin 0 ∧
    Agbada.parsePrice "₦007" = JsNumber.fin 7 ∧ Collection.parsePrice "₦007" = JsNumber.fin 7 := by
  refine ⟨?_, by decide, by decide, by decide, by decide, by decide, by decide⟩
  unfold Agbada.parsePrice Collection.parsePrice
  split
  · rfl
  · simp only []
    rw [orZero_eq]
    split
    · rename_i h
      rw [h]
      decide
    · rfl

/-- C28 (as amended): when `normalizePhone(x)` is a number of at least 10 digits, which
is so whenever the digits of `x` do not begin with `0`, `normalizePhone` returns that
number unchanged; when it is shorter, `normalizePhone` rejects it. -/
theorem normalizePhone_again (raw normalized : String)
    (h : Casual.normalizePhone raw = some normalized) :
    (10 ≤ normalized.data.length → Casual.normalizePhone normalized = some normalized) ∧
    (normalized.data.length < 10 → Casual.normalizePhone normalized = Option.none) ∧
    ((stripNonDigits raw).head? ≠ some '0' →
      Casual.normalizePhone normalized = some normalized) := by
  have hd := stripNonDigits_of_digits normalized (normalizePhone_digits raw normalized h)
  obtain ⟨h1, h2, h3⟩ := normalizePhone_cases raw
  obtain ⟨g1, _, g3⟩ := normalizePhone_cases normalized
  rw [hd] at g1 g3
  have hhead : normalized.data.head? ≠ some '0' := by
    by_cases hl : 10 ≤ (stripNonDigits raw).length
    · by_cases hh : (stripNonDigits raw).head? = some '0'
      · rw [h2 hl hh] at h
        rw [← Option.some.inj h]
        simp
      · rw [h1 hl hh] at h
        rw [← Option.some.inj h]
        exact hh
    · rw [h3 (by omega)] at h
      cases h
  refine ⟨fun hl => g1 hl hhead, g3, ?_⟩
  intro hh
  have hl : 10 ≤ (stripNonDigits raw).length := by
    by_cases hl : 10 ≤ (stripNonDigits raw).length
    · exact hl
    · rw [h3 (by omega)] at h
      cases h
  rw [h1 hl hh] at h
  have he := Option.some.inj h
  apply g1 _ hhead
  rw [← he]
  exact hl

/-- Witness for C28 (as amended): a number with a plus sign and spaces. -/
theorem normalizePhone_again_witness :
    Casual.normalizePhone "+234 813 675 4060" = some "2348136754060" ∧
    Casual.normalizePhone "2348136754060" = some "2348136754060" :=
  ⟨by decide,
    (normalizePhone_again "+234 813 675 4060" "2348136754060" (by decide)).1 (by decide)⟩

/-- C28 as stated fails on `0000000001`: `normalizePhone` accepts it and returns `2341`,
a number of four digits, which `normalizePhone` itself rejects. -/
theorem normalizePhone_again_counterexample :
    Casual.normalizePhone "0000000001" = some "2341" ∧
    Casual.normalizePhone "2341" = Option.none := by
  decide

/-- C29: for every string `s`, `escapeHtml(s)` holds none of the characters `<`, `>`,
double quote and apostrophe, every `&` in it begins one of the five entities, and a
string without the five special characters is returned unchanged.  So in the markup of
an inserted review the characters that open or close a tag or an attribute value are
those of the template, whatever name, e-mail and comment the visitor typed. -/
theorem escapeHtml_safe (s : String) (form : Reviews.Form) :
    (∀ x ∈ (Reviews.escapeHtml s).data,
      x ≠ '<' ∧ x ≠ '>' ∧ x ≠ Char.ofNat 34 ∧ x ≠ Char.ofNat 39) ∧
    (∀ t, t <:+ (Reviews.escapeHtml s).data → t.head? = some '&' → Reviews.EntityStart t) ∧
    ((∀ c ∈ s.data, c ≠ '&' ∧ c ≠ '<' ∧ c ≠ '>' ∧ c ≠ Char.ofNat 34 ∧ c ≠ Char.ofNat 39) →
      Reviews.escapeHtml s = s) ∧
    (Reviews.formMarkup form).data.filter Reviews.isMarkupChar
      = (Reviews.reviewMarkup "" "" (form.rating.getD "") "").data.filter
          Reviews.isMarkupChar ∧
    Reviews.escapeHtml "<b onclick='x'>Tom & \"Al\"</b>"
      = "&lt;b onclick=&#39;x&#39;&gt;Tom &amp; &quot;Al&quot;&lt;/b&gt;" := by
  refine ⟨?_, Reviews.escapeHtml_entities s.data, ?_,
    Reviews.reviewMarkup_delimiters _ _ _ _, by decide⟩
  · intro x hx
    have h := Reviews.escapeHtml_no_markup s x hx
    unfold Reviews.isMarkupChar at h
    simp only [Bool.or_eq_false_iff, beq_eq_false_iff_ne, ne_eq] at h
    exact ⟨h.1.1.1, h.1.1.2, h.1.2, h.2⟩
  · intro h
    apply Reviews.escapeHtml_plain
    intro c hc
    obtain ⟨h1, h2, h3, h4, h5⟩ := h c hc
    refine ⟨h1, ?_⟩
    unfold Reviews.isMarkupChar
    simp [h2, h3, h4, h5]

/-- Claim C30, at a document on which it fails.  In the sample document the section
`#featured` lies inside `main`, and the first row below either is the same node.
`autoInit` runs `initCollection` on `#featured` and then, since the document holds a
product card, on `main` as well: the row is initialised twice, each filter control and
the load-more control carry two handlers, and one click on the load-more control runs
`safeLoadMore` twice, which appends 6 cells to the sample row of two product columns. -/
theorem autoInit_initialises_twice :
    (Collection.autoInit Collection.sampleDocument).initialised = [1, 1] ∧
    ((Collection.autoInit Collection.sampleDocument).listeners.filter
      (fun l => l.target == 9 && l.event == Collection.EventKind.loadMoreClick)).length = 2 ∧
    ((Collection.autoInit Collection.sampleDocument).listeners.filter
      (fun l => l.target == 2 && l.event == Collection.EventKind.filterClick)).length = 2 ∧
    Collection.clickLoadMore (Collection.autoInit Collection.sampleDocument) 9 1
        Collection.sampleCells
      = Collection.safeLoadMore (Collection.safeLoadMore Collection.sampleCells) ∧
    (Collection.clickLoadMore (Collection.autoInit Collection.sampleDocument) 9 1
        Collection.sampleCells).length
      = Collection.sampleCells.length + 6 := by
  refine ⟨?_, ?_, ?_, ?_, ?_⟩ <;> decide

end Newpage
